import Mathlib

/-!
# Fog of war: shadow casting, change detection and fog synthesis

A shallow embedding of `src/visionTool.js` (`computeShadow`, `onSceneDataChange`) and
`src/itemFilters.js`.

Conventions of the embedding.

* JavaScript numbers are exact rationals (`ℚ`). Rounding, `NaN` and `Infinity` are outside
  the embedding; every division of the source is guarded by a test that the divisor is not
  zero, except the two `dpi` ratios, which are kept as written.
* Host items (`OBR.scene.items`, `OBR.scene.local`) are records holding the fields the code
  reads or writes. A metadata entry that the code only tests for truthiness is a `Bool`.
* PathKit is an external library. A path is the expression that built it (`Path`), and
  `Path.contains` gives the set of points it fills (non-zero winding rule, the default of a
  new path). What PathKit alone decides (`toCmds`), what the browser decides (`SHA-1`,
  `JSON.stringify`) and the ids the host gives to new items are fields of `Externals`.
* Asynchronous code is run as written, one statement after the other; each `await` of a
  store read returns the store as it was when the pass started.
-/

namespace FogOfWar

/-! ## Geometry primitives -/

/-- A point `{x, y}`. -/
structure Point where
  x : ℚ
  y : ℚ
  deriving DecidableEq, Repr

/-- Modelled from the spec: `squareDistance` of `mathutils` (not under `src/`), the squared
distance of two points. -/
def squareDistance (p1 p2 : Point) : ℚ :=
  (p1.x - p2.x) ^ 2 + (p1.y - p2.y) ^ 2

/-- Modelled from the spec: `isClose` of `mathutils` (not under `src/`), the closeness
comparison of two numbers. The tolerance is not given by the spec and is a parameter. -/
def isClose (tol a b : ℚ) : Bool :=
  decide (|a - b| ≤ tol)

/-- Modelled from the spec: `mod` of `mathutils` (not under `src/`), the modulo with a
result in `0 .. m-1`. -/
def mod (n m : Int) : Int :=
  n % m

/-- Modelled from the spec: `comparePosition` of `mathutils` (not under `src/`):
`lastPosition == observer.position`. -/
def comparePosition (p1 p2 : Point) : Bool :=
  decide (p1 = p2)

/-- The value of `Math.sign`. -/
def mathSign (q : ℚ) : Int :=
  if 0 < q then 1 else if q < 0 then -1 else 0

/-! ## Items of the host -/

/-- The value of the `oneSided` metadata entry when it is set. -/
inductive Side where
  | left
  | right
  deriving DecidableEq, Repr

/-- PathKit commands, as `toCmds` returns them: a list of rows of numbers. -/
abbrev Cmds := List (List ℚ)

/-- The values of the `visionRange` metadata entry of a token. -/
inductive RangeMeta where
  /-- The entry is `undefined`. -/
  | unset
  /-- The entry is `false` (unlimited range). -/
  | unlimited
  /-- The entry is the number `r`. -/
  | num (r : ℚ)
  /-- The entry is a non-empty string that reads as the number `r`. -/
  | str (r : ℚ)
  deriving DecidableEq, Repr

/-- An item of the host, restricted to what the code reads and writes. -/
structure Item where
  id : String := ""
  name : String := ""
  layer : String := ""
  position : Point := ⟨0, 0⟩
  scale : Point := ⟨1, 1⟩
  /-- The field `points` of a drawn shape. -/
  points : List Point := []
  /-- The test `style.closed != false`. -/
  closed : Bool := true
  /-- The fields `image.width`, `image.height` and `grid.dpi` of an image. -/
  imageWidth : ℚ := 0
  imageHeight : ℚ := 0
  gridDpi : ℚ := 1
  /-- The field `commands` of a path item. -/
  commands : Cmds := []
  visible : Bool := true
  zIndex : Int := 0
  fillColor : String := ""
  /-- Truthiness of `metadata[ID/isBackgroundImage]`. -/
  isBackgroundImage : Bool := false
  /-- Truthiness of `metadata[ID/isVisionLine]`. -/
  isVisionLine : Bool := false
  /-- Truthiness of `metadata[ID/disabled]`. -/
  disabled : Bool := false
  /-- Truthiness of `metadata[ID/hasVision]`. -/
  hasVision : Bool := false
  /-- Truthiness of `metadata[ID/isVisionFog]`. -/
  isVisionFog : Bool := false
  /-- The entry `metadata[ID/oneSided]`; `none` is `undefined`. -/
  oneSided : Option Side := none
  /-- The entry `metadata[ID/visionRange]`. -/
  visionRange : RangeMeta := RangeMeta.unset
  /-- The entry `metadata[ID/digest]`. -/
  digest : Option String := none
  /-- The observer ids `p` for which `metadata[ID/p]` is set. -/
  playerTags : List String := []
  deriving DecidableEq, Repr

/-- The filter `isBackgroundImage` of `itemFilters.js`. -/
def isBackgroundImage (item : Item) : Bool :=
  item.layer == "MAP" && item.isBackgroundImage

/-- The filter `isActiveVisionLine` of `itemFilters.js`. -/
def isActiveVisionLine (item : Item) : Bool :=
  item.isVisionLine && !item.disabled

/-- The filter `isPlayerWithVision` of `itemFilters.js`. -/
def isPlayerWithVision (item : Item) : Bool :=
  item.layer == "CHARACTER" && item.hasVision

/-! ## Shadow casting (first step of `computeShadow`) -/

/-- The rectangle of the map: `offset`, `size = [width, height]` and `scale`. -/
structure Bounds where
  offset : Point
  width : ℚ
  height : ℚ
  scale : Point
  deriving DecidableEq, Repr

/-- An entry of `visionLines`. -/
structure VisionLine where
  startPosition : Point
  endPosition : Point
  originalShape : Item
  oneSided : Option Side
  deriving DecidableEq, Repr

/-- The inner loop `for (let i = 0; i < shape.points.length-1; i++)`, run on the list of the
points that are left. -/
def shapeLines (shape : Item) : List Point → List VisionLine
  | p :: q :: rest =>
    { startPosition := ⟨p.x * shape.scale.x + shape.position.x, p.y * shape.scale.y + shape.position.y⟩
      endPosition := ⟨q.x * shape.scale.x + shape.position.x, q.y * shape.scale.y + shape.position.y⟩
      originalShape := shape
      oneSided := shape.oneSided } :: shapeLines shape (q :: rest)
  | _ => []

/-- The loop that extracts all lines from the drawn shapes. -/
def visionLinesOf (visionShapes : List Item) : List VisionLine :=
  visionShapes.flatMap (fun shape => shapeLines shape shape.points)

/-- The value `signedDistance` of a player position and a line. -/
def signedDistance (pos : Point) (line : VisionLine) : ℚ :=
  (pos.x - line.startPosition.x) * (line.endPosition.y - line.startPosition.y)
    - (pos.y - line.startPosition.y) * (line.endPosition.x - line.startPosition.x)

/-- The test that makes the loop `continue` for a one-sided line. -/
def oneSidedSkip (oneSided : Option Side) (s : ℚ) : Bool :=
  match oneSided with
  | none => false
  | some side => (side == Side.right && decide (s > 0)) || (side == Side.left && decide (s < 0))

/-- The limit `xlim`: the left border when `v.x < 0`, the right border otherwise. -/
def xlim (b : Bounds) (v : Point) : ℚ :=
  if v.x < 0 then b.offset.x * b.scale.x else (b.width + b.offset.x) * b.scale.x

/-- The limit `ylim`: the top border when `v.y < 0`, the bottom border otherwise. -/
def ylim (b : Bounds) (v : Point) : ℚ :=
  if v.y < 0 then b.offset.y * b.scale.y else (b.height + b.offset.y) * b.scale.y

/-- The list `options` of an end point `e` seen along `v = e - player.position`. -/
def projOptions (b : Bounds) (v e : Point) : List Point :=
  (if v.x ≠ 0 then
      let m := v.y / v.x
      let c := e.y - m * e.x
      [(⟨xlim b v, m * xlim b v + c⟩ : Point)]
    else []) ++
  (if v.y ≠ 0 then
      let n := v.x / v.y
      let c := n * e.y - e.x
      [(⟨n * ylim b v - c, ylim b v⟩ : Point)]
    else [])

/-- The choice of `proj` among `options`. With no option, `options[0]` is `undefined`:
`squareDistance` reads a field of it, and `proj` itself would be `undefined` when `proj.y` is
read to find its edge; the result is `none`. -/
def chooseProj (options : List Point) (e : Point) : Option Point :=
  match options with
  | [] => none
  | [o] => some o
  | o0 :: o1 :: _ => if squareDistance o0 e < squareDistance o1 e then some o0 else some o1

/-- The array `corners`. -/
def corners (b : Bounds) : List Point :=
  [ ⟨(b.width + b.offset.x) * b.scale.x, b.offset.y * b.scale.y⟩,
    ⟨(b.width + b.offset.x) * b.scale.x, (b.height + b.offset.y) * b.scale.y⟩,
    ⟨b.offset.x * b.scale.x, (b.height + b.offset.y) * b.scale.y⟩,
    ⟨b.offset.x * b.scale.x, b.offset.y * b.scale.y⟩ ]

/-- The edge in which a projection lies; `edges[i]` keeps its initial `0` when no test holds. -/
def edgeOf (tol : ℚ) (b : Bounds) (proj : Point) : Int :=
  if isClose tol proj.y (b.offset.y * b.scale.y) then 0
  else if isClose tol proj.y ((b.height + b.offset.y) * b.scale.y) then 2
  else if isClose tol proj.x (b.offset.x * b.scale.x) then 3
  else if isClose tol proj.x ((b.width + b.offset.x) * b.scale.x) then 1
  else 0

/-- The loop `for (k = ...; mod(k, 4) != last; k += direction)`: the indices `mod(k, 4)` of
the corners it splices, in order. `none` when the fuel is used up before the loop ends. -/
def cornerWalk : Nat → Int → Int → Int → Option (List Int)
  | 0, _, _, _ => none
  | fuel + 1, k, direction, last =>
    if mod k 4 ≠ last then
      (cornerWalk fuel (k + direction) direction last).map (fun ks => mod k 4 :: ks)
    else some []

/-- The corner at an index of `corners`. -/
def cornerAt (b : Bounds) (i : Int) : Point :=
  (corners b).getD i.toNat ⟨0, 0⟩

/-- What one turn of the loop over `visionLines` does for one player. -/
inductive CastResult where
  /-- The `continue` of the one-sided test. -/
  | skipped
  /-- The entry `pointset` pushed to `polygons`. -/
  | polygon (pointset : List Point)
  /-- A read of a field of `undefined`: the pass throws. -/
  | threw
  deriving DecidableEq, Repr

/-- The body of the loop over `visionLines` for the player at `pos`. -/
def castShadow (tol : ℚ) (b : Bounds) (pos : Point) (line : VisionLine) : CastResult :=
  let s := signedDistance pos line
  if oneSidedSkip line.oneSided s then CastResult.skipped
  else
    let v1 : Point := ⟨line.startPosition.x - pos.x, line.startPosition.y - pos.y⟩
    let v2 : Point := ⟨line.endPosition.x - pos.x, line.endPosition.y - pos.y⟩
    match chooseProj (projOptions b v1 line.startPosition) line.startPosition,
          chooseProj (projOptions b v2 line.endPosition) line.endPosition with
    | some proj1, some proj2 =>
      let e0 := edgeOf tol b proj1
      let e1 := edgeOf tol b proj2
      let direction : Int := if mathSign s = 0 then 1 else - mathSign s
      let last : Int := if direction = 1 then e1 else mod (e1 - 1) 4
      match cornerWalk 4 (e0 + (if direction = 1 then 0 else -1)) direction last with
      | some ks =>
        CastResult.polygon
          ([line.startPosition, proj1] ++ ks.map (cornerAt b) ++ [proj2, line.endPosition])
      | none => CastResult.threw
    | _, _ => CastResult.threw

/-! ## Paths of PathKit -/

/-- The operations of `PathKit.PathOp` that the code uses. -/
inductive PathOp where
  | union
  | difference
  | intersect
  deriving DecidableEq, Repr

/-- A PathKit path, given by the calls that built it. -/
inductive Path where
  /-- The call `NewPath().rect(x, y, w, h)`. -/
  | rect (x y w h : ℚ)
  /-- The calls `moveTo` of the first point and `lineTo` of the others. -/
  | poly (pts : List Point)
  /-- The call `NewPath().ellipse(cx, cy, rx, ry, 0, 0, 2π)`. -/
  | ellipse (cx cy rx ry : ℚ)
  /-- The call `a.op(b, o)`, or `add(b, o)` on a builder holding `a`. -/
  | op (a : Path) (o : PathOp) (b : Path)
  deriving DecidableEq, Repr

/-- Twice the signed area of the triangle `a b p`: positive when `p` is left of `a → b`. -/
def isLeft (a b p : Point) : ℚ :=
  (b.x - a.x) * (p.y - a.y) - (p.x - a.x) * (b.y - a.y)

/-- The share of the edge `a → b` in the winding number around `p`. -/
def windingEdge (a b p : Point) : Int :=
  if a.y ≤ p.y then
    if p.y < b.y ∧ 0 < isLeft a b p then 1 else 0
  else
    if b.y ≤ p.y ∧ isLeft a b p < 0 then -1 else 0

/-- The sum of `windingEdge` along the open chain of points `pts`. -/
def windingChain (p : Point) : List Point → Int
  | a :: b :: rest => windingEdge a b p + windingChain p (b :: rest)
  | _ => 0

/-- The winding number of the contour `pts`, closed back to its first point, around `p`. -/
def windingNumber (pts : List Point) (p : Point) : Int :=
  match pts with
  | [] => 0
  | first :: _ => windingChain p (pts ++ [first])

/-- The points a path fills. -/
def Path.contains : Path → Point → Bool
  | Path.rect x y w h, p =>
    decide (windingNumber [⟨x, y⟩, ⟨x + w, y⟩, ⟨x + w, y + h⟩, ⟨x, y + h⟩] p ≠ 0)
  | Path.poly pts, p => decide (windingNumber pts p ≠ 0)
  | Path.ellipse cx cy rx ry, p =>
    decide ((p.x - cx) ^ 2 * ry ^ 2 + (p.y - cy) ^ 2 * rx ^ 2 ≤ rx ^ 2 * ry ^ 2)
  | Path.op a PathOp.union b, p => a.contains p || b.contains p
  | Path.op a PathOp.difference b, p => a.contains p && !b.contains p
  | Path.op a PathOp.intersect b, p => a.contains p && b.contains p

/-! ## Composition of the visible region (second step of `computeShadow`) -/

/-- An entry `{pointset, fromShape}` of `polygons[j]`. -/
structure ShadowPolygon where
  pointset : List Point
  fromShape : Item
  deriving DecidableEq, Repr

/-- The points of `shapePath`: `moveTo` of `points[0]`, then `lineTo` of `points[1]` to
`points[length-2]`, with the scale and position of the shape applied. `none` when the shape
has no point (`points[0]` is `undefined`). -/
def shapeOutline (shape : Item) : Option (List Point) :=
  match shape.points with
  | [] => none
  | p0 :: rest =>
    some ((p0 :: rest.dropLast).map
      (fun q => ⟨q.x * shape.scale.x + shape.position.x, q.y * shape.scale.y + shape.position.y⟩))

/-- The path `newPath` of one shadow polygon, as it is added to the builder. -/
def shadowPath (polygon : ShadowPolygon) : Option Path :=
  if polygon.fromShape.closed then
    (shapeOutline polygon.fromShape).map
      (fun outline => Path.op (Path.poly polygon.pointset) PathOp.difference (Path.poly outline))
  else some (Path.poly polygon.pointset)

/-- The loop that merges all polygons of one player into the builder; `none` when a read of
`undefined` throws. -/
def mergePolygons : Path → List ShadowPolygon → Option Path
  | acc, [] => some acc
  | acc, polygon :: rest =>
    match shadowPath polygon with
    | some newPath => mergePolygons (Path.op acc PathOp.difference newPath) rest
    | none => none

/-- The path the builder resolves: the rectangle `rect(offset, size)` minus the shadows. -/
def composeRegion (b : Bounds) (playerPolygons : List ShadowPolygon) : Option Path :=
  mergePolygons (Path.rect b.offset.x b.offset.y b.width b.height) playerPolygons

/-- The loop over `visionLines` for one player: the polygons pushed to `polygons[j]`, or
`none` when a turn throws. -/
def castAll (tol : ℚ) (b : Bounds) (pos : Point) : List VisionLine → Option (List ShadowPolygon)
  | [] => some []
  | line :: rest =>
    match castShadow tol b pos line with
    | CastResult.skipped => castAll tol b pos rest
    | CastResult.polygon pointset =>
      (castAll tol b pos rest).map (fun ps => ⟨pointset, line.originalShape⟩ :: ps)
    | CastResult.threw => none

/-! ## What the code takes from outside -/

/-- The behaviour of the libraries, the browser and the host that the code relies on. -/
structure Externals where
  /-- The tolerance of `isClose`. -/
  tolerance : ℚ
  /-- Whether `pathBuilder.resolve()` returns a path for this composition. -/
  resolves : Path → Bool
  /-- The commands `toCmds()` of a path. -/
  toCmds : Path → Cmds
  /-- The hexadecimal SHA-1 digest of the text of some commands. -/
  sha1 : Cmds → String
  /-- The text `JSON.stringify` gives for a list of items. -/
  stringifyItems : List Item → String
  /-- The text `JSON.stringify` gives for one item. -/
  stringifyItem : Item → String
  /-- The id of the `n`-th item built during a pass. -/
  newId : Nat → String

/-- The flags of the scene metadata, each read as `metadata[key] === true`, and the colour. -/
structure SceneMetadata where
  visionEnabled : Bool := false
  persistenceEnabled : Bool := false
  autodetectEnabled : Bool := false
  fowEnabled : Bool := false
  /-- The entry `metadata[ID/fowColor]`; `none` is `undefined`. -/
  fowColor : Option String := none
  deriving DecidableEq, Repr

/-- The object `sceneCache`. -/
structure SceneCache where
  items : List Item := []
  metadata : SceneMetadata := {}
  gridDpi : ℚ := 1
  gridScale : ℚ := 1
  /-- The field `fog.filled`. -/
  fogFilled : Bool := false
  deriving DecidableEq, Repr

/-- The field `detail` of the event `updateVision` (timers and `allItems` left out). -/
structure Detail where
  metadata : SceneMetadata
  size : ℚ × ℚ
  offset : Point
  scale : Point
  playersWithVision : List Item
  visionShapes : List Item
  invalidateCache : Bool
  deriving DecidableEq, Repr

/-! ## The shadow cache -/

/-- A value of `playerShadowCache`: `{shadowPath, player}`. -/
structure CacheEntry where
  shadowPath : Path
  player : Item
  deriving DecidableEq, Repr

/-- Modelled from the spec: `ObjectCache` of `cache` (not under `src/`), a memo keyed by
observer id. -/
abbrev ObjectCache := List (String × CacheEntry)

/-- Modelled from the spec: `get(observerId)`, a pure lookup. -/
def ObjectCache.getValue (cache : ObjectCache) (key : String) : Option CacheEntry :=
  (cache.find? (fun kv => kv.1 == key)).map (fun kv => kv.2)

/-- Modelled from the spec: `put(observerId, region, position)`; an entry of the same key is
replaced. -/
def ObjectCache.cacheValue (cache : ObjectCache) (key : String) (value : CacheEntry) : ObjectCache :=
  (key, value) :: cache.filter (fun kv => kv.1 != key)

/-- Modelled from the spec: `invalidateAll(disposer)`, which clears the entries. -/
def ObjectCache.invalidate (_cache : ObjectCache) : ObjectCache :=
  []

/-- The test `cacheResult !== undefined && comparePosition(cacheResult.player.position,
player.position)`. -/
def isCached (cache : ObjectCache) (player : Item) : Bool :=
  match cache.getValue player.id with
  | some entry => comparePosition entry.player.position player.position
  | none => false

/-! ## The bounds of a pass -/

/-- One turn of the loop over `maps` that grows `mapbox = [left, top, right, bottom]`. -/
def growMapbox (sceneGridDpi : ℚ) (mapbox : Option (ℚ × ℚ × ℚ × ℚ)) (map : Item) :
    Option (ℚ × ℚ × ℚ × ℚ) :=
  let dpiRatio := sceneGridDpi / map.gridDpi
  let left := map.position.x
  let top := map.position.y
  let right := (map.position.x + dpiRatio * map.imageWidth) * map.scale.x
  let bottom := (map.position.y + dpiRatio * map.imageHeight) * map.scale.y
  match mapbox with
  | none => some (left, top, right, bottom)
  | some (l, t, r, bt) =>
    some (if left < l then left else l, if top < t then top else t,
          if right > r then right else r, if bottom > bt then bottom else bt)

/-- The bounds `offset`, `size`, `scale` used by a pass. With autodetection they are the box
around all items of the layer `MAP`; `none` when there is no such item (the box is then made
of `undefined`). -/
def passBounds (sc : SceneCache) (sceneItems : List Item) (detail : Detail) : Option Bounds :=
  if sc.metadata.autodetectEnabled then
    match (sceneItems.filter (fun item => item.layer == "MAP")).foldl (growMapbox sc.gridDpi) none with
    | some (l, t, r, bt) => some ⟨⟨l, t⟩, r - l, bt - t, ⟨1, 1⟩⟩
    | none => none
  else some ⟨detail.offset, detail.size.1, detail.size.2, detail.scale⟩

/-! ## Steps of `computeShadow` -/

/-- First step for one player: nothing when the result is cached, the shadows of all lines
otherwise; `none` when a turn throws. -/
def playerPolygons (tol : ℚ) (b : Bounds) (cache : ObjectCache) (lines : List VisionLine)
    (player : Item) : Option (List ShadowPolygon) :=
  if isCached cache player then some [] else castAll tol b player.position lines

/-- First step: the array `polygons`; `none` when a turn throws. -/
def allPolygons (tol : ℚ) (b : Bounds) (cache : ObjectCache) (lines : List VisionLine) :
    List Item → Option (List (List ShadowPolygon))
  | [] => some []
  | player :: rest =>
    match playerPolygons tol b cache lines player with
    | some ps => (allPolygons tol b cache lines rest).map (fun pss => ps :: pss)
    | none => none

/-- The variables the second step changes. -/
structure ComposeState where
  cache : ObjectCache
  cacheHits : Nat
  cacheMisses : Nat
  /-- The values of `itemsPerPlayer`, by player index. -/
  itemsPerPlayer : List Path
  deriving DecidableEq, Repr

/-- How the second step ends. -/
inductive ComposeResult where
  /-- The loop ran over all players. -/
  | done (st : ComposeState)
  /-- The branch `Couldn't compute fog`, with the variables as they are then. -/
  | failed (st : ComposeState)
  /-- A read of `undefined` threw. -/
  | threw (st : ComposeState)
  deriving DecidableEq, Repr

/-- The cached path used for a player: `cacheResult.shadowPath` when the test of `isCached`
holds. -/
def cachedPath (cache : ObjectCache) (player : Item) : Option Path :=
  match cache.getValue player.id with
  | some entry =>
    if comparePosition entry.player.position player.position then some entry.shadowPath else none
  | none => none

/-- The second step: the loop `for (let j = 0; j < polygons.length; j++)`. -/
def composeAll (ext : Externals) (b : Bounds) :
    ComposeState → List (Item × List ShadowPolygon) → ComposeResult
  | st, [] => ComposeResult.done st
  | st, (player, playerPolygons) :: rest =>
    match cachedPath st.cache player with
    | some shadowPath =>
      composeAll ext b
        { st with cacheHits := st.cacheHits + 1
                  itemsPerPlayer := st.itemsPerPlayer ++ [shadowPath] } rest
    | none =>
      match composeRegion b playerPolygons with
      | none => ComposeResult.threw { st with cacheMisses := st.cacheMisses + 1 }
      | some path =>
        if !ext.resolves path || (ext.toCmds path).length == 0 then
          ComposeResult.failed { st with cacheMisses := st.cacheMisses + 1 }
        else
          composeAll ext b
            { cache := st.cache.cacheValue player.id ⟨path, player⟩
              cacheHits := st.cacheHits
              cacheMisses := st.cacheMisses + 1
              itemsPerPlayer := st.itemsPerPlayer ++ [path] } rest

/-- The truthiness of `visionRangeMeta` and, when it is truthy, its value as a number. -/
def rangeValue : RangeMeta → Option ℚ
  | RangeMeta.unset => none
  | RangeMeta.unlimited => none
  | RangeMeta.num r => if r = 0 then none else some r
  | RangeMeta.str r => some r

/-- Third step for one player: the vision circle cut out of `itemsPerPlayer[i]`. -/
def clipRegion (sc : SceneCache) (player : Item) (path : Path) : Path :=
  match rangeValue player.visionRange with
  | some r =>
    let visionRange := sc.gridDpi * (r / sc.gridScale + 1 / 2)
    Path.op path PathOp.intersect
      (Path.ellipse player.position.x player.position.y visionRange visionRange)
  | none => path

/-- An entry of `itemsToAdd` (`visible: false` and `zIndex: 3` are constants). -/
structure FogToAdd where
  cmds : Cmds
  playerId : String
  digest : String
  deriving DecidableEq, Repr

/-- The variables the loop over `itemsPerPlayer` changes. -/
structure SynthState where
  itemsToAdd : List FogToAdd
  /-- The keys of `dedup_digest`. -/
  dedupDigest : List String
  /-- The path `megapathrect`, when fog of war is enabled. -/
  megapathrect : Option Path
  deriving DecidableEq, Repr

/-- The loop `for (const key of Object.keys(itemsPerPlayer))`, over the players paired with
their regions. -/
def synthLoop (ext : Externals) (sceneItems : List Item) :
    SynthState → List (Item × Path) → SynthState
  | st, [] => st
  | st, (player, item) :: rest =>
    let digest := ext.sha1 (ext.toCmds item)
    let dedup := sceneItems.filter (fun filterItem => filterItem.digest == some digest)
    let st1 : SynthState :=
      if dedup.length == 0 then
        { st with itemsToAdd := st.itemsToAdd ++ [⟨ext.toCmds item, player.id, digest⟩] }
      else
        { st with dedupDigest := digest :: st.dedupDigest }
    synthLoop ext sceneItems
      { st1 with megapathrect := st1.megapathrect.map (fun m => Path.op m PathOp.difference item) }
      rest

/-- The item `megapath` built for the overlay. -/
def buildMegafog (ext : Externals) (sc : SceneCache) (megapathrect : Path) : Item :=
  { id := ext.newId 0
    name := "Megafog"
    layer := "DRAWING"
    commands := ext.toCmds megapathrect
    visible := true
    zIndex := 0
    fillColor :=
      match sc.metadata.fowColor with
      | some c => if c = "" then "#000000" else c
      | none => "#000000" }

/-- The local store after the overlay is written: the branch `if (fowEnabled)`. -/
def writeOverlay (ext : Externals) (sc : SceneCache) (localItems : List Item)
    (megapathrect : Option Path) : List Item :=
  match megapathrect with
  | some m =>
    let megapath := buildMegafog ext sc m
    let oldMegafog := localItems
    if oldMegafog.length > 0 then
      localItems.map (fun item =>
        if item.name == "Megafog" then { item with commands := megapath.commands } else item)
    else localItems ++ [megapath]
  | none =>
    let fogItems := localItems.filter (fun item => item.name == "Megafog")
    localItems.filter (fun item => !(fogItems.map (fun fogItem => fogItem.id)).contains item.id)

/-- The path item built for an entry of `itemsToAdd`, the `n`-th of the list. The builder of
the host sets the whole metadata object at each call of `metadata(...)`, so of the three
chained calls only the last one is left in the item: it carries the entry `digest`, and
neither the entry `isVisionFog` nor the entry of the player id. -/
def buildFog (ext : Externals) (n : Nat) (item : FogToAdd) : Item :=
  { id := ext.newId (n + 1)
    name := "Fog of War"
    layer := "FOG"
    commands := item.cmds
    visible := false
    zIndex := 3
    fillColor := "#000000"
    digest := some item.digest }

/-- The list `oldFog`: the fog items whose digest is not a key of `dedup_digest`. -/
def oldFogOf (sceneItems : List Item) (dedupDigest : List String) : List Item :=
  sceneItems.filter (fun item =>
    item.name == "Fog of War" &&
      (match item.digest with
       | some d => !dedupDigest.contains d
       | none => true))

/-! ## `computeShadow` -/

/-- The ways a pass ends. -/
inductive Outcome where
  /-- The scene is not ready. -/
  | notReady
  /-- Vision is disabled or no player has vision: the branch `Clear fog`. -/
  | cleared
  /-- The branch `Couldn't compute fog`. -/
  | failed
  /-- A read of a field of `undefined` threw; the pass never reaches an end. -/
  | threw
  /-- Autodetection found no map: the bounds are not numbers, which is outside the
  embedding. -/
  | noBounds
  /-- The pass ran to its last line. -/
  | completed
  deriving DecidableEq, Repr

/-- The state a pass leaves and what it did. -/
structure PassResult where
  outcome : Outcome
  busy : Bool
  cache : ObjectCache
  /-- The store `OBR.scene.items` after the pass. -/
  sceneItems : List Item
  /-- The store `OBR.scene.local` after the pass. -/
  localItems : List Item
  /-- The value of `scene.fog.filled` after the pass. -/
  fogFilled : Bool
  /-- The array `polygons`. -/
  polygons : List (List ShadowPolygon) := []
  /-- The values of `itemsPerPlayer` after the third step. -/
  regions : List Path := []
  /-- The path `megapathrect` after the loop over the regions. -/
  overlay : Option Path := none
  /-- The items passed to `OBR.scene.items.addItems`. -/
  added : List Item := []
  /-- The ids passed to `OBR.scene.items.deleteItems`; `none` when it is not called. -/
  deleted : Option (List String) := none
  /-- The counters given to `updatePerformanceInformation`; `none` when it is not called. -/
  report : Option (Nat × Nat) := none
  deriving DecidableEq, Repr

/-- The third step and the fog synthesis: what a pass does once every player has a region,
from `// *3rd step*` to the last line. -/
def finishPass (ext : Externals) (sceneItems localItems : List Item) (sc : SceneCache)
    (playersWithVision : List Item) (b : Bounds) (polygons : List (List ShadowPolygon))
    (st : ComposeState) : PassResult :=
  let regions := (playersWithVision.zip st.itemsPerPlayer).map (fun pr => clipRegion sc pr.1 pr.2)
  let persistenceEnabled := sc.metadata.persistenceEnabled
  let fowEnabled := sc.metadata.fowEnabled
  let megapathrect : Option Path :=
    if fowEnabled then some (Path.rect b.offset.x b.offset.x b.width b.height) else none
  let synth := synthLoop ext sceneItems ⟨[], [], megapathrect⟩ (playersWithVision.zip regions)
  let localItems1 := writeOverlay ext sc localItems synth.megapathrect
  let oldFog := oldFogOf sceneItems synth.dedupDigest
  let added := synth.itemsToAdd.enum.map (fun ni => buildFog ext ni.1 ni.2)
  let deleted : Option (List String) :=
    if !persistenceEnabled then some (oldFog.map (fun item => item.id)) else none
  { outcome := Outcome.completed, busy := false, cache := st.cache
    sceneItems :=
      match deleted with
      | some ids => (sceneItems ++ added).filter (fun item => !ids.contains item.id)
      | none => sceneItems ++ added
    localItems := localItems1
    fogFilled := true
    polygons := polygons
    regions := regions
    overlay := synth.megapathrect
    added := added
    deleted := deleted
    report := some (st.cacheHits, st.cacheMisses) }

/-- The function `computeShadow`, from the variables `busy` and `playerShadowCache` (the
flag is set on entry whatever it was), the two stores, `sceneCache` and the event. -/
def computeShadow (ext : Externals) (ready : Bool) (cache : ObjectCache)
    (sceneItems localItems : List Item) (sc : SceneCache) (detail : Detail) : PassResult :=
  if !ready then
    { outcome := Outcome.notReady, busy := false, cache := cache.invalidate
      sceneItems := sceneItems, localItems := localItems, fogFilled := sc.fogFilled }
  else
    let bounds := passBounds sc sceneItems detail
    let cache1 := if detail.invalidateCache then cache.invalidate else cache
    let playersWithVision := detail.playersWithVision
    if !detail.metadata.visionEnabled || playersWithVision.length == 0 then
      let fogItems := sceneItems.filter (fun item => item.name == "Fog of War")
      { outcome := Outcome.cleared, busy := false, cache := cache1
        sceneItems := sceneItems
        localItems :=
          localItems.filter (fun item => !(fogItems.map (fun fogItem => fogItem.id)).contains item.id)
        fogFilled := sc.fogFilled }
    else
      match bounds with
      | none =>
        { outcome := Outcome.noBounds, busy := true, cache := cache1
          sceneItems := sceneItems, localItems := localItems, fogFilled := sc.fogFilled }
      | some b =>
        let visionLines := visionLinesOf detail.visionShapes
        match allPolygons ext.tolerance b cache1 visionLines playersWithVision with
        | none =>
          { outcome := Outcome.threw, busy := true, cache := cache1
            sceneItems := sceneItems, localItems := localItems, fogFilled := sc.fogFilled }
        | some polygons =>
          match composeAll ext b ⟨cache1, 0, 0, []⟩ (playersWithVision.zip polygons) with
          | ComposeResult.threw st =>
            { outcome := Outcome.threw, busy := true, cache := st.cache
              sceneItems := sceneItems, localItems := localItems, fogFilled := sc.fogFilled
              polygons := polygons }
          | ComposeResult.failed st =>
            { outcome := Outcome.failed, busy := false, cache := st.cache
              sceneItems := sceneItems, localItems := localItems, fogFilled := sc.fogFilled
              polygons := polygons }
          | ComposeResult.done st =>
            finishPass ext sceneItems localItems sc playersWithVision b polygons st

/-! ## `onSceneDataChange` -/

/-- The variables `previousMap`, `previousVisionShapes`, ...; `none` is `undefined`, their
value before the first pass. -/
structure Previous where
  visionShapes : Option String := none
  playersWithVision : Option String := none
  size : Option (ℚ × ℚ) := none
  visionEnabled : Option Bool := none
  autodetectEnabled : Option Bool := none
  fowEnabled : Option Bool := none
  persistenceEnabled : Option Bool := none
  map : Option String := none
  /-- The variable `previousFowColor`: `undefined` before the first pass and after a pass
  without colour. -/
  fowColor : Option String := none
  deriving DecidableEq, Repr

/-- The values `onSceneDataChange` computes from `sceneCache` and compares. -/
structure Keys where
  sVisionShapes : String
  sPlayersWithVision : String
  sBackgroundImage : String
  size : ℚ × ℚ
  visionEnabled : Bool
  autodetectEnabled : Bool
  fowEnabled : Bool
  persistenceEnabled : Bool
  fowColor : Option String
  deriving DecidableEq, Repr

/-- The keys of a scene whose background image is `backgroundImage`. -/
def keysOf (ext : Externals) (sc : SceneCache) (backgroundImage : Item) : Keys :=
  let dpiRatio := sc.gridDpi / backgroundImage.gridDpi
  { sVisionShapes := ext.stringifyItems (sc.items.filter isActiveVisionLine)
    sPlayersWithVision := ext.stringifyItems (sc.items.filter isPlayerWithVision)
    sBackgroundImage := ext.stringifyItem backgroundImage
    size := (backgroundImage.imageWidth * dpiRatio, backgroundImage.imageHeight * dpiRatio)
    visionEnabled := sc.metadata.visionEnabled
    autodetectEnabled := sc.metadata.autodetectEnabled
    fowEnabled := sc.metadata.fowEnabled
    persistenceEnabled := sc.metadata.persistenceEnabled
    fowColor := sc.metadata.fowColor }

/-- The condition of the `return` that skips the pass, read left to right with `&&`;
`none` when `previousSize[0]` is read while `previousSize` is `undefined`. -/
def unchanged (prev : Previous) (k : Keys) (forceUpdate : Option Bool) : Option Bool :=
  if some k.sBackgroundImage == prev.map
      && some k.visionEnabled == prev.visionEnabled
      && prev.fowColor == k.fowColor
      && prev.autodetectEnabled == some k.autodetectEnabled
      && prev.fowEnabled == some k.fowEnabled
      && prev.persistenceEnabled == some k.persistenceEnabled
      && prev.visionShapes == some k.sVisionShapes
      && prev.playersWithVision == some k.sPlayersWithVision then
    match prev.size with
    | none => none
    | some previousSize =>
      some (k.size.1 == previousSize.1 && k.size.2 == previousSize.2 && forceUpdate != some true)
  else some false

/-- The value of `invalidateCache`, read left to right with `||`; `none` when
`previousSize[0]` is read while `previousSize` is `undefined`. -/
def invalidates (prev : Previous) (k : Keys) : Option Bool :=
  if some k.sBackgroundImage != prev.map || prev.visionShapes != some k.sVisionShapes then some true
  else
    match prev.size with
    | none => none
    | some previousSize => some (k.size.1 != previousSize.1 || k.size.2 != previousSize.2)

/-- The assignments to the `previous...` variables. -/
def store (k : Keys) : Previous :=
  { map := some k.sBackgroundImage
    playersWithVision := some k.sPlayersWithVision
    visionShapes := some k.sVisionShapes
    size := some k.size
    visionEnabled := some k.visionEnabled
    autodetectEnabled := some k.autodetectEnabled
    fowEnabled := some k.fowEnabled
    fowColor := k.fowColor
    persistenceEnabled := some k.persistenceEnabled }

/-- What a call of `onSceneDataChange` does. -/
inductive Dispatch where
  /-- It returns without an event. -/
  | returned
  /-- It throws. -/
  | threw
  /-- It dispatches `updateVision` with this detail. -/
  | dispatched (detail : Detail)
  deriving DecidableEq, Repr

/-- The field `detail` of the event `updateVisionEvent`. -/
def eventDetail (sc : SceneCache) (backgroundImage : Item) (k : Keys) (invalidateCache : Bool) :
    Detail :=
  { metadata := sc.metadata
    size := k.size
    offset := backgroundImage.position
    scale := backgroundImage.scale
    playersWithVision := sc.items.filter isPlayerWithVision
    visionShapes := sc.items.filter isActiveVisionLine
    invalidateCache := invalidateCache }

/-- The function `onSceneDataChange`: the new `previous...` variables and what it did. -/
def onSceneDataChange (ext : Externals) (busy ready : Bool) (prev : Previous) (sc : SceneCache)
    (forceUpdate : Option Bool) : Previous × Dispatch :=
  if busy then (prev, Dispatch.returned)
  else if !ready then (prev, Dispatch.returned)
  else
    match (sc.items.filter isBackgroundImage).head? with
    | none => (prev, Dispatch.returned)
    | some backgroundImage =>
      let k := keysOf ext sc backgroundImage
      match unchanged prev k forceUpdate with
      | none => (prev, Dispatch.threw)
      | some true => (prev, Dispatch.returned)
      | some false =>
        match invalidates prev k with
        | none => (prev, Dispatch.threw)
        | some invalidateCache =>
          let detail := eventDetail sc backgroundImage k invalidateCache
          if !busy then (store k, Dispatch.dispatched detail) else (store k, Dispatch.returned)

/-! ## The scenario of the specification

The map rectangle `(0,0)-(1000,1000)`, one wall from `(400,0)` to `(400,1000)` and one
observer at `(200,500)` with unlimited range. -/

/-- The bounds of the scenario: offset `(0,0)`, size `(1000,1000)`, scale `(1,1)`. -/
def scenarioBounds : Bounds := ⟨⟨0, 0⟩, 1000, 1000, ⟨1, 1⟩⟩

/-- The obstruction shape of the scenario, with a given `oneSided` entry and `closed` style. -/
def scenarioWall (oneSided : Option Side) (closed : Bool) : Item :=
  { id := "wall", points := [⟨400, 0⟩, ⟨400, 1000⟩], isVisionLine := true
    oneSided := oneSided, closed := closed }

/-- The observer of the scenario. -/
def scenarioObserver : Item :=
  { id := "observer", layer := "CHARACTER", hasVision := true, position := ⟨200, 500⟩
    visionRange := RangeMeta.unlimited }

/-- The only vision line of the scenario. -/
def scenarioLine (oneSided : Option Side) (closed : Bool) : VisionLine :=
  ⟨⟨400, 0⟩, ⟨400, 1000⟩, scenarioWall oneSided closed, oneSided⟩

/-- The event of the scenario. -/
def scenarioDetail (oneSided : Option Side) (closed invalidateCache : Bool) : Detail :=
  { metadata := { visionEnabled := true }
    size := (1000, 1000)
    offset := ⟨0, 0⟩
    scale := ⟨1, 1⟩
    playersWithVision := [scenarioObserver]
    visionShapes := [scenarioWall oneSided closed]
    invalidateCache := invalidateCache }

/-- The point set of the shadow of the wall: the corners of the rectangle
`(400,0)-(1000,1000)`, the two ends of the wall being their own projections. -/
def scenarioShadow : List Point :=
  [⟨400, 0⟩, ⟨400, 0⟩, ⟨1000, 0⟩, ⟨1000, 1000⟩, ⟨400, 1000⟩, ⟨400, 1000⟩]

/-- The path added to the builder for the shadow of the wall. -/
def scenarioShadowPath (closed : Bool) : Path :=
  if closed then Path.op (Path.poly scenarioShadow) PathOp.difference (Path.poly [⟨400, 0⟩])
  else Path.poly scenarioShadow

/-- The region composed when the wall casts its shadow. -/
def scenarioRegion (closed : Bool) : Path :=
  Path.op (Path.rect 0 0 1000 1000) PathOp.difference (scenarioShadowPath closed)

/-- Externals for the closed examples: a tolerance of `1/100`, a PathKit that resolves every
composition to one command, constant digest and serialisation, numbered ids. -/
def exampleExt : Externals :=
  { tolerance := 1 / 100
    resolves := fun _ => true
    toCmds := fun _ => [[0]]
    sha1 := fun _ => "digest"
    stringifyItems := fun _ => "items"
    stringifyItem := fun _ => "item"
    newId := fun n => toString n }

/-- The values the `previous...` variables can hold: all `undefined`, before the first pass is
launched, or the keys stored when a pass was launched. -/
def Previous.reachable (prev : Previous) : Prop :=
  prev = {} ∨ ∃ k : Keys, prev = store k

/-- A background image of 1000 by 1000 at the dpi of the scene, for the closed examples. -/
def exampleMap : Item :=
  { id := "map", layer := "MAP", isBackgroundImage := true, imageWidth := 1000
    imageHeight := 1000, gridDpi := 1 }

/-- The scene of the scenario as `sceneCache` holds it, vision enabled. -/
def exampleScene : SceneCache :=
  { items := [exampleMap, scenarioWall none true, scenarioObserver]
    metadata := { visionEnabled := true } }

/-- What the second step does for one player and its polygons, between the cache `cache` at
the start of the pass and the cache `cache1` at its end: the path is the cached one and the
entry is kept when the lookup hits; otherwise the path is composed from the polygons and the
entry is overwritten with it and the player. -/
def PlayerComposed (b : Bounds) (cache cache1 : ObjectCache) (pr : Item × List ShadowPolygon)
    (path : Path) : Prop :=
  match cachedPath cache pr.1 with
  | some cached => path = cached ∧ cache1.getValue pr.1.id = cache.getValue pr.1.id
  | none => composeRegion b pr.2 = some path ∧ cache1.getValue pr.1.id = some ⟨path, pr.1⟩

/-- What a pass does with the cache, stated on its result `r`: the first step casts nothing
for a cached player and all lines for any other; the second step gives each player its path
as `PlayerComposed` says; the regions are these paths after the range clipping; the report
counts one hit per cached player and one miss per other player. -/
def CacheContract (ext : Externals) (cache : ObjectCache) (sceneItems : List Item)
    (sc : SceneCache) (detail : Detail) (r : PassResult) : Prop :=
  ∃ (b : Bounds) (paths : List Path),
    passBounds sc sceneItems detail = some b
    ∧ List.Forall₂ (fun player polys =>
          if isCached cache player then polys = []
          else castAll ext.tolerance b player.position (visionLinesOf detail.visionShapes)
                = some polys)
        detail.playersWithVision r.polygons
    ∧ List.Forall₂ (PlayerComposed b cache r.cache) (detail.playersWithVision.zip r.polygons) paths
    ∧ r.regions = (detail.playersWithVision.zip paths).map (fun pr => clipRegion sc pr.1 pr.2)
    ∧ r.report = some (detail.playersWithVision.countP (fun player => isCached cache player),
        detail.playersWithVision.countP (fun player => !isCached cache player))

/-- An open wall along the left edge of the map, from `(0,0)` to `(0,1000)`. -/
def edgeWall : Item :=
  { id := "wall", points := [⟨0, 0⟩, ⟨0, 1000⟩], isVisionLine := true, closed := false }

/-- The vision line of `edgeWall`. -/
def edgeLine : VisionLine := ⟨⟨0, 0⟩, ⟨0, 1000⟩, edgeWall, none⟩

/-- An observer left of the map, at `(-100,500)`. -/
def outsideObserver : Item :=
  { id := "observer", layer := "CHARACTER", hasVision := true, position := ⟨-100, 500⟩
    visionRange := RangeMeta.unlimited }

/-- The shadow `edgeWall` casts for `outsideObserver`: the whole map rectangle. -/
def edgeShadow : List Point :=
  [⟨0, 0⟩, ⟨0, 0⟩, ⟨1000, 0⟩, ⟨1000, 1000⟩, ⟨0, 1000⟩, ⟨0, 1000⟩]

/-- The region composed for `outsideObserver`: the map rectangle minus `edgeShadow`. -/
def coveredRegion : Path :=
  Path.op (Path.rect 0 0 1000 1000) PathOp.difference (Path.poly edgeShadow)

/-- The event of a pass on the map `(0,0)-(1000,1000)` with `edgeWall` and `outsideObserver`,
without invalidation of the cache. -/
def coveredDetail : Detail :=
  { metadata := { visionEnabled := true }
    size := (1000, 1000)
    offset := ⟨0, 0⟩
    scale := ⟨1, 1⟩
    playersWithVision := [outsideObserver]
    visionShapes := [edgeWall]
    invalidateCache := false }

/-- Externals like `exampleExt`, with a PathKit that gives no command for the path
`coveredRegion`, which fills no point. -/
def coveredExt : Externals :=
  { exampleExt with toCmds := fun path => if path = coveredRegion then [] else [[0]] }

/-- The digest of a region: the SHA-1 of its commands. -/
def digestOf (ext : Externals) (region : Path) : String :=
  ext.sha1 (ext.toCmds region)

/-- Whether an item of the store carries the digest `d`: the test `dedup.length === 0`,
negated. -/
def inStore (sceneItems : List Item) (d : String) : Bool :=
  (sceneItems.filter (fun filterItem => filterItem.digest == some d)).length != 0

/-- The entry of `itemsToAdd` made for a player and its region. -/
def fogToAdd (ext : Externals) (pr : Item × Path) : FogToAdd :=
  ⟨ext.toCmds pr.2, pr.1.id, digestOf ext pr.2⟩

/-- An observer at `(200,500)` with unlimited range. -/
def firstTwin : Item :=
  { id := "first", layer := "CHARACTER", hasVision := true, position := ⟨200, 500⟩
    visionRange := RangeMeta.unlimited }

/-- Another observer on the same spot. -/
def secondTwin : Item :=
  { id := "second", layer := "CHARACTER", hasVision := true, position := ⟨200, 500⟩
    visionRange := RangeMeta.unlimited }

/-- The event of a pass on the map `(0,0)-(1000,1000)` without walls, with the two observers
standing on the same spot. -/
def twinDetail : Detail :=
  { metadata := { visionEnabled := true }
    size := (1000, 1000)
    offset := ⟨0, 0⟩
    scale := ⟨1, 1⟩
    playersWithVision := [firstTwin, secondTwin]
    visionShapes := []
    invalidateCache := false }

/-- A scene cache with fog of war enabled. -/
def fowScene : SceneCache :=
  { metadata := { visionEnabled := true, fowEnabled := true } }

/-- A local item that is not the overlay. -/
def localRuler : Item :=
  { id := "ruler", name := "Ruler", layer := "RULER" }

/-- A stored fog item left by an earlier pass, whose digest is the digest of no region of the
scenario under `exampleExt`. -/
def staleFog : Item :=
  { id := "stale", name := "Fog of War", layer := "FOG", digest := some "old" }

/-- The variables as the second step leaves them, however it ends. -/
def ComposeResult.state : ComposeResult → ComposeState
  | ComposeResult.done st => st
  | ComposeResult.failed st => st
  | ComposeResult.threw st => st

/-- The cache a pass starts from: cleared by the invalidation flag. -/
def startCache (cache : ObjectCache) (detail : Detail) : ObjectCache :=
  if detail.invalidateCache then cache.invalidate else cache

/-- An observer that was in the scene in an earlier pass and has left it. -/
def ghostObserver : Item :=
  { id := "ghost", layer := "CHARACTER", hasVision := true, position := ⟨700, 300⟩
    visionRange := RangeMeta.unlimited }

/-- A cache that holds the entry of `ghostObserver` only. -/
def ghostCache : ObjectCache :=
  [("ghost", ⟨Path.rect 0 0 1000 1000, ghostObserver⟩)]

/-- The indices of the corners of a shadow as the specification words them, for the signed
distance `s` and the edges `e1`, `e2` of the two projections: `(e2 - e1) mod 4` consecutive
indices forwards from `e1` when `s <= 0`, `(e1 - e2) mod 4` consecutive indices backwards from
`e1 - 1` when `s > 0`, with wraparound. -/
def walkOf (s : ℚ) (e1 e2 : Int) : List Int :=
  if s ≤ 0 then (List.range (mod (e2 - e1) 4).toNat).map (fun i => mod (e1 + i) 4)
  else (List.range (mod (e1 - e2) 4).toNat).map (fun i => mod (e1 - 1 - i) 4)

/-- An open wall that starts on the spot of the observer of the scenario, `(200,500)`, and
ends at `(400,1000)`. -/
def touchingWall : Item :=
  { id := "wall", points := [⟨200, 500⟩, ⟨400, 1000⟩], isVisionLine := true, closed := false }

/-- The vision line of `touchingWall`. -/
def touchingLine : VisionLine := ⟨⟨200, 500⟩, ⟨400, 1000⟩, touchingWall, none⟩

/-- The event of a pass on the map `(0,0)-(1000,1000)` with `touchingWall` and the observer of
the scenario. -/
def touchingDetail : Detail :=
  { metadata := { visionEnabled := true }
    size := (1000, 1000)
    offset := ⟨0, 0⟩
    scale := ⟨1, 1⟩
    playersWithVision := [scenarioObserver]
    visionShapes := [touchingWall]
    invalidateCache := false }

/-- The event of a pass on a map of 1000 by 1000 whose corner is at `(0,100)`, without walls,
with the observer of the scenario. -/
def shiftedDetail : Detail :=
  { metadata := { visionEnabled := true, fowEnabled := true }
    size := (1000, 1000)
    offset := ⟨0, 100⟩
    scale := ⟨1, 1⟩
    playersWithVision := [scenarioObserver]
    visionShapes := []
    invalidateCache := false }

/-- The observer of the scenario with a given `visionRange` entry. -/
def rangedObserver (range : RangeMeta) : Item :=
  { id := "observer", layer := "CHARACTER", hasVision := true, position := ⟨200, 500⟩
    visionRange := range }

/-- A scene cache with vision enabled and a grid of 150 pixels for 5 units. -/
def gridScene : SceneCache :=
  { metadata := { visionEnabled := true }, gridDpi := 150, gridScale := 5 }

/-- The event of a pass on the map `(0,0)-(1000,1000)` without walls, with one observer of a
given `visionRange` entry. -/
def rangedDetail (range : RangeMeta) : Detail :=
  { metadata := { visionEnabled := true }
    size := (1000, 1000)
    offset := ⟨0, 0⟩
    scale := ⟨1, 1⟩
    playersWithVision := [rangedObserver range]
    visionShapes := []
    invalidateCache := false }

/-- A second image of 1000 by 1000 on the layer `MAP`, at `(2000,0)`, that is not the
background image. -/
def annexMap : Item :=
  { id := "annex", layer := "MAP", position := ⟨2000, 0⟩, imageWidth := 1000
    imageHeight := 1000, gridDpi := 1 }

/-- A scene with `exampleMap`, `annexMap` and the observer of the scenario, vision enabled,
with or without autodetection. -/
def mapsScene (autodetect : Bool) : SceneCache :=
  { items := [exampleMap, annexMap, scenarioObserver]
    metadata := { visionEnabled := true, autodetectEnabled := autodetect } }

/-- The cache after a pass on `mapsScene true`: the region of the observer is the box around
both maps. -/
def mapsCache : ObjectCache :=
  [("observer", ⟨Path.rect 0 0 3000 1000, scenarioObserver⟩)]

/-- The bounds of a background image of 1000 by 1000 at `(0,0)` scaled by 2. -/
def scaledBounds : Bounds := ⟨⟨0, 0⟩, 1000, 1000, ⟨2, 2⟩⟩

/-- Whether a point lies in the rectangle that `xlim`, `ylim` and `corners` span, borders
included. -/
def insideBounds (b : Bounds) (p : Point) : Prop :=
  b.offset.x * b.scale.x ≤ p.x ∧ p.x ≤ (b.width + b.offset.x) * b.scale.x
    ∧ b.offset.y * b.scale.y ≤ p.y ∧ p.y ≤ (b.height + b.offset.y) * b.scale.y

instance (b : Bounds) (p : Point) : Decidable (insideBounds b p) := by
  unfold insideBounds
  infer_instance

/-- Whether a point lies on the border of that rectangle. -/
def onBoundary (b : Bounds) (p : Point) : Prop :=
  insideBounds b p
    ∧ (p.x = b.offset.x * b.scale.x ∨ p.x = (b.width + b.offset.x) * b.scale.x
      ∨ p.y = b.offset.y * b.scale.y ∨ p.y = (b.height + b.offset.y) * b.scale.y)

instance (b : Bounds) (p : Point) : Decidable (onBoundary b p) := by
  unfold onBoundary
  infer_instance

/-- The event `onSceneDataChange` dispatches on `mapsScene autodetect`. -/
def mapsDetail (autodetect invalidateCache : Bool) : Detail :=
  eventDetail (mapsScene autodetect) exampleMap
    (keysOf exampleExt (mapsScene autodetect) exampleMap) invalidateCache

/-- A point of a shape in map space, as the specification words it: each coordinate is
`point * scale + position`. -/
def mapPoint (shape : Item) (q : Point) : Point :=
  ⟨q.x * shape.scale.x + shape.position.x, q.y * shape.scale.y + shape.position.y⟩

/-- The `i`-th segment of a shape as the specification words it: from point `i` to point
`i + 1`, both in map space, with the `oneSided` value of the shape and the shape itself;
`none` when the shape has no such pair of points. -/
def segmentOf (shape : Item) (i : Nat) : Option VisionLine :=
  match shape.points[i]?, shape.points[i + 1]? with
  | some a, some c => some ⟨mapPoint shape a, mapPoint shape c, shape, shape.oneSided⟩
  | _, _ => none

/-- Externals like `exampleExt`, with a serialisation of item lists that tells the list
holding the observer of the scenario alone from every other list. -/
def watchingExt : Externals :=
  { exampleExt with
    stringifyItems := fun items =>
      if items = [scenarioObserver] then "the observer at 200,500" else "other items" }

/-- The observer of the scenario after a move to `(300,500)`. -/
def movedObserver : Item :=
  { id := "observer", layer := "CHARACTER", hasVision := true, position := ⟨300, 500⟩
    visionRange := RangeMeta.unlimited }

/-- The example scene after the move of the observer. -/
def movedScene : SceneCache :=
  { items := [exampleMap, scenarioWall none true, movedObserver]
    metadata := { visionEnabled := true } }

/-- A cache that holds the entry of `firstTwin` at its current position, with the full map
rectangle as region. -/
def twinCache : ObjectCache :=
  [("first", ⟨Path.rect 0 0 1000 1000, firstTwin⟩)]

/-! ## Lemmas on the winding rule -/

theorem windingEdge_horizontal (a b p : Point) (h : a.y = b.y) : windingEdge a b p = 0 := by
  unfold windingEdge
  split_ifs with h1 h2 h3
  · exact absurd h2.1 (by rw [← h]; exact not_lt.mpr h1)
  · rfl
  · exact absurd h3.1 (by rw [← h]; exact h1)
  · rfl

theorem windingEdge_up (c y0 y1 : ℚ) (h : y0 < y1) (p : Point) :
    windingEdge ⟨c, y0⟩ ⟨c, y1⟩ p = if y0 ≤ p.y ∧ p.y < y1 ∧ p.x < c then 1 else 0 := by
  have key : 0 < isLeft ⟨c, y0⟩ ⟨c, y1⟩ p ↔ p.x < c := by
    simp only [isLeft]
    constructor
    · intro hl
      by_contra hc
      nlinarith
    · intro hc
      nlinarith
  unfold windingEdge
  simp only [key]
  split_ifs <;> first | rfl | (exfalso; tauto) | (exfalso; simp_all; linarith)

theorem windingEdge_down (c y0 y1 : ℚ) (h : y0 < y1) (p : Point) :
    windingEdge ⟨c, y1⟩ ⟨c, y0⟩ p = if y0 ≤ p.y ∧ p.y < y1 ∧ p.x < c then -1 else 0 := by
  have key : isLeft ⟨c, y1⟩ ⟨c, y0⟩ p < 0 ↔ p.x < c := by
    simp only [isLeft]
    constructor
    · intro hl
      by_contra hc
      nlinarith
    · intro hc
      nlinarith
  unfold windingEdge
  simp only [key]
  split_ifs <;> first | rfl | (exfalso; tauto) | (exfalso; simp_all <;> linarith)

/-- A rectangle of positive size fills the half-open box `[x, x+w) × [y, y+h)`. -/
theorem rect_contains (x y w h : ℚ) (hw : 0 < w) (hh : 0 < h) (p : Point) :
    (Path.rect x y w h).contains p = true ↔ (x ≤ p.x ∧ p.x < x + w ∧ y ≤ p.y ∧ p.y < y + h) := by
  simp only [Path.contains, windingNumber, windingChain, List.cons_append,
    List.nil_append, decide_eq_true_eq]
  rw [windingEdge_horizontal ⟨x, y⟩ ⟨x + w, y⟩ p rfl, windingEdge_up (x + w) y (y + h) (by linarith) p,
    windingEdge_horizontal ⟨x + w, y + h⟩ ⟨x, y + h⟩ p rfl, windingEdge_down x y (y + h) (by linarith) p]
  by_cases hy0 : y ≤ p.y <;> by_cases hy1 : p.y < y + h <;> by_cases hx1 : p.x < x + w <;>
    by_cases hx0 : p.x < x <;> simp [hy0, hy1, hx1, hx0] <;> linarith

/-- The shadow point set `[a, a, corner, corner, d, d]` of a wall `a → d` that runs down the
line `x = x0` fills the half-open box `[x0, x1) × [y0, y1)`. -/
theorem wallShadow_contains (x0 x1 y0 y1 : ℚ) (hx : x0 ≤ x1) (hy : y0 < y1) (p : Point) :
    (Path.poly [⟨x0, y0⟩, ⟨x0, y0⟩, ⟨x1, y0⟩, ⟨x1, y1⟩, ⟨x0, y1⟩, ⟨x0, y1⟩]).contains p = true
      ↔ (x0 ≤ p.x ∧ p.x < x1 ∧ y0 ≤ p.y ∧ p.y < y1) := by
  simp only [Path.contains, windingNumber, windingChain, List.cons_append,
    List.nil_append, decide_eq_true_eq]
  rw [windingEdge_horizontal ⟨x0, y0⟩ ⟨x0, y0⟩ p rfl, windingEdge_horizontal ⟨x0, y0⟩ ⟨x1, y0⟩ p rfl,
    windingEdge_up x1 y0 y1 hy p,
    windingEdge_horizontal ⟨x1, y1⟩ ⟨x0, y1⟩ p rfl,
    windingEdge_horizontal ⟨x0, y1⟩ ⟨x0, y1⟩ p rfl, windingEdge_down x0 y0 y1 hy p]
  by_cases hy0 : y0 ≤ p.y <;> by_cases hy1 : p.y < y1 <;> by_cases hx1 : p.x < x1 <;>
    by_cases hx0 : p.x < x0 <;> simp [hy0, hy1, hx1, hx0] <;> linarith

/-- A path of a single `moveTo` fills nothing. -/
theorem singlePoint_contains (a p : Point) : (Path.poly [a]).contains p = false := by
  have h := windingEdge_horizontal a a p rfl
  simp only [Path.contains, windingNumber, windingChain, List.cons_append, List.nil_append, h]
  rfl

/-! ## Lemmas on the steps of a pass -/

/-- A line that is not skipped, whose two projections exist and whose corner walk ends, gives
the polygon `[start, proj1, corners, proj2, end]`. -/
theorem castShadow_polygon (tol : ℚ) (b : Bounds) (pos : Point) (line : VisionLine)
    (proj1 proj2 : Point) (ks : List Int)
    (hskip : oneSidedSkip line.oneSided (signedDistance pos line) = false)
    (h1 : chooseProj (projOptions b ⟨line.startPosition.x - pos.x, line.startPosition.y - pos.y⟩
      line.startPosition) line.startPosition = some proj1)
    (h2 : chooseProj (projOptions b ⟨line.endPosition.x - pos.x, line.endPosition.y - pos.y⟩
      line.endPosition) line.endPosition = some proj2)
    (hw : cornerWalk 4
      (edgeOf tol b proj1 +
        (if (if mathSign (signedDistance pos line) = 0 then (1 : Int)
              else - mathSign (signedDistance pos line)) = 1 then 0 else -1))
      (if mathSign (signedDistance pos line) = 0 then 1 else - mathSign (signedDistance pos line))
      (if (if mathSign (signedDistance pos line) = 0 then (1 : Int)
              else - mathSign (signedDistance pos line)) = 1 then edgeOf tol b proj2
        else mod (edgeOf tol b proj2 - 1) 4) = some ks) :
    castShadow tol b pos line
      = CastResult.polygon
          ([line.startPosition, proj1] ++ ks.map (cornerAt b) ++ [proj2, line.endPosition]) := by
  unfold castShadow
  simp only [hskip, h1, h2, hw, Bool.false_eq_true, if_false]

/-- A line for which the one-sided test holds is skipped. -/
theorem castShadow_skipped (tol : ℚ) (b : Bounds) (pos : Point) (line : VisionLine)
    (hskip : oneSidedSkip line.oneSided (signedDistance pos line) = true) :
    castShadow tol b pos line = CastResult.skipped := by
  unfold castShadow
  simp only [hskip, if_true]

theorem contains_difference (a b : Path) (p : Point) :
    (Path.op a PathOp.difference b).contains p = (a.contains p && !b.contains p) := rfl

theorem contains_intersect (a b : Path) (p : Point) :
    (Path.op a PathOp.intersect b).contains p = (a.contains p && b.contains p) := rfl

theorem contains_union (a b : Path) (p : Point) :
    (Path.op a PathOp.union b).contains p = (a.contains p || b.contains p) := rfl

/-- A pass on a ready scene with vision enabled and a player, in which no turn throws and
every composition resolves, ends in `finishPass`. -/
theorem computeShadow_done (ext : Externals) (cache : ObjectCache)
    (sceneItems localItems : List Item) (sc : SceneCache) (detail : Detail) (b : Bounds)
    (polygons : List (List ShadowPolygon)) (st : ComposeState)
    (hb : passBounds sc sceneItems detail = some b)
    (hv : detail.metadata.visionEnabled = true)
    (hp : detail.playersWithVision ≠ [])
    (hpoly : allPolygons ext.tolerance b (if detail.invalidateCache then cache.invalidate else cache)
      (visionLinesOf detail.visionShapes) detail.playersWithVision = some polygons)
    (hcomp : composeAll ext b ⟨if detail.invalidateCache then cache.invalidate else cache, 0, 0, []⟩
      (detail.playersWithVision.zip polygons) = ComposeResult.done st) :
    computeShadow ext true cache sceneItems localItems sc detail
      = finishPass ext sceneItems localItems sc detail.playersWithVision b polygons st := by
  have hlen : (detail.playersWithVision.length == 0) = false := by
    cases hq : detail.playersWithVision with
    | nil => exact absurd hq hp
    | cons a l => rfl
  unfold computeShadow
  simp only [Bool.not_true, Bool.false_eq_true, if_false, hv, hlen, Bool.or_self, hb, hpoly, hcomp]

/-! ## Lemmas on the scenario -/

theorem scenario_lines (oneSided : Option Side) (closed : Bool) :
    visionLinesOf [scenarioWall oneSided closed] = [scenarioLine oneSided closed] := by
  simp only [visionLinesOf, List.flatMap_cons, List.flatMap_nil, List.append_nil]
  show shapeLines (scenarioWall oneSided closed) [⟨400, 0⟩, ⟨400, 1000⟩] = _
  simp only [shapeLines, scenarioLine, List.cons.injEq, and_true, VisionLine.mk.injEq, Point.mk.injEq]
  refine ⟨⟨?_, ?_⟩, ⟨?_, ?_⟩, trivial, rfl⟩ <;> simp only [scenarioWall] <;> norm_num

theorem scenario_signedDistance (oneSided : Option Side) (closed : Bool) :
    signedDistance ⟨200, 500⟩ (scenarioLine oneSided closed) = -200000 := by
  simp only [signedDistance, scenarioLine]; norm_num

/-- The wall of the scenario, unless it is one-sided left, casts `scenarioShadow`. -/
theorem scenario_cast (tol : ℚ) (h0 : 0 ≤ tol) (h1 : tol < 1000) (oneSided : Option Side)
    (closed : Bool) (hs : oneSided ≠ some Side.left) :
    castShadow tol scenarioBounds ⟨200, 500⟩ (scenarioLine oneSided closed)
      = CastResult.polygon scenarioShadow := by
  have hskip : oneSidedSkip oneSided (-200000) = false := by
    cases oneSided with
    | none => rfl
    | some side =>
      cases side with
      | left => exact absurd rfl hs
      | right => simp [oneSidedSkip]
  have e1 : edgeOf tol scenarioBounds ⟨400, 0⟩ = 0 := by
    simp [edgeOf, isClose, scenarioBounds, h0]
  have e2 : edgeOf tol scenarioBounds ⟨400, 1000⟩ = 2 := by
    have : ¬ ((1000 : ℚ) ≤ tol) := not_le.mpr h1
    simp [edgeOf, isClose, scenarioBounds, h0, this]
  have hsign : mathSign (-200000) = -1 := by simp only [mathSign]; norm_num
  have key := castShadow_polygon tol scenarioBounds ⟨200, 500⟩ (scenarioLine oneSided closed)
    ⟨400, 0⟩ ⟨400, 1000⟩ [0, 1]
    (by rw [scenario_signedDistance]; exact hskip)
    (by simp only [scenarioLine, projOptions, scenarioBounds, xlim, ylim]
        norm_num [chooseProj, squareDistance])
    (by simp only [scenarioLine, projOptions, scenarioBounds, xlim, ylim]
        norm_num [chooseProj, squareDistance])
    (by rw [scenario_signedDistance, hsign, e1, e2]; decide)
  rw [key]
  simp only [scenarioLine, scenarioShadow, cornerAt, corners, scenarioBounds, List.map_cons,
    List.map_nil, List.cons_append, List.nil_append]
  norm_num

/-- The wall of the scenario, when it is one-sided left, is skipped. -/
theorem scenario_cast_left (tol : ℚ) (closed : Bool) :
    castShadow tol scenarioBounds ⟨200, 500⟩ (scenarioLine (some Side.left) closed)
      = CastResult.skipped := by
  have hskip : oneSidedSkip (some Side.left) (-200000) = true := by
    simp [oneSidedSkip]
  exact castShadow_skipped tol scenarioBounds ⟨200, 500⟩ (scenarioLine (some Side.left) closed)
    (by rw [scenario_signedDistance]; exact hskip)

/-- The composition of the scenario when the wall casts its shadow. -/
theorem scenario_compose (oneSided : Option Side) (closed : Bool) :
    composeRegion scenarioBounds [⟨scenarioShadow, scenarioWall oneSided closed⟩]
      = some (scenarioRegion closed) := by
  cases closed with
  | false =>
    simp only [composeRegion, mergePolygons, shadowPath, scenarioWall, scenarioRegion,
      scenarioShadowPath, scenarioBounds, Bool.false_eq_true, if_false]
  | true =>
    simp only [composeRegion, mergePolygons, shadowPath, shapeOutline, scenarioWall, scenarioRegion,
      scenarioShadowPath, scenarioBounds, if_true, Option.map_some', List.dropLast, List.map_cons,
      List.map_nil]
    norm_num

/-- The region of the scenario fills the half-open box `[0, 400) × [0, 1000)`. -/
theorem scenarioRegion_contains (closed : Bool) (p : Point) :
    (scenarioRegion closed).contains p = true
      ↔ (0 ≤ p.x ∧ p.x < 400 ∧ 0 ≤ p.y ∧ p.y < 1000) := by
  have hshadow : (scenarioShadowPath closed).contains p = (Path.poly scenarioShadow).contains p := by
    cases closed with
    | false => rfl
    | true =>
      simp only [scenarioShadowPath, if_true, contains_difference, singlePoint_contains,
        Bool.not_false, Bool.and_true]
  have hr := rect_contains 0 0 1000 1000 (by norm_num) (by norm_num) p
  have hs := wallShadow_contains 400 1000 0 1000 (by norm_num) (by norm_num) p
  simp only [zero_add] at hr
  rw [scenarioRegion, contains_difference, hshadow, Bool.and_eq_true, hr, Bool.not_eq_true',
    ← Bool.not_eq_true, scenarioShadow, hs]
  constructor
  · rintro ⟨⟨a, b, c, d⟩, h⟩
    refine ⟨a, ?_, c, d⟩
    by_contra hx
    exact h ⟨not_lt.mp hx, b, c, d⟩
  · rintro ⟨a, b, c, d⟩
    exact ⟨⟨a, by linarith, c, d⟩, fun h => by linarith [h.1]⟩

/-- The pass of the scenario, from an empty cache, given the polygons the wall casts and the
region they compose. -/
theorem scenario_pass (ext : Externals) (oneSided : Option Side) (closed invalidateCache : Bool)
    (sceneItems localItems : List Item) (sc : SceneCache)
    (polys : List ShadowPolygon) (region : Path)
    (hauto : sc.metadata.autodetectEnabled = false)
    (hcast : castAll ext.tolerance scenarioBounds ⟨200, 500⟩ [scenarioLine oneSided closed]
      = some polys)
    (hregion : composeRegion scenarioBounds polys = some region)
    (hres : ext.resolves region = true)
    (hcmds : ext.toCmds region ≠ []) :
    computeShadow ext true [] sceneItems localItems sc (scenarioDetail oneSided closed invalidateCache)
      = finishPass ext sceneItems localItems sc [scenarioObserver] scenarioBounds [polys]
          ⟨[("observer", ⟨region, scenarioObserver⟩)], 0, 1, [region]⟩ := by
  have hcache : (if (scenarioDetail oneSided closed invalidateCache).invalidateCache
      then ObjectCache.invalidate [] else ([] : ObjectCache)) = [] := by
    cases invalidateCache <;> rfl
  have hlen : ((ext.toCmds region).length == 0) = false := by
    cases hq : ext.toCmds region with
    | nil => exact absurd hq hcmds
    | cons a l => rfl
  apply computeShadow_done ext [] sceneItems localItems sc
    (scenarioDetail oneSided closed invalidateCache) scenarioBounds [polys]
  · unfold passBounds
    rw [hauto]
    rfl
  · rfl
  · exact List.cons_ne_nil _ _
  · rw [hcache]
    show allPolygons ext.tolerance scenarioBounds [] (visionLinesOf [scenarioWall oneSided closed])
      [scenarioObserver] = some [polys]
    rw [scenario_lines]
    have hp : playerPolygons ext.tolerance scenarioBounds [] [scenarioLine oneSided closed]
        scenarioObserver = some polys := hcast
    simp only [allPolygons, hp, Option.map_some']
  · rw [hcache]
    show composeAll ext scenarioBounds ⟨[], 0, 0, []⟩ [(scenarioObserver, polys)] = _
    have hc : cachedPath [] scenarioObserver = none := rfl
    simp only [composeAll, hc, hregion, hres, hlen, Bool.not_true, Bool.or_self,
      Bool.false_eq_true, if_false, zero_add, List.nil_append]
    rfl

/-- With unlimited range the third step leaves the region as it is. -/
theorem scenario_clip (sc : SceneCache) (region : Path) :
    clipRegion sc scenarioObserver region = region := rfl

theorem finishPass_outcome (ext : Externals) (sceneItems localItems : List Item) (sc : SceneCache)
    (players : List Item) (b : Bounds) (polygons : List (List ShadowPolygon)) (st : ComposeState) :
    (finishPass ext sceneItems localItems sc players b polygons st).outcome = Outcome.completed :=
  rfl

theorem finishPass_polygons (ext : Externals) (sceneItems localItems : List Item) (sc : SceneCache)
    (players : List Item) (b : Bounds) (polygons : List (List ShadowPolygon)) (st : ComposeState) :
    (finishPass ext sceneItems localItems sc players b polygons st).polygons = polygons :=
  rfl

theorem finishPass_regions (ext : Externals) (sceneItems localItems : List Item) (sc : SceneCache)
    (players : List Item) (b : Bounds) (polygons : List (List ShadowPolygon)) (st : ComposeState) :
    (finishPass ext sceneItems localItems sc players b polygons st).regions
      = (players.zip st.itemsPerPlayer).map (fun pr => clipRegion sc pr.1 pr.2) :=
  rfl

theorem castAll_skipped (tol : ℚ) (b : Bounds) (pos : Point) (line : VisionLine)
    (rest : List VisionLine) (h : castShadow tol b pos line = CastResult.skipped) :
    castAll tol b pos (line :: rest) = castAll tol b pos rest := by
  simp only [castAll, h]

theorem castAll_polygon (tol : ℚ) (b : Bounds) (pos : Point) (line : VisionLine)
    (rest : List VisionLine) (pointset : List Point)
    (h : castShadow tol b pos line = CastResult.polygon pointset) :
    castAll tol b pos (line :: rest)
      = (castAll tol b pos rest).map (fun ps => ⟨pointset, line.originalShape⟩ :: ps) := by
  simp only [castAll, h]

theorem castAll_nil (tol : ℚ) (b : Bounds) (pos : Point) : castAll tol b pos [] = some [] := rfl

/-- The cast of the scenario when the wall is not one-sided left. -/
theorem scenario_castAll (tol : ℚ) (h0 : 0 ≤ tol) (h1 : tol < 1000) (oneSided : Option Side)
    (closed : Bool) (hs : oneSided ≠ some Side.left) :
    castAll tol scenarioBounds ⟨200, 500⟩ [scenarioLine oneSided closed]
      = some [⟨scenarioShadow, scenarioWall oneSided closed⟩] := by
  rw [castAll_polygon tol scenarioBounds ⟨200, 500⟩ (scenarioLine oneSided closed) [] scenarioShadow
    (scenario_cast tol h0 h1 oneSided closed hs), castAll_nil]
  rfl

/-- The cast of the scenario when the wall is one-sided left. -/
theorem scenario_castAll_left (tol : ℚ) (closed : Bool) :
    castAll tol scenarioBounds ⟨200, 500⟩ [scenarioLine (some Side.left) closed] = some [] := by
  rw [castAll_skipped tol scenarioBounds ⟨200, 500⟩ (scenarioLine (some Side.left) closed) []
    (scenario_cast_left tol closed), castAll_nil]

/-- The region of the scenario and the rectangle `(0,0)-(400,1000)` fill the same points. -/
theorem scenarioRegion_eq_rect (closed : Bool) (p : Point) :
    (scenarioRegion closed).contains p = (Path.rect 0 0 400 1000).contains p := by
  have h1 := scenarioRegion_contains closed p
  have h2 := rect_contains 0 0 400 1000 (by norm_num) (by norm_num) p
  simp only [zero_add] at h2
  rw [Bool.eq_iff_iff, h1, h2]

/-- The shadow of the scenario fills the half-open box `[400, 1000) × [0, 1000)`. -/
theorem scenarioShadowPath_contains (closed : Bool) (p : Point) :
    (scenarioShadowPath closed).contains p = true
      ↔ (400 ≤ p.x ∧ p.x < 1000 ∧ 0 ≤ p.y ∧ p.y < 1000) := by
  have hs := wallShadow_contains 400 1000 0 1000 (by norm_num) (by norm_num) p
  cases closed with
  | false => exact hs
  | true =>
    rw [← hs]
    simp only [scenarioShadowPath, if_true, contains_difference, singlePoint_contains,
      Bool.not_false, Bool.and_true, scenarioShadow]

/-- C1: in the scenario of the specification (bounds `(0,0)`, `(1000,1000)`, scale `(1,1)`,
a two-sided wall from `(400,0)` to `(400,1000)`, one observer at `(200,500)` with unlimited
range) the pass completes, the one shadow polygon is the point set of the rectangle
`(400,0)-(1000,1000)` and fills exactly that rectangle, and the visible region is the map
rectangle minus that shadow, which fills exactly the rectangle `(0,0)-(400,1000)`. -/
theorem scenario_two_sided_left_half (ext : Externals) (closed invalidateCache : Bool)
    (sceneItems localItems : List Item) (sc : SceneCache)
    (htol0 : 0 ≤ ext.tolerance) (htol1 : ext.tolerance < 1000)
    (hauto : sc.metadata.autodetectEnabled = false)
    (hres : ext.resolves (scenarioRegion closed) = true)
    (hcmds : ext.toCmds (scenarioRegion closed) ≠ []) :
    (computeShadow ext true [] sceneItems localItems sc
        (scenarioDetail none closed invalidateCache)).outcome = Outcome.completed
    ∧ (computeShadow ext true [] sceneItems localItems sc
        (scenarioDetail none closed invalidateCache)).polygons
          = [[⟨scenarioShadow, scenarioWall none closed⟩]]
    ∧ shadowPath ⟨scenarioShadow, scenarioWall none closed⟩ = some (scenarioShadowPath closed)
    ∧ (∀ p : Point, (scenarioShadowPath closed).contains p = true
          ↔ (400 ≤ p.x ∧ p.x < 1000 ∧ 0 ≤ p.y ∧ p.y < 1000))
    ∧ (∀ p : Point, (scenarioShadowPath closed).contains p = (Path.rect 400 0 600 1000).contains p)
    ∧ (computeShadow ext true [] sceneItems localItems sc
        (scenarioDetail none closed invalidateCache)).regions = [scenarioRegion closed]
    ∧ (∀ p : Point, (scenarioRegion closed).contains p = true
          ↔ (0 ≤ p.x ∧ p.x < 400 ∧ 0 ≤ p.y ∧ p.y < 1000))
    ∧ (∀ p : Point, (scenarioRegion closed).contains p = (Path.rect 0 0 400 1000).contains p) := by
  have hpass := scenario_pass ext none closed invalidateCache sceneItems localItems sc
    [⟨scenarioShadow, scenarioWall none closed⟩] (scenarioRegion closed) hauto
    (scenario_castAll ext.tolerance htol0 htol1 none closed (by simp))
    (scenario_compose none closed) hres hcmds
  rw [hpass, finishPass_outcome, finishPass_polygons, finishPass_regions]
  refine ⟨rfl, rfl, ?_, scenarioShadowPath_contains closed, ?_, ?_, scenarioRegion_contains closed,
    scenarioRegion_eq_rect closed⟩
  rotate_left
  · intro p
    have h1 := scenarioShadowPath_contains closed p
    have h2 := rect_contains 400 0 600 1000 (by norm_num) (by norm_num) p
    norm_num at h2
    rw [Bool.eq_iff_iff, h1, h2]
  · simp only [List.zip_cons_cons, List.zip_nil_right, List.map_cons, List.map_nil, scenario_clip]
  · have h := scenario_compose none closed
    simp only [composeRegion, mergePolygons] at h
    cases hq : shadowPath ⟨scenarioShadow, scenarioWall none closed⟩ with
    | none => rw [hq] at h; cases h
    | some sp =>
      rw [hq] at h
      simp only [Option.some.injEq, scenarioRegion, Path.op.injEq, and_true, true_and] at h
      rw [h.2]

/-- Witness of `scenario_two_sided_left_half`: the stated externals, a closed wall, empty
stores and the default scene cache. -/
theorem scenario_two_sided_left_half_witness :
    (0 ≤ exampleExt.tolerance ∧ exampleExt.tolerance < 1000
      ∧ ({} : SceneCache).metadata.autodetectEnabled = false
      ∧ exampleExt.resolves (scenarioRegion true) = true
      ∧ exampleExt.toCmds (scenarioRegion true) ≠ [])
    ∧ (computeShadow exampleExt true [] [] [] {} (scenarioDetail none true false)).regions
        = [scenarioRegion true] :=
  ⟨⟨by norm_num [exampleExt], by norm_num [exampleExt], rfl, rfl, List.cons_ne_nil _ _⟩,
    (scenario_two_sided_left_half exampleExt true false [] [] {}
      (by norm_num [exampleExt]) (by norm_num [exampleExt]) rfl rfl
      (List.cons_ne_nil _ _)).2.2.2.2.2.1⟩

/-- The one-sided test holds exactly for a right-sided line with `s > 0` and a left-sided line
with `s < 0`. -/
theorem oneSidedSkip_iff (oneSided : Option Side) (s : ℚ) :
    oneSidedSkip oneSided s = true
      ↔ ((oneSided = some Side.right ∧ s > 0) ∨ (oneSided = some Side.left ∧ s < 0)) := by
  cases oneSided with
  | none => simp [oneSidedSkip]
  | some side => cases side <;> simp [oneSidedSkip]

/-- The signed distance does not read the `oneSided` entry nor the shape. -/
theorem signedDistance_positions (pos : Point) (line : VisionLine) (shape : Item)
    (oneSided : Option Side) :
    signedDistance pos ⟨line.startPosition, line.endPosition, shape, oneSided⟩
      = signedDistance pos line := rfl

/-- A line that is not skipped gives what the two-sided line between the same points gives. -/
theorem castShadow_of_not_skipped (tol : ℚ) (b : Bounds) (pos : Point) (line : VisionLine)
    (shape : Item) (h : oneSidedSkip line.oneSided (signedDistance pos line) = false) :
    castShadow tol b pos line
      = castShadow tol b pos ⟨line.startPosition, line.endPosition, shape, none⟩ := by
  have h0 : ∀ s : ℚ, oneSidedSkip none s = false := fun _ => rfl
  unfold castShadow
  simp only [signedDistance_positions, h, h0, Bool.false_eq_true, if_false]

/-- A two-sided line is never skipped. -/
theorem castShadow_two_sided_ne_skipped (tol : ℚ) (b : Bounds) (pos : Point) (line : VisionLine)
    (h : line.oneSided = none) : castShadow tol b pos line ≠ CastResult.skipped := by
  have h0 : ∀ s : ℚ, oneSidedSkip none s = false := fun _ => rfl
  unfold castShadow
  simp only [h, h0, Bool.false_eq_true, if_false]
  split
  · split <;> simp
  · simp

/-- C2: for every observer position and every line, with `s` the signed area
`(observer - start) × (end - start)`: when the line is one-sided right and `s > 0`, or
one-sided left and `s < 0`, the turn of the loop is skipped (no polygon is pushed); in every
other case the turn gives exactly what it gives for the line between the same points marked
two-sided (whatever shape it belongs to), and a two-sided line is never skipped. -/
theorem one_sided_filter (tol : ℚ) (b : Bounds) (pos : Point) (line : VisionLine) (shape : Item) :
    (((line.oneSided = some Side.right ∧ signedDistance pos line > 0)
        ∨ (line.oneSided = some Side.left ∧ signedDistance pos line < 0))
      → castShadow tol b pos line = CastResult.skipped)
    ∧ (¬ ((line.oneSided = some Side.right ∧ signedDistance pos line > 0)
        ∨ (line.oneSided = some Side.left ∧ signedDistance pos line < 0))
      → castShadow tol b pos line
          = castShadow tol b pos ⟨line.startPosition, line.endPosition, shape, none⟩)
    ∧ castShadow tol b pos ⟨line.startPosition, line.endPosition, shape, none⟩
        ≠ CastResult.skipped := by
  refine ⟨fun h => ?_, fun h => ?_, castShadow_two_sided_ne_skipped tol b pos _ rfl⟩
  · exact castShadow_skipped tol b pos line ((oneSidedSkip_iff _ _).mpr h)
  · apply castShadow_of_not_skipped
    rw [← Bool.not_eq_true, oneSidedSkip_iff]
    exact h

/-- Witness of `one_sided_filter`: the wall of the scenario marked one-sided right is skipped
for an observer at `(600,500)`, where `s > 0`, and for the observer at `(200,500)`, where
`s < 0`, it gives what the two-sided wall gives. -/
theorem one_sided_filter_witness :
    ((scenarioLine (some Side.right) true).oneSided = some Side.right
      ∧ signedDistance ⟨600, 500⟩ (scenarioLine (some Side.right) true) > 0
      ∧ castShadow (1 / 100) scenarioBounds ⟨600, 500⟩ (scenarioLine (some Side.right) true)
          = CastResult.skipped)
    ∧ (¬ (((scenarioLine (some Side.right) true).oneSided = some Side.right
            ∧ signedDistance ⟨200, 500⟩ (scenarioLine (some Side.right) true) > 0)
          ∨ ((scenarioLine (some Side.right) true).oneSided = some Side.left
            ∧ signedDistance ⟨200, 500⟩ (scenarioLine (some Side.right) true) < 0))
      ∧ castShadow (1 / 100) scenarioBounds ⟨200, 500⟩ (scenarioLine (some Side.right) true)
          = castShadow (1 / 100) scenarioBounds ⟨200, 500⟩
              ⟨(scenarioLine (some Side.right) true).startPosition,
                (scenarioLine (some Side.right) true).endPosition, scenarioWall none true, none⟩) :=
  have hpos : signedDistance ⟨600, 500⟩ (scenarioLine (some Side.right) true) > 0 := by
    simp only [signedDistance, scenarioLine]; norm_num
  have hneg : ¬ (((scenarioLine (some Side.right) true).oneSided = some Side.right
            ∧ signedDistance ⟨200, 500⟩ (scenarioLine (some Side.right) true) > 0)
          ∨ ((scenarioLine (some Side.right) true).oneSided = some Side.left
            ∧ signedDistance ⟨200, 500⟩ (scenarioLine (some Side.right) true) < 0)) := by
    rw [scenario_signedDistance]
    rintro (⟨_, h⟩ | ⟨h, _⟩)
    · norm_num at h
    · exact absurd h (by simp [scenarioLine])
  ⟨⟨rfl, hpos,
      (one_sided_filter (1 / 100) scenarioBounds ⟨600, 500⟩ (scenarioLine (some Side.right) true)
        (scenarioWall none true)).1 (Or.inl ⟨rfl, hpos⟩)⟩,
    hneg,
    (one_sided_filter (1 / 100) scenarioBounds ⟨200, 500⟩ (scenarioLine (some Side.right) true)
        (scenarioWall none true)).2.1 hneg⟩

/-- The composition of the scenario when the wall casts no shadow. -/
theorem scenario_compose_nil :
    composeRegion scenarioBounds [] = some (Path.rect 0 0 1000 1000) := rfl

/-- C3, as stated, fails: with the wall marked one-sided right and the observer at
`(200,500)`, where the signed distance is negative, the wall is not skipped. The pass pushes
the shadow polygon of the two-sided case, and the visible region leaves out `(500,500)`, a
point of the map rectangle. -/
theorem scenario_right_sided_casts_shadow :
    signedDistance scenarioObserver.position (scenarioLine (some Side.right) true) < 0
    ∧ castShadow exampleExt.tolerance scenarioBounds scenarioObserver.position
        (scenarioLine (some Side.right) true) = CastResult.polygon scenarioShadow
    ∧ (computeShadow exampleExt true [] [] [] {} (scenarioDetail (some Side.right) true false)).polygons
        = [[⟨scenarioShadow, scenarioWall (some Side.right) true⟩]]
    ∧ (computeShadow exampleExt true [] [] [] {} (scenarioDetail (some Side.right) true false)).regions
        = [scenarioRegion true]
    ∧ (scenarioRegion true).contains ⟨500, 500⟩ = false
    ∧ (Path.rect 0 0 1000 1000).contains ⟨500, 500⟩ = true := by
  have h0 : (0 : ℚ) ≤ exampleExt.tolerance := by norm_num [exampleExt]
  have h1 : exampleExt.tolerance < 1000 := by norm_num [exampleExt]
  have hs : (some Side.right) ≠ some Side.left := by simp
  have hpass := scenario_pass exampleExt (some Side.right) true false [] [] {}
    [⟨scenarioShadow, scenarioWall (some Side.right) true⟩] (scenarioRegion true) rfl
    (scenario_castAll exampleExt.tolerance h0 h1 (some Side.right) true hs)
    (scenario_compose (some Side.right) true) rfl (List.cons_ne_nil _ _)
  rw [hpass, finishPass_polygons, finishPass_regions]
  refine ⟨?_, scenario_cast exampleExt.tolerance h0 h1 (some Side.right) true hs, rfl, ?_, ?_, ?_⟩
  · show signedDistance ⟨200, 500⟩ (scenarioLine (some Side.right) true) < 0
    rw [scenario_signedDistance]; norm_num
  · simp only [List.zip_cons_cons, List.zip_nil_right, List.map_cons, List.map_nil, scenario_clip]
  · rw [← Bool.not_eq_true, scenarioRegion_contains]
    norm_num
  · rw [rect_contains 0 0 1000 1000 (by norm_num) (by norm_num)]
    norm_num

/-- C3, amended: in the scenario with the wall marked one-sided right and the observer at
`(200,500)` (signed distance `-200000`), the wall casts the shadow of the two-sided case and
the visible region fills exactly the rectangle `(0,0)-(400,1000)`; it is with the wall marked
one-sided left that the wall casts no shadow for this observer and the visible region is the
full map rectangle. -/
theorem scenario_one_sided (ext : Externals) (closed invalidateCache : Bool)
    (sceneItems localItems : List Item) (sc : SceneCache)
    (htol0 : 0 ≤ ext.tolerance) (htol1 : ext.tolerance < 1000)
    (hauto : sc.metadata.autodetectEnabled = false)
    (hres : ext.resolves (scenarioRegion closed) = true)
    (hcmds : ext.toCmds (scenarioRegion closed) ≠ [])
    (hresFull : ext.resolves (Path.rect 0 0 1000 1000) = true)
    (hcmdsFull : ext.toCmds (Path.rect 0 0 1000 1000) ≠ []) :
    signedDistance scenarioObserver.position (scenarioLine (some Side.right) closed) = -200000
    ∧ castShadow ext.tolerance scenarioBounds scenarioObserver.position
        (scenarioLine (some Side.right) closed)
        = castShadow ext.tolerance scenarioBounds scenarioObserver.position (scenarioLine none closed)
    ∧ (computeShadow ext true [] sceneItems localItems sc
        (scenarioDetail (some Side.right) closed invalidateCache)).polygons
          = [[⟨scenarioShadow, scenarioWall (some Side.right) closed⟩]]
    ∧ (computeShadow ext true [] sceneItems localItems sc
        (scenarioDetail (some Side.right) closed invalidateCache)).regions = [scenarioRegion closed]
    ∧ (∀ p : Point, (scenarioRegion closed).contains p = (Path.rect 0 0 400 1000).contains p)
    ∧ castShadow ext.tolerance scenarioBounds scenarioObserver.position
        (scenarioLine (some Side.left) closed) = CastResult.skipped
    ∧ (computeShadow ext true [] sceneItems localItems sc
        (scenarioDetail (some Side.left) closed invalidateCache)).polygons = [[]]
    ∧ (computeShadow ext true [] sceneItems localItems sc
        (scenarioDetail (some Side.left) closed invalidateCache)).regions
          = [Path.rect 0 0 1000 1000] := by
  have hs : (some Side.right) ≠ some Side.left := by simp
  have hn : (none : Option Side) ≠ some Side.left := by simp
  have hright := scenario_pass ext (some Side.right) closed invalidateCache sceneItems localItems sc
    [⟨scenarioShadow, scenarioWall (some Side.right) closed⟩] (scenarioRegion closed) hauto
    (scenario_castAll ext.tolerance htol0 htol1 (some Side.right) closed hs)
    (scenario_compose (some Side.right) closed) hres hcmds
  have hleft := scenario_pass ext (some Side.left) closed invalidateCache sceneItems localItems sc
    [] (Path.rect 0 0 1000 1000) hauto (scenario_castAll_left ext.tolerance closed)
    scenario_compose_nil hresFull hcmdsFull
  rw [hright, hleft, finishPass_polygons, finishPass_regions, finishPass_polygons,
    finishPass_regions]
  refine ⟨scenario_signedDistance _ _, ?_, rfl, ?_, scenarioRegion_eq_rect closed,
    scenario_cast_left ext.tolerance closed, rfl, ?_⟩
  · show castShadow ext.tolerance scenarioBounds ⟨200, 500⟩ _
      = castShadow ext.tolerance scenarioBounds ⟨200, 500⟩ _
    rw [scenario_cast ext.tolerance htol0 htol1 (some Side.right) closed hs,
      scenario_cast ext.tolerance htol0 htol1 none closed hn]
  · simp only [List.zip_cons_cons, List.zip_nil_right, List.map_cons, List.map_nil, scenario_clip]
  · simp only [List.zip_cons_cons, List.zip_nil_right, List.map_cons, List.map_nil, scenario_clip]

/-- Witness of `scenario_one_sided`: the stated externals, a closed wall, empty stores and
the default scene cache. -/
theorem scenario_one_sided_witness :
    (0 ≤ exampleExt.tolerance ∧ exampleExt.tolerance < 1000
      ∧ ({} : SceneCache).metadata.autodetectEnabled = false
      ∧ exampleExt.resolves (scenarioRegion true) = true
      ∧ exampleExt.toCmds (scenarioRegion true) ≠ []
      ∧ exampleExt.resolves (Path.rect 0 0 1000 1000) = true
      ∧ exampleExt.toCmds (Path.rect 0 0 1000 1000) ≠ [])
    ∧ (computeShadow exampleExt true [] [] [] {} (scenarioDetail (some Side.left) true false)).regions
        = [Path.rect 0 0 1000 1000] :=
  ⟨⟨by norm_num [exampleExt], by norm_num [exampleExt], rfl, rfl, List.cons_ne_nil _ _, rfl,
      List.cons_ne_nil _ _⟩,
    (scenario_one_sided exampleExt true false [] [] {}
      (by norm_num [exampleExt]) (by norm_num [exampleExt]) rfl rfl
      (List.cons_ne_nil _ _) rfl (List.cons_ne_nil _ _)).2.2.2.2.2.2.2⟩

/-! ## Lemmas on the change detector -/

/-- Before the first pass the skip condition is false. -/
theorem unchanged_initial (k : Keys) (forceUpdate : Option Bool) :
    unchanged {} k forceUpdate = some false := by
  simp [unchanged]

/-- After a launch the skip condition never throws: it holds exactly when the stored keys are
the current ones and `forceUpdate` is not `true`. -/
theorem unchanged_store (k0 k : Keys) (forceUpdate : Option Bool) :
    unchanged (store k0) k forceUpdate
      = some (decide (store k0 = store k ∧ forceUpdate ≠ some true)) := by
  obtain ⟨a1, a2, a3, ⟨a4, a4'⟩, a5, a6, a7, a8, a9⟩ := k0
  obtain ⟨b1, b2, b3, ⟨b4, b4'⟩, b5, b6, b7, b8, b9⟩ := k
  simp only [unchanged, store]
  split_ifs with h
  · simp only [Bool.and_eq_true, beq_iff_eq, Option.some.injEq] at h
    obtain ⟨⟨⟨⟨⟨⟨⟨h1, h2⟩, h3⟩, h4⟩, h5⟩, h6⟩, h7⟩, h8⟩ := h
    subst h1 h2 h3 h4 h5 h6 h7 h8
    congr 1
    rw [Bool.eq_iff_iff]
    simp only [Bool.and_eq_true, beq_iff_eq, bne_iff_ne, decide_eq_true_eq, Previous.mk.injEq,
      Option.some.injEq, Prod.mk.injEq, true_and, and_true, ne_eq]
    constructor
    · rintro ⟨⟨rfl, rfl⟩, hf⟩
      exact ⟨⟨rfl, rfl⟩, hf⟩
    · rintro ⟨⟨rfl, rfl⟩, hf⟩
      exact ⟨⟨rfl, rfl⟩, hf⟩
  · simp only [Bool.and_eq_true, beq_iff_eq, Option.some.injEq] at h
    congr 1
    symm
    rw [decide_eq_false_iff_not]
    simp only [Previous.mk.injEq, Option.some.injEq]
    rintro ⟨⟨e1, e2, e3, e4, e5, e6, e7, e8, e9⟩, _⟩
    exact h ⟨⟨⟨⟨⟨⟨⟨e8.symm, e4.symm⟩, e9⟩, e5⟩, e6⟩, e7⟩, e1⟩, e2⟩

/-- Before the first pass the cache is invalidated. -/
theorem invalidates_initial (k : Keys) : invalidates {} k = some true := by
  simp [invalidates]

/-- After a launch the value of `invalidateCache` never throws: it is true exactly when the map,
the shapes or the size differ from the stored ones. -/
theorem invalidates_store (k0 k : Keys) :
    invalidates (store k0) k
      = some (decide (k0.sBackgroundImage ≠ k.sBackgroundImage ∨ k0.sVisionShapes ≠ k.sVisionShapes
          ∨ k0.size ≠ k.size)) := by
  obtain ⟨a1, a2, a3, ⟨a4, a4'⟩, a5, a6, a7, a8, a9⟩ := k0
  obtain ⟨b1, b2, b3, ⟨b4, b4'⟩, b5, b6, b7, b8, b9⟩ := k
  simp only [invalidates, store]
  split_ifs with h
  · congr 1
    symm
    simp only [Bool.or_eq_true, bne_iff_ne, ne_eq, Option.some.injEq] at h
    rw [decide_eq_true_eq]
    rcases h with h | h
    · exact Or.inl (fun e => h e.symm)
    · exact Or.inr (Or.inl h)
  · simp only [Bool.or_eq_true, bne_iff_ne, ne_eq, Option.some.injEq, not_or, not_not] at h
    obtain ⟨h1, h2⟩ := h
    subst h1 h2
    congr 1
    rw [Bool.eq_iff_iff]
    simp only [Bool.or_eq_true, bne_iff_ne, ne_eq, decide_eq_true_eq, not_true_eq_false,
      false_or, Prod.mk.injEq, not_and_or]
    constructor
    · rintro (h | h)
      · exact Or.inl (fun e => h e.symm)
      · exact Or.inr (fun e => h e.symm)
    · rintro (h | h)
      · exact Or.inl (fun e => h e.symm)
      · exact Or.inr (fun e => h e.symm)

/-- The call on a ready scene with a background image, while no pass is busy. -/
theorem onSceneDataChange_eval (ext : Externals) (prev : Previous) (sc : SceneCache)
    (backgroundImage : Item) (forceUpdate : Option Bool)
    (hbg : (sc.items.filter isBackgroundImage).head? = some backgroundImage) :
    onSceneDataChange ext false true prev sc forceUpdate
      = match unchanged prev (keysOf ext sc backgroundImage) forceUpdate with
        | none => (prev, Dispatch.threw)
        | some true => (prev, Dispatch.returned)
        | some false =>
          match invalidates prev (keysOf ext sc backgroundImage) with
          | none => (prev, Dispatch.threw)
          | some invalidateCache =>
            (store (keysOf ext sc backgroundImage),
              Dispatch.dispatched
                (eventDetail sc backgroundImage (keysOf ext sc backgroundImage) invalidateCache)) := by
  unfold onSceneDataChange
  simp only [Bool.false_eq_true, if_false, Bool.not_true, Bool.not_false, if_true, hbg]

/-- A call made while a pass is busy, on a scene that is not ready or without a background
image returns and changes nothing. -/
theorem onSceneDataChange_gate (ext : Externals) (busy ready : Bool) (prev : Previous)
    (sc : SceneCache) (forceUpdate : Option Bool)
    (h : busy = true ∨ ready = false ∨ (sc.items.filter isBackgroundImage).head? = none) :
    onSceneDataChange ext busy ready prev sc forceUpdate = (prev, Dispatch.returned) := by
  unfold onSceneDataChange
  rcases h with h | h | h
  · simp only [h, if_true]
  · cases busy <;> simp only [h, Bool.not_false, if_true, Bool.false_eq_true, if_false]
  · cases busy <;> cases ready <;>
      simp only [h, Bool.not_false, Bool.not_true, if_true, Bool.false_eq_true, if_false]

/-- The stored keys are the current ones when each `previous...` variable holds the current
value of its key. -/
theorem eq_store_iff (prev : Previous) (k : Keys) :
    prev = store k
      ↔ (prev.map = some k.sBackgroundImage ∧ prev.visionEnabled = some k.visionEnabled
          ∧ prev.autodetectEnabled = some k.autodetectEnabled
          ∧ prev.fowEnabled = some k.fowEnabled ∧ prev.fowColor = k.fowColor
          ∧ prev.persistenceEnabled = some k.persistenceEnabled
          ∧ prev.visionShapes = some k.sVisionShapes
          ∧ prev.playersWithVision = some k.sPlayersWithVision
          ∧ prev.size = some k.size) := by
  obtain ⟨p1, p2, p3, p4, p5, p6, p7, p8, p9⟩ := prev
  simp only [store, Previous.mk.injEq]
  tauto

/-- From a reachable state the skip condition is defined and says whether the stored keys are
the current ones and the force flag is off. -/
theorem unchanged_reachable (prev : Previous) (k : Keys) (forceUpdate : Option Bool)
    (hreach : prev.reachable) :
    unchanged prev k forceUpdate = some (decide (prev = store k ∧ forceUpdate ≠ some true)) := by
  rcases hreach with h | ⟨k0, h⟩
  · subst h
    have hne : ¬ (({} : Previous) = store k ∧ forceUpdate ≠ some true) := by
      rintro ⟨e, _⟩
      exact Option.noConfusion (congrArg Previous.map e)
    rw [unchanged_initial, decide_eq_false hne]
  · subst h
    exact unchanged_store k0 k forceUpdate

/-- From a reachable state the value of `invalidateCache` is defined. -/
theorem invalidates_reachable (prev : Previous) (k : Keys) (hreach : prev.reachable) :
    invalidates prev k
      = some (decide (prev.map ≠ some k.sBackgroundImage ∨ prev.visionShapes ≠ some k.sVisionShapes
          ∨ prev.size ≠ some k.size)) := by
  rcases hreach with h | ⟨k0, h⟩
  · subst h
    rw [invalidates_initial]
    simp
  · subst h
    rw [invalidates_store]
    simp [store]

/-- On a scene with a background image, while no pass is busy and the scene is ready, from
any state the `previous...` variables can be in: `onSceneDataChange` returns without
launching a pass exactly when every `previous...` variable holds the current value of its
key and `forceUpdate` is not `true`; in every other case it stores the keys and dispatches
the event. -/
theorem skip_iff_stored (ext : Externals) (prev : Previous) (sc : SceneCache)
    (backgroundImage : Item) (forceUpdate : Option Bool)
    (hreach : prev.reachable)
    (hbg : (sc.items.filter isBackgroundImage).head? = some backgroundImage) :
    ((onSceneDataChange ext false true prev sc forceUpdate).2 = Dispatch.returned
      ↔ ((prev.map = some (keysOf ext sc backgroundImage).sBackgroundImage
          ∧ prev.visionEnabled = some (keysOf ext sc backgroundImage).visionEnabled
          ∧ prev.autodetectEnabled = some (keysOf ext sc backgroundImage).autodetectEnabled
          ∧ prev.fowEnabled = some (keysOf ext sc backgroundImage).fowEnabled
          ∧ prev.fowColor = (keysOf ext sc backgroundImage).fowColor
          ∧ prev.persistenceEnabled = some (keysOf ext sc backgroundImage).persistenceEnabled
          ∧ prev.visionShapes = some (keysOf ext sc backgroundImage).sVisionShapes
          ∧ prev.playersWithVision = some (keysOf ext sc backgroundImage).sPlayersWithVision
          ∧ prev.size = some (keysOf ext sc backgroundImage).size)
        ∧ forceUpdate ≠ some true))
    ∧ ((onSceneDataChange ext false true prev sc forceUpdate).2 ≠ Dispatch.returned
      → ∃ invalidateCache : Bool,
          onSceneDataChange ext false true prev sc forceUpdate
            = (store (keysOf ext sc backgroundImage),
                Dispatch.dispatched
                  (eventDetail sc backgroundImage (keysOf ext sc backgroundImage) invalidateCache)))
    ∧ (forceUpdate = some true
      → ∃ invalidateCache : Bool,
          onSceneDataChange ext false true prev sc forceUpdate
            = (store (keysOf ext sc backgroundImage),
                Dispatch.dispatched
                  (eventDetail sc backgroundImage (keysOf ext sc backgroundImage) invalidateCache))) := by
  rw [onSceneDataChange_eval ext prev sc backgroundImage forceUpdate hbg,
    unchanged_reachable prev _ forceUpdate hreach, invalidates_reachable prev _ hreach,
    ← eq_store_iff]
  by_cases h : prev = store (keysOf ext sc backgroundImage) ∧ forceUpdate ≠ some true
  · rw [decide_eq_true h]
    exact ⟨⟨fun _ => h, fun _ => rfl⟩, fun hne => absurd rfl hne, fun hf => absurd hf h.2⟩
  · rw [decide_eq_false h]
    exact ⟨⟨fun hr => Dispatch.noConfusion hr, fun hh => absurd hh h⟩, fun _ => ⟨_, rfl⟩,
      fun _ => ⟨_, rfl⟩⟩

theorem exampleScene_background :
    (exampleScene.items.filter isBackgroundImage).head? = some exampleMap := by
  decide

/-- A value of `invalidateCache` that is defined is true exactly when the map, the shapes, the
width or the height differ from the stored ones. -/
theorem invalidates_some (prev : Previous) (k : Keys) (invalidateCache : Bool)
    (h : invalidates prev k = some invalidateCache) :
    invalidateCache = true
      ↔ (prev.map ≠ some k.sBackgroundImage ∨ prev.visionShapes ≠ some k.sVisionShapes
          ∨ prev.size.map Prod.fst ≠ some k.size.1 ∨ prev.size.map Prod.snd ≠ some k.size.2) := by
  unfold invalidates at h
  split_ifs at h with h1
  · simp only [Option.some.injEq] at h
    subst h
    simp only [Bool.or_eq_true, bne_iff_ne, ne_eq] at h1
    simp only [true_iff]
    rcases h1 with h1 | h1
    · exact Or.inl (fun e => h1 e.symm)
    · exact Or.inr (Or.inl h1)
  · simp only [Bool.or_eq_true, bne_iff_ne, ne_eq, not_or, not_not] at h1
    cases hs : prev.size with
    | none => rw [hs] at h; cases h
    | some previousSize =>
      rw [hs] at h
      simp only [Option.some.injEq] at h
      subst h
      simp only [Bool.or_eq_true, bne_iff_ne, ne_eq, Option.map_some', Option.some.injEq, h1.1.symm,
        h1.2, not_true_eq_false, false_or]
      constructor
      · rintro (h | h)
        · exact Or.inl (fun e => h e.symm)
        · exact Or.inr (fun e => h e.symm)
      · rintro (h | h)
        · exact Or.inl (fun e => h e.symm)
        · exact Or.inr (fun e => h e.symm)

/-- A call that dispatches ran on a ready scene while no pass was busy, and its event holds the
value of `invalidateCache`. -/
theorem dispatched_inv (ext : Externals) (busy ready : Bool) (prev prev1 : Previous)
    (sc : SceneCache) (backgroundImage : Item) (forceUpdate : Option Bool) (detail : Detail)
    (hbg : (sc.items.filter isBackgroundImage).head? = some backgroundImage)
    (h : onSceneDataChange ext busy ready prev sc forceUpdate = (prev1, Dispatch.dispatched detail)) :
    busy = false ∧ ready = true ∧ prev1 = store (keysOf ext sc backgroundImage)
      ∧ invalidates prev (keysOf ext sc backgroundImage) = some detail.invalidateCache
      ∧ detail = eventDetail sc backgroundImage (keysOf ext sc backgroundImage) detail.invalidateCache := by
  cases busy with
  | true =>
    rw [onSceneDataChange_gate ext true ready prev sc forceUpdate (Or.inl rfl)] at h
    cases h
  | false =>
    cases ready with
    | false =>
      rw [onSceneDataChange_gate ext false false prev sc forceUpdate (Or.inr (Or.inl rfl))] at h
      cases h
    | true =>
      rw [onSceneDataChange_eval ext prev sc backgroundImage forceUpdate hbg] at h
      cases hu : unchanged prev (keysOf ext sc backgroundImage) forceUpdate with
      | none => rw [hu] at h; cases h
      | some u =>
        cases u with
        | true => rw [hu] at h; cases h
        | false =>
          rw [hu] at h
          cases hi : invalidates prev (keysOf ext sc backgroundImage) with
          | none => rw [hi] at h; cases h
          | some inv =>
            rw [hi] at h
            simp only [Prod.mk.injEq, Dispatch.dispatched.injEq] at h
            obtain ⟨h1, h2⟩ := h
            subst h1 h2
            exact ⟨rfl, rfl, rfl, rfl, rfl⟩

/-- Whenever `onSceneDataChange` dispatches the event, the flag `invalidateCache` it passes is
true exactly when the `previous...` variables of the map, the shapes, the width or the
height do not hold the current values. -/
theorem invalidateCache_iff_stored (ext : Externals) (busy ready : Bool) (prev prev1 : Previous)
    (sc : SceneCache) (backgroundImage : Item) (forceUpdate : Option Bool) (detail : Detail)
    (hbg : (sc.items.filter isBackgroundImage).head? = some backgroundImage)
    (h : onSceneDataChange ext busy ready prev sc forceUpdate = (prev1, Dispatch.dispatched detail)) :
    (detail.invalidateCache = true
      ↔ (prev.map ≠ some (keysOf ext sc backgroundImage).sBackgroundImage
          ∨ prev.visionShapes ≠ some (keysOf ext sc backgroundImage).sVisionShapes
          ∨ prev.size.map Prod.fst ≠ some (keysOf ext sc backgroundImage).size.1
          ∨ prev.size.map Prod.snd ≠ some (keysOf ext sc backgroundImage).size.2))
    ∧ (prev.map = some (keysOf ext sc backgroundImage).sBackgroundImage
        → prev.visionShapes = some (keysOf ext sc backgroundImage).sVisionShapes
        → prev.size = some (keysOf ext sc backgroundImage).size
        → detail.invalidateCache = false) := by
  obtain ⟨_, _, _, hi, _⟩ := dispatched_inv ext busy ready prev prev1 sc backgroundImage forceUpdate
    detail hbg h
  have key := invalidates_some prev _ _ hi
  refine ⟨key, fun h1 h2 h3 => ?_⟩
  rw [← Bool.not_eq_true, key, h1, h2, h3]
  simp

/-- The first call on the example scene dispatches the event with `invalidateCache` set. -/
theorem exampleScene_first_call (forceUpdate : Option Bool) :
    onSceneDataChange exampleExt false true {} exampleScene forceUpdate
      = (store (keysOf exampleExt exampleScene exampleMap),
          Dispatch.dispatched
            (eventDetail exampleScene exampleMap (keysOf exampleExt exampleScene exampleMap) true)) := by
  rw [onSceneDataChange_eval exampleExt {} exampleScene exampleMap forceUpdate
    exampleScene_background, unchanged_initial, invalidates_initial]

/-- Two calls of `onSceneDataChange` on the same scene with the same readiness, the second
without the force flag, from any state the `previous...` variables can be in: the second
call returns without an event and leaves the variables as the first call left them, when
the flag `busy` of the second call is the one of the first, or has any value after a first
call that dispatched. -/
theorem second_call_same_gates (ext : Externals) (busy ready busy2 : Bool)
    (prev : Previous) (sc : SceneCache) (force1 force2 : Option Bool)
    (hreach : prev.reachable) (hforce : force2 ≠ some true)
    (hbusy : busy2 = busy
      ∨ ∃ detail, (onSceneDataChange ext busy ready prev sc force1).2 = Dispatch.dispatched detail) :
    onSceneDataChange ext busy2 ready (onSceneDataChange ext busy ready prev sc force1).1 sc force2
      = ((onSceneDataChange ext busy ready prev sc force1).1, Dispatch.returned)
    ∧ (∀ detail, (onSceneDataChange ext busy ready prev sc force1).2 = Dispatch.dispatched detail
        → ∃ backgroundImage, (sc.items.filter isBackgroundImage).head? = some backgroundImage
            ∧ (onSceneDataChange ext busy ready prev sc force1).1
                = store (keysOf ext sc backgroundImage)) := by
  by_cases hgate : busy = true ∨ ready = false ∨ (sc.items.filter isBackgroundImage).head? = none
  · have h1 := onSceneDataChange_gate ext busy ready prev sc force1 hgate
    rw [h1] at hbusy ⊢
    have hb : busy2 = busy := by
      rcases hbusy with h | ⟨d, h⟩
      · exact h
      · cases h
    subst hb
    exact ⟨onSceneDataChange_gate ext busy2 ready prev sc force2 hgate, fun d h => by cases h⟩
  · simp only [not_or, Bool.not_eq_true, Bool.not_eq_false] at hgate
    obtain ⟨hb, hr, hbg⟩ := hgate
    obtain ⟨backgroundImage, hbg⟩ := Option.ne_none_iff_exists'.mp hbg
    subst hb hr
    have h1 := onSceneDataChange_eval ext prev sc backgroundImage force1 hbg
    rw [unchanged_reachable prev _ force1 hreach, invalidates_reachable prev _ hreach] at h1
    by_cases hk : prev = store (keysOf ext sc backgroundImage) ∧ force1 ≠ some true
    · rw [decide_eq_true hk] at h1
      rw [h1] at hbusy ⊢
      have hb : busy2 = false := by
        rcases hbusy with h | ⟨d, h⟩
        · exact h
        · cases h
      subst hb
      refine ⟨?_, fun d h => by cases h⟩
      rw [onSceneDataChange_eval ext prev sc backgroundImage force2 hbg,
        unchanged_reachable prev _ force2 hreach, decide_eq_true ⟨hk.1, hforce⟩]
    · rw [decide_eq_false hk] at h1
      rw [h1]
      refine ⟨?_, fun d _ => ⟨backgroundImage, hbg, rfl⟩⟩
      cases busy2 with
      | true => exact onSceneDataChange_gate ext true true _ sc force2 (Or.inl rfl)
      | false =>
        rw [onSceneDataChange_eval ext _ sc backgroundImage force2 hbg,
          unchanged_store, decide_eq_true ⟨rfl, hforce⟩]

/-! ## Lemmas on the shadow cache -/

theorem getValue_cacheValue_self (cache : ObjectCache) (key : String) (value : CacheEntry) :
    (cache.cacheValue key value).getValue key = some value := by
  simp [ObjectCache.getValue, ObjectCache.cacheValue]

theorem getValue_cacheValue_ne (cache : ObjectCache) (key key1 : String) (value : CacheEntry)
    (h : key1 ≠ key) :
    (cache.cacheValue key value).getValue key1 = cache.getValue key1 := by
  have h1 : (key == key1) = false := by
    rw [beq_eq_false_iff_ne]
    exact fun e => h e.symm
  simp only [ObjectCache.getValue, ObjectCache.cacheValue, List.find?_cons, h1]
  congr 1
  induction cache with
  | nil => rfl
  | cons kv rest ih =>
    by_cases hk : kv.1 = key
    · have hk1 : (kv.1 == key1) = false := by
        rw [beq_eq_false_iff_ne, hk]
        exact fun e => h e.symm
      have hk2 : (kv.1 != key) = false := by
        rw [hk]
        exact bne_self_eq_false key
      simp only [List.filter_cons, hk2, Bool.false_eq_true, if_false, List.find?_cons, hk1]
      exact ih
    · have hk2 : (kv.1 != key) = true := by
        rw [bne_iff_ne]
        exact hk
      simp only [List.filter_cons, hk2, if_true, List.find?_cons]
      cases hq : (kv.1 == key1) with
      | true => rfl
      | false => exact ih

/-- The test of the first step and the lookup of the second step agree. -/
theorem isCached_eq (cache : ObjectCache) (player : Item) :
    isCached cache player = (cachedPath cache player).isSome := by
  unfold isCached cachedPath
  cases cache.getValue player.id with
  | none => rfl
  | some entry =>
    cases h : comparePosition entry.player.position player.position <;> simp [h]

/-- The cached path of a player only depends on the entry of its id. -/
theorem cachedPath_congr (cache1 cache2 : ObjectCache) (player : Item)
    (h : cache1.getValue player.id = cache2.getValue player.id) :
    cachedPath cache1 player = cachedPath cache2 player := by
  unfold cachedPath
  rw [h]

/-- One turn of the second step on a cache hit. -/
theorem composeAll_hit (ext : Externals) (b : Bounds) (st : ComposeState) (player : Item)
    (polys : List ShadowPolygon) (rest : List (Item × List ShadowPolygon)) (cached : Path)
    (h : cachedPath st.cache player = some cached) :
    composeAll ext b st ((player, polys) :: rest)
      = composeAll ext b
          { st with cacheHits := st.cacheHits + 1
                    itemsPerPlayer := st.itemsPerPlayer ++ [cached] } rest := by
  simp only [composeAll, h]

/-- One turn of the second step on a cache miss that ends the loop: the composition throws or
resolves to nothing. -/
theorem composeAll_miss (ext : Externals) (b : Bounds) (st : ComposeState) (player : Item)
    (polys : List ShadowPolygon) (rest : List (Item × List ShadowPolygon))
    (h : cachedPath st.cache player = none) :
    composeAll ext b st ((player, polys) :: rest)
      = match composeRegion b polys with
        | none => ComposeResult.threw { st with cacheMisses := st.cacheMisses + 1 }
        | some path =>
          if !ext.resolves path || (ext.toCmds path).length == 0 then
            ComposeResult.failed { st with cacheMisses := st.cacheMisses + 1 }
          else
            composeAll ext b
              { cache := st.cache.cacheValue player.id ⟨path, player⟩
                cacheHits := st.cacheHits
                cacheMisses := st.cacheMisses + 1
                itemsPerPlayer := st.itemsPerPlayer ++ [path] } rest := by
  simp only [composeAll, h]

/-- What a second step that runs over all players did, for players of distinct ids:
one path per player, as `PlayerComposed` says, one hit per cached player, one miss per other
player, and no change to the entries of other ids. -/
theorem composeAll_done_spec (ext : Externals) (b : Bounds) (cache0 : ObjectCache) :
    ∀ (l : List (Item × List ShadowPolygon)) (st st1 : ComposeState),
      (l.map (fun pr => pr.1.id)).Nodup →
      (∀ pr ∈ l, st.cache.getValue pr.1.id = cache0.getValue pr.1.id) →
      composeAll ext b st l = ComposeResult.done st1 →
      (∃ paths, st1.itemsPerPlayer = st.itemsPerPlayer ++ paths
          ∧ List.Forall₂ (PlayerComposed b cache0 st1.cache) l paths)
        ∧ st1.cacheHits = st.cacheHits + l.countP (fun pr => isCached cache0 pr.1)
        ∧ st1.cacheMisses = st.cacheMisses + l.countP (fun pr => !isCached cache0 pr.1)
        ∧ (∀ key, key ∉ l.map (fun pr => pr.1.id) → st1.cache.getValue key = st.cache.getValue key) := by
  intro l
  induction l with
  | nil =>
    intro st st1 _ _ h
    simp only [composeAll, ComposeResult.done.injEq] at h
    subst h
    exact ⟨⟨[], by simp, List.Forall₂.nil⟩, by simp, by simp, fun _ _ => rfl⟩
  | cons pr rest ih =>
    obtain ⟨player, polys⟩ := pr
    intro st st1 hnd hagree h
    simp only [List.map_cons, List.nodup_cons] at hnd
    obtain ⟨hnotin, hnd⟩ := hnd
    have hhead : cachedPath st.cache player = cachedPath cache0 player :=
      cachedPath_congr _ _ _ (hagree (player, polys) (List.mem_cons_self _ _))
    cases hc : cachedPath st.cache player with
    | some cached =>
      rw [composeAll_hit ext b st player polys rest cached hc] at h
      have hag : ∀ pr ∈ rest, st.cache.getValue pr.1.id = cache0.getValue pr.1.id :=
        fun pr hpr => hagree pr (List.mem_cons_of_mem _ hpr)
      obtain ⟨⟨paths, hp, hf⟩, hh, hm, hframe⟩ :=
        ih { st with cacheHits := st.cacheHits + 1
                     itemsPerPlayer := st.itemsPerPlayer ++ [cached] } st1 hnd hag h
      have hcached : isCached cache0 player = true := by
        rw [isCached_eq, ← hhead, hc]; rfl
      refine ⟨⟨cached :: paths, ?_, ?_⟩, ?_, ?_, ?_⟩
      · rw [hp]; simp
      · refine List.Forall₂.cons ?_ hf
        unfold PlayerComposed
        simp only [← hhead, hc]
        refine ⟨trivial, ?_⟩
        rw [hframe player.id hnotin]
        exact hagree (player, polys) (List.mem_cons_self _ _)
      · rw [hh]; simp [List.countP_cons, hcached]; omega
      · rw [hm]; simp [List.countP_cons, hcached]
      · intro key hkey
        simp only [List.map_cons, List.mem_cons, not_or] at hkey
        exact hframe key hkey.2
    | none =>
      rw [composeAll_miss ext b st player polys rest hc] at h
      cases hr : composeRegion b polys with
      | none => rw [hr] at h; cases h
      | some path =>
        rw [hr] at h
        simp only at h
        split_ifs at h with hfail
        have hag : ∀ pr ∈ rest,
            (st.cache.cacheValue player.id ⟨path, player⟩).getValue pr.1.id
              = cache0.getValue pr.1.id := by
          intro pr hpr
          have hne : pr.1.id ≠ player.id := by
            intro e
            apply hnotin
            rw [← e]
            exact List.mem_map_of_mem (fun pr => pr.1.id) hpr
          rw [getValue_cacheValue_ne _ _ _ _ hne]
          exact hagree pr (List.mem_cons_of_mem _ hpr)
        obtain ⟨⟨paths, hp, hf⟩, hh, hm, hframe⟩ :=
          ih { cache := st.cache.cacheValue player.id ⟨path, player⟩
               cacheHits := st.cacheHits
               cacheMisses := st.cacheMisses + 1
               itemsPerPlayer := st.itemsPerPlayer ++ [path] } st1 hnd hag h
        have hcached : isCached cache0 player = false := by
          rw [isCached_eq, ← hhead, hc]; rfl
        refine ⟨⟨path :: paths, ?_, ?_⟩, ?_, ?_, ?_⟩
        · rw [hp]; simp
        · refine List.Forall₂.cons ?_ hf
          unfold PlayerComposed
          simp only [← hhead, hc]
          refine ⟨hr, ?_⟩
          rw [hframe player.id hnotin]
          exact getValue_cacheValue_self _ _ _
        · rw [hh]; simp [List.countP_cons, hcached]
        · rw [hm]; simp [List.countP_cons, hcached]; omega
        · intro key hkey
          simp only [List.map_cons, List.mem_cons, not_or] at hkey
          rw [hframe key hkey.2]
          exact getValue_cacheValue_ne _ _ _ _ hkey.1

/-- A pass that ends as completed went through every step: the scene was ready, the bounds
are defined, vision is enabled, there is a player, no turn threw and every composition
resolved. -/
theorem computeShadow_completed_inv (ext : Externals) (ready : Bool) (cache : ObjectCache)
    (sceneItems localItems : List Item) (sc : SceneCache) (detail : Detail)
    (h : (computeShadow ext ready cache sceneItems localItems sc detail).outcome = Outcome.completed) :
    ∃ b polygons st,
      ready = true
      ∧ passBounds sc sceneItems detail = some b
      ∧ detail.metadata.visionEnabled = true
      ∧ detail.playersWithVision ≠ []
      ∧ allPolygons ext.tolerance b (if detail.invalidateCache then cache.invalidate else cache)
          (visionLinesOf detail.visionShapes) detail.playersWithVision = some polygons
      ∧ composeAll ext b ⟨if detail.invalidateCache then cache.invalidate else cache, 0, 0, []⟩
          (detail.playersWithVision.zip polygons) = ComposeResult.done st
      ∧ computeShadow ext ready cache sceneItems localItems sc detail
          = finishPass ext sceneItems localItems sc detail.playersWithVision b polygons st := by
  cases ready with
  | false =>
    unfold computeShadow at h
    simp only [Bool.not_false, if_true] at h
    cases h
  | true =>
    by_cases hv : (!detail.metadata.visionEnabled || detail.playersWithVision.length == 0) = true
    · unfold computeShadow at h
      simp only [Bool.not_true, Bool.false_eq_true, if_false, hv, if_true] at h
      cases h
    · have hv1 := hv
      simp only [Bool.or_eq_true, Bool.not_eq_true', beq_iff_eq, List.length_eq_zero, not_or,
        Bool.not_eq_false] at hv1
      unfold computeShadow at h
      simp only [Bool.not_true, Bool.false_eq_true, if_false, hv] at h
      cases hb : passBounds sc sceneItems detail with
      | none => rw [hb] at h; cases h
      | some b =>
        rw [hb] at h
        simp only at h
        cases hp : allPolygons ext.tolerance b
            (if detail.invalidateCache then cache.invalidate else cache)
            (visionLinesOf detail.visionShapes) detail.playersWithVision with
        | none => rw [hp] at h; cases h
        | some polygons =>
          rw [hp] at h
          simp only at h
          cases hc : composeAll ext b
              ⟨if detail.invalidateCache then cache.invalidate else cache, 0, 0, []⟩
              (detail.playersWithVision.zip polygons) with
          | threw st => rw [hc] at h; cases h
          | failed st => rw [hc] at h; cases h
          | done st =>
            exact ⟨b, polygons, st, rfl, rfl, hv1.1, hv1.2, hp, hc,
              computeShadow_done ext cache sceneItems localItems sc detail b polygons st hb hv1.1
                hv1.2 hp hc⟩

/-- What the first step did when no turn threw: nothing for a cached player, the cast of all
lines for any other. -/
theorem allPolygons_spec (tol : ℚ) (b : Bounds) (cache : ObjectCache) (lines : List VisionLine) :
    ∀ (players : List Item) (polygons : List (List ShadowPolygon)),
      allPolygons tol b cache lines players = some polygons →
      List.Forall₂ (fun player polys =>
        if isCached cache player then polys = []
        else castAll tol b player.position lines = some polys) players polygons := by
  intro players
  induction players with
  | nil =>
    intro polygons h
    simp only [allPolygons, Option.some.injEq] at h
    subst h
    exact List.Forall₂.nil
  | cons player rest ih =>
    intro polygons h
    simp only [allPolygons] at h
    cases hp : playerPolygons tol b cache lines player with
    | none => rw [hp] at h; cases h
    | some ps =>
      rw [hp] at h
      simp only at h
      cases hr : allPolygons tol b cache lines rest with
      | none => rw [hr] at h; cases h
      | some pss =>
        rw [hr] at h
        simp only [Option.map_some', Option.some.injEq] at h
        subst h
        refine List.Forall₂.cons ?_ (ih pss hr)
        unfold playerPolygons at hp
        split_ifs at hp ⊢ with hcached
        · simp only [Option.some.injEq] at hp
          exact hp.symm
        · exact hp

/-- A pass in which a composition resolves to nothing ends in the branch
`Couldn't compute fog`, with both stores untouched. -/
theorem computeShadow_failed (ext : Externals) (cache : ObjectCache)
    (sceneItems localItems : List Item) (sc : SceneCache) (detail : Detail) (b : Bounds)
    (polygons : List (List ShadowPolygon)) (st : ComposeState)
    (hb : passBounds sc sceneItems detail = some b)
    (hv : detail.metadata.visionEnabled = true)
    (hp : detail.playersWithVision ≠ [])
    (hpoly : allPolygons ext.tolerance b (if detail.invalidateCache then cache.invalidate else cache)
      (visionLinesOf detail.visionShapes) detail.playersWithVision = some polygons)
    (hcomp : composeAll ext b ⟨if detail.invalidateCache then cache.invalidate else cache, 0, 0, []⟩
      (detail.playersWithVision.zip polygons) = ComposeResult.failed st) :
    computeShadow ext true cache sceneItems localItems sc detail
      = { outcome := Outcome.failed, busy := false, cache := st.cache
          sceneItems := sceneItems, localItems := localItems, fogFilled := sc.fogFilled
          polygons := polygons } := by
  have hlen : (detail.playersWithVision.length == 0) = false := by
    cases hq : detail.playersWithVision with
    | nil => exact absurd hq hp
    | cons a l => rfl
  unfold computeShadow
  simp only [Bool.not_true, Bool.false_eq_true, if_false, hv, hlen, Bool.or_self, hb, hpoly, hcomp]

/-! ## A pass that fails -/

theorem edge_lines : visionLinesOf [edgeWall] = [edgeLine] := by
  simp only [visionLinesOf, List.flatMap_cons, List.flatMap_nil, List.append_nil]
  show shapeLines edgeWall [⟨0, 0⟩, ⟨0, 1000⟩] = _
  simp only [shapeLines, edgeLine, List.cons.injEq, and_true, VisionLine.mk.injEq, Point.mk.injEq]
  refine ⟨⟨?_, ?_⟩, ⟨?_, ?_⟩, trivial, rfl⟩ <;> simp only [edgeWall] <;> norm_num

theorem edge_signedDistance : signedDistance ⟨-100, 500⟩ edgeLine = -100000 := by
  simp only [signedDistance, edgeLine]; norm_num

/-- For the observer left of the map the wall along the left edge casts `edgeShadow`. -/
theorem edge_cast (tol : ℚ) (h0 : 0 ≤ tol) (h1 : tol < 1000) :
    castShadow tol scenarioBounds ⟨-100, 500⟩ edgeLine = CastResult.polygon edgeShadow := by
  have hskip : oneSidedSkip none (-100000) = false := rfl
  have e1 : edgeOf tol scenarioBounds ⟨0, 0⟩ = 0 := by
    simp [edgeOf, isClose, scenarioBounds, h0]
  have e2 : edgeOf tol scenarioBounds ⟨0, 1000⟩ = 2 := by
    have : ¬ ((1000 : ℚ) ≤ tol) := not_le.mpr h1
    simp [edgeOf, isClose, scenarioBounds, h0, this]
  have hsign : mathSign (-100000) = -1 := by simp only [mathSign]; norm_num
  have key := castShadow_polygon tol scenarioBounds ⟨-100, 500⟩ edgeLine
    ⟨0, 0⟩ ⟨0, 1000⟩ [0, 1]
    (by rw [edge_signedDistance]; exact hskip)
    (by simp only [edgeLine, projOptions, scenarioBounds, xlim, ylim]
        norm_num [chooseProj, squareDistance])
    (by simp only [edgeLine, projOptions, scenarioBounds, xlim, ylim]
        norm_num [chooseProj, squareDistance])
    (by rw [edge_signedDistance, hsign, e1, e2]; decide)
  rw [key]
  simp only [edgeLine, edgeShadow, cornerAt, corners, scenarioBounds, List.map_cons,
    List.map_nil, List.cons_append, List.nil_append]
  norm_num

/-- The region `coveredRegion` fills no point. -/
theorem coveredRegion_empty (p : Point) : coveredRegion.contains p = false := by
  have hr := rect_contains 0 0 1000 1000 (by norm_num) (by norm_num) p
  have hs := wallShadow_contains 0 1000 0 1000 (by norm_num) (by norm_num) p
  simp only [zero_add] at hr
  rw [← Bool.not_eq_true, coveredRegion, contains_difference, Bool.and_eq_true, hr,
    Bool.not_eq_true', ← Bool.not_eq_true, edgeShadow, hs]
  exact fun h => h.2 h.1

/-- The pass on `coveredDetail` fails at the composition of the only player. -/
theorem covered_pass (sceneItems localItems : List Item) (sc : SceneCache)
    (hauto : sc.metadata.autodetectEnabled = false) :
    computeShadow coveredExt true [] sceneItems localItems sc coveredDetail
      = { outcome := Outcome.failed, busy := false, cache := []
          sceneItems := sceneItems, localItems := localItems, fogFilled := sc.fogFilled
          polygons := [[⟨edgeShadow, edgeWall⟩]] } := by
  have h0 : (0 : ℚ) ≤ coveredExt.tolerance := by norm_num [coveredExt, exampleExt]
  have h1 : coveredExt.tolerance < 1000 := by norm_num [coveredExt, exampleExt]
  have hcast : castAll coveredExt.tolerance scenarioBounds ⟨-100, 500⟩ [edgeLine]
      = some [⟨edgeShadow, edgeWall⟩] := by
    rw [castAll_polygon _ scenarioBounds ⟨-100, 500⟩ edgeLine [] edgeShadow
      (edge_cast _ h0 h1), castAll_nil]
    rfl
  have hregion : composeRegion scenarioBounds [⟨edgeShadow, edgeWall⟩] = some coveredRegion := by
    simp only [composeRegion, mergePolygons, shadowPath, edgeWall, coveredRegion, scenarioBounds,
      Bool.false_eq_true, if_false]
  have hcmds : coveredExt.toCmds coveredRegion = [] := by
    simp only [coveredExt, if_true]
  have key := computeShadow_failed coveredExt [] sceneItems localItems sc coveredDetail
    scenarioBounds [[⟨edgeShadow, edgeWall⟩]] ⟨[], 0, 1, []⟩
    (by unfold passBounds; rw [hauto]; rfl) rfl (List.cons_ne_nil _ _)
    (by
      show allPolygons coveredExt.tolerance scenarioBounds [] (visionLinesOf [edgeWall])
        [outsideObserver] = _
      rw [edge_lines]
      have hp : playerPolygons coveredExt.tolerance scenarioBounds [] [edgeLine] outsideObserver
          = some [⟨edgeShadow, edgeWall⟩] := hcast
      simp only [allPolygons, hp, Option.map_some'])
    (by
      show composeAll coveredExt scenarioBounds ⟨[], 0, 0, []⟩
        [(outsideObserver, [⟨edgeShadow, edgeWall⟩])] = _
      rw [composeAll_miss coveredExt scenarioBounds ⟨[], 0, 0, []⟩ outsideObserver
        [⟨edgeShadow, edgeWall⟩] [] rfl, hregion]
      simp only [hcmds, List.length_nil, beq_self_eq_true, Bool.or_true, if_true, zero_add])
  exact key

theorem finishPass_cache (ext : Externals) (sceneItems localItems : List Item) (sc : SceneCache)
    (players : List Item) (b : Bounds) (polygons : List (List ShadowPolygon)) (st : ComposeState) :
    (finishPass ext sceneItems localItems sc players b polygons st).cache = st.cache :=
  rfl

theorem finishPass_report (ext : Externals) (sceneItems localItems : List Item) (sc : SceneCache)
    (players : List Item) (b : Bounds) (polygons : List (List ShadowPolygon)) (st : ComposeState) :
    (finishPass ext sceneItems localItems sc players b polygons st).report
      = some (st.cacheHits, st.cacheMisses) :=
  rfl

/-- C7, as stated, fails: in a pass without invalidation, the observer `outsideObserver` has
no cache entry, yet it gets no region, no miss is reported and no entry is written, because
the composition resolves to nothing (the shadow covers the whole map rectangle, so the
composed region fills no point) and the pass ends in the branch `Couldn't compute fog`. -/
theorem failed_pass_writes_no_entry :
    coveredDetail.invalidateCache = false
    ∧ isCached [] outsideObserver = false
    ∧ (∀ p : Point, coveredRegion.contains p = false)
    ∧ composeRegion scenarioBounds [⟨edgeShadow, edgeWall⟩] = some coveredRegion
    ∧ (computeShadow coveredExt true [] [] [] {} coveredDetail).outcome = Outcome.failed
    ∧ (computeShadow coveredExt true [] [] [] {} coveredDetail).polygons
        = [[⟨edgeShadow, edgeWall⟩]]
    ∧ (computeShadow coveredExt true [] [] [] {} coveredDetail).regions = []
    ∧ (computeShadow coveredExt true [] [] [] {} coveredDetail).report = none
    ∧ (computeShadow coveredExt true [] [] [] {} coveredDetail).cache.getValue outsideObserver.id
        = none := by
  rw [covered_pass [] [] {} rfl]
  refine ⟨rfl, rfl, coveredRegion_empty, ?_, rfl, rfl, rfl, rfl, rfl⟩
  simp only [composeRegion, mergePolygons, shadowPath, edgeWall, coveredRegion, scenarioBounds,
    Bool.false_eq_true, if_false]

/-- A pass without invalidation of the cache that runs to completion, the ids of the
observers being distinct, does with the cache what `CacheContract` says. -/
theorem cache_contract_of_completed (ext : Externals) (ready : Bool) (cache : ObjectCache)
    (sceneItems localItems : List Item) (sc : SceneCache) (detail : Detail)
    (hinv : detail.invalidateCache = false)
    (hids : (detail.playersWithVision.map (fun player => player.id)).Nodup)
    (hdone : (computeShadow ext ready cache sceneItems localItems sc detail).outcome
      = Outcome.completed) :
    CacheContract ext cache sceneItems sc detail
      (computeShadow ext ready cache sceneItems localItems sc detail) := by
  obtain ⟨b, polygons, st, _, hb, _, _, hpoly, hcomp, heq⟩ :=
    computeShadow_completed_inv ext ready cache sceneItems localItems sc detail hdone
  simp only [hinv, Bool.false_eq_true, if_false] at hpoly hcomp
  have hspec := allPolygons_spec ext.tolerance b cache (visionLinesOf detail.visionShapes)
    detail.playersWithVision polygons hpoly
  have hlen : detail.playersWithVision.length = polygons.length := hspec.length_eq
  have hfst : (detail.playersWithVision.zip polygons).map Prod.fst = detail.playersWithVision :=
    List.map_fst_zip _ _ (le_of_eq hlen)
  have hnd : ((detail.playersWithVision.zip polygons).map (fun pr => pr.1.id)).Nodup := by
    have : (detail.playersWithVision.zip polygons).map (fun pr => pr.1.id)
        = ((detail.playersWithVision.zip polygons).map Prod.fst).map (fun player => player.id) := by
      rw [List.map_map]; rfl
    rw [this, hfst]
    exact hids
  obtain ⟨⟨paths, hpaths, hf⟩, hh, hm, _⟩ :=
    composeAll_done_spec ext b cache (detail.playersWithVision.zip polygons) ⟨cache, 0, 0, []⟩ st
      hnd (fun _ _ => rfl) hcomp
  have hcount : ∀ q : Item → Bool,
      (detail.playersWithVision.zip polygons).countP (fun pr => q pr.1)
        = detail.playersWithVision.countP q := by
    intro q
    have : (fun pr : Item × List ShadowPolygon => q pr.1) = q ∘ Prod.fst := rfl
    rw [this, ← List.countP_map, hfst]
  rw [heq]
  refine ⟨b, paths, hb, ?_, ?_, ?_, ?_⟩
  · rw [finishPass_polygons]
    exact hspec
  · rw [finishPass_polygons, finishPass_cache]
    exact hf
  · rw [finishPass_regions, hpaths, List.nil_append]
  · rw [finishPass_report, hh, hm, hcount (fun player => isCached cache player),
      hcount (fun player => !isCached cache player)]
    simp

/-! ## Lemmas on the fog synthesis -/

/-- One turn of the loop over the regions. -/
theorem synthLoop_cons (ext : Externals) (sceneItems : List Item) (st : SynthState)
    (pr : Item × Path) (rest : List (Item × Path)) :
    synthLoop ext sceneItems st (pr :: rest)
      = synthLoop ext sceneItems
          { itemsToAdd :=
              if inStore sceneItems (digestOf ext pr.2) then st.itemsToAdd
              else st.itemsToAdd ++ [fogToAdd ext pr]
            dedupDigest :=
              if inStore sceneItems (digestOf ext pr.2) then digestOf ext pr.2 :: st.dedupDigest
              else st.dedupDigest
            megapathrect := st.megapathrect.map (fun m => Path.op m PathOp.difference pr.2) }
          rest := by
  obtain ⟨player, item⟩ := pr
  simp only [synthLoop, inStore, digestOf, fogToAdd]
  by_cases h : (sceneItems.filter (fun filterItem => filterItem.digest
      == some (ext.sha1 (ext.toCmds item)))).length = 0
  · simp [h]
  · simp [h]

/-- The entries of `itemsToAdd`: one per player whose region has a digest that no item of the
store carries, in the order of the players. -/
theorem synthLoop_itemsToAdd (ext : Externals) (sceneItems : List Item) :
    ∀ (l : List (Item × Path)) (st : SynthState),
      (synthLoop ext sceneItems st l).itemsToAdd
        = st.itemsToAdd
            ++ (l.filter (fun pr => !inStore sceneItems (digestOf ext pr.2))).map (fogToAdd ext) := by
  intro l
  induction l with
  | nil => intro st; simp [synthLoop]
  | cons pr rest ih =>
    intro st
    rw [synthLoop_cons, ih]
    by_cases h : inStore sceneItems (digestOf ext pr.2) = true
    · simp [h]
    · simp [h]

/-- The keys of `dedup_digest`: the digests of the regions that an item of the store
carries. -/
theorem synthLoop_dedupDigest (ext : Externals) (sceneItems : List Item) (d : String) :
    ∀ (l : List (Item × Path)) (st : SynthState),
      d ∈ (synthLoop ext sceneItems st l).dedupDigest
        ↔ (d ∈ st.dedupDigest ∨ (inStore sceneItems d = true ∧ ∃ pr ∈ l, digestOf ext pr.2 = d)) := by
  intro l
  induction l with
  | nil => intro st; simp [synthLoop]
  | cons pr rest ih =>
    intro st
    rw [synthLoop_cons, ih]
    by_cases h : inStore sceneItems (digestOf ext pr.2) = true
    · simp only [h, if_true, List.mem_cons, exists_eq_or_imp]
      constructor
      · rintro ((h1 | h1) | ⟨h1, h2⟩)
        · subst h1; exact Or.inr ⟨h, Or.inl rfl⟩
        · exact Or.inl h1
        · exact Or.inr ⟨h1, Or.inr h2⟩
      · rintro (h1 | ⟨h1, h2 | h2⟩)
        · exact Or.inl (Or.inr h1)
        · exact Or.inl (Or.inl h2.symm)
        · exact Or.inr ⟨h1, h2⟩
    · simp only [h, Bool.false_eq_true, if_false, List.mem_cons, exists_eq_or_imp]
      constructor
      · rintro (h1 | ⟨h1, h2⟩)
        · exact Or.inl h1
        · exact Or.inr ⟨h1, Or.inr h2⟩
      · rintro (h1 | ⟨h1, h2 | h2⟩)
        · exact Or.inl h1
        · rw [h2] at h; exact absurd h1 h
        · exact Or.inr ⟨h1, h2⟩

/-- The path `megapathrect` after the loop: every region is subtracted in turn. -/
theorem synthLoop_megapathrect (ext : Externals) (sceneItems : List Item) :
    ∀ (l : List (Item × Path)) (st : SynthState),
      (synthLoop ext sceneItems st l).megapathrect
        = st.megapathrect.map
            (fun m => l.foldl (fun acc pr => Path.op acc PathOp.difference pr.2) m) := by
  intro l
  induction l with
  | nil => intro st; simp [synthLoop]
  | cons pr rest ih =>
    intro st
    rw [synthLoop_cons, ih]
    cases st.megapathrect <;> simp

/-- The items a completed pass adds: one fog item per player whose region has a digest that
no item of the store carries. -/
theorem finishPass_added (ext : Externals) (sceneItems localItems : List Item) (sc : SceneCache)
    (players : List Item) (b : Bounds) (polygons : List (List ShadowPolygon)) (st : ComposeState) :
    (finishPass ext sceneItems localItems sc players b polygons st).added
      = (((players.zip (finishPass ext sceneItems localItems sc players b polygons st).regions).filter
            (fun pr => !inStore sceneItems (digestOf ext pr.2))).map (fogToAdd ext)).enum.map
          (fun ni => buildFog ext ni.1 ni.2) := by
  simp only [finishPass, synthLoop_itemsToAdd, List.nil_append]

/-- The ids a completed pass deletes. -/
theorem finishPass_deleted (ext : Externals) (sceneItems localItems : List Item) (sc : SceneCache)
    (players : List Item) (b : Bounds) (polygons : List (List ShadowPolygon)) (st : ComposeState) :
    (finishPass ext sceneItems localItems sc players b polygons st).deleted
      = if !sc.metadata.persistenceEnabled then
          some ((oldFogOf sceneItems
            (synthLoop ext sceneItems
              ⟨[], [], if sc.metadata.fowEnabled then
                  some (Path.rect b.offset.x b.offset.x b.width b.height) else none⟩
              (players.zip (finishPass ext sceneItems localItems sc players b polygons st).regions)
              ).dedupDigest).map (fun item => item.id))
        else none := rfl

/-- The scene store after a completed pass: the items and the added ones, without the deleted
ones. -/
theorem finishPass_sceneItems (ext : Externals) (sceneItems localItems : List Item)
    (sc : SceneCache) (players : List Item) (b : Bounds) (polygons : List (List ShadowPolygon))
    (st : ComposeState) :
    (finishPass ext sceneItems localItems sc players b polygons st).sceneItems
      = match (finishPass ext sceneItems localItems sc players b polygons st).deleted with
        | some ids =>
          (sceneItems ++ (finishPass ext sceneItems localItems sc players b polygons st).added).filter
            (fun item => !ids.contains item.id)
        | none => sceneItems ++ (finishPass ext sceneItems localItems sc players b polygons st).added :=
  rfl

/-- The local store after a completed pass. -/
theorem finishPass_localItems (ext : Externals) (sceneItems localItems : List Item)
    (sc : SceneCache) (players : List Item) (b : Bounds) (polygons : List (List ShadowPolygon))
    (st : ComposeState) :
    (finishPass ext sceneItems localItems sc players b polygons st).localItems
      = writeOverlay ext sc localItems
          (finishPass ext sceneItems localItems sc players b polygons st).overlay := rfl

/-- In a list whose images under `f` are distinct at most one element has a given image. -/
theorem filter_length_le_one {α β : Type} [DecidableEq β] (f : α → β) (l : List α) (y : β)
    (h : (l.map f).Nodup) : (l.filter (fun x => decide (f x = y))).length ≤ 1 := by
  have h1 := List.nodup_iff_count_le_one.mp h y
  rw [List.count, List.countP_map, List.countP_eq_length_filter] at h1
  have h2 : (fun x => decide (f x = y)) = ((fun z => z == y) ∘ f) := rfl
  rw [h2]
  exact h1

/-- The name, the digest and the commands of a built fog item, which carries no player
tag. -/
theorem buildFog_fields (ext : Externals) (n : Nat) (pr : Item × Path) :
    (buildFog ext n (fogToAdd ext pr)).name = "Fog of War"
    ∧ (buildFog ext n (fogToAdd ext pr)).digest = some (digestOf ext pr.2)
    ∧ (buildFog ext n (fogToAdd ext pr)).playerTags = []
    ∧ (buildFog ext n (fogToAdd ext pr)).isVisionFog = false
    ∧ (buildFog ext n (fogToAdd ext pr)).commands = ext.toCmds pr.2 :=
  ⟨rfl, rfl, rfl, rfl, rfl⟩

/-- Membership in a list built from an enumeration. -/
theorem mem_enum_map {α β : Type} (f : Nat → α → β) (l : List α) (y : β)
    (h : y ∈ l.enum.map (fun ni => f ni.1 ni.2)) : ∃ n, ∃ x ∈ l, y = f n x := by
  rw [List.mem_map] at h
  obtain ⟨⟨n, x⟩, hmem, rfl⟩ := h
  exact ⟨n, x, List.snd_mem_of_mem_enum hmem, rfl⟩

/-- The digests of the built fog items. -/
theorem buildFog_digests (ext : Externals) (l : List (Item × Path)) :
    ((l.map (fogToAdd ext)).enum.map (fun ni => buildFog ext ni.1 ni.2)).map (fun item => item.digest)
      = l.map (fun pr => some (digestOf ext pr.2)) := by
  rw [List.map_map]
  have h : ((fun item : Item => item.digest) ∘ fun ni : Nat × FogToAdd => buildFog ext ni.1 ni.2)
      = (fun a : FogToAdd => some a.digest) ∘ Prod.snd := rfl
  rw [h, ← List.map_map, List.enum_map_snd, List.map_map]
  rfl

theorem exampleExt_resolves (path : Path) :
    (!exampleExt.resolves path || (exampleExt.toCmds path).length == 0) = false := rfl

/-- The pass on `twinDetail` from an empty cache: both players are composed anew and get the
full map rectangle. -/
theorem twin_pass (sceneItems localItems : List Item) (sc : SceneCache)
    (hauto : sc.metadata.autodetectEnabled = false) :
    computeShadow exampleExt true [] sceneItems localItems sc twinDetail
      = finishPass exampleExt sceneItems localItems sc [firstTwin, secondTwin] scenarioBounds
          [[], []]
          ⟨[("second", ⟨Path.rect 0 0 1000 1000, secondTwin⟩),
            ("first", ⟨Path.rect 0 0 1000 1000, firstTwin⟩)],
            0, 2, [Path.rect 0 0 1000 1000, Path.rect 0 0 1000 1000]⟩ := by
  apply computeShadow_done exampleExt [] sceneItems localItems sc twinDetail scenarioBounds
  · unfold passBounds
    rw [hauto]
    rfl
  · rfl
  · exact List.cons_ne_nil _ _
  · rfl
  · show composeAll exampleExt scenarioBounds ⟨[], 0, 0, []⟩ [(firstTwin, []), (secondTwin, [])] = _
    rw [composeAll_miss exampleExt scenarioBounds ⟨[], 0, 0, []⟩ firstTwin [] _ rfl,
      scenario_compose_nil]
    simp only [exampleExt_resolves, Bool.false_eq_true, if_false]
    rw [composeAll_miss exampleExt scenarioBounds _ secondTwin [] _ (by decide),
      scenario_compose_nil]
    simp only [exampleExt_resolves, Bool.false_eq_true, if_false]
    rfl

/-- C8 fails on the code: two observers on the same spot have the same visible region, hence
the same digest. The test for a stored item of that digest reads the store, which is written
at the end of the pass only, so from an empty store it finds nothing for either observer:
the pass adds two fog items with the same digest and the store holds both afterwards, where
the claim says exactly one. Neither item is tagged with an observer id: each carries the
entry `digest` alone. -/
theorem twin_observers_add_two_items :
    (computeShadow exampleExt true [] [] [] {} twinDetail).outcome = Outcome.completed
    ∧ (computeShadow exampleExt true [] [] [] {} twinDetail).regions
        = [Path.rect 0 0 1000 1000, Path.rect 0 0 1000 1000]
    ∧ (computeShadow exampleExt true [] [] [] {} twinDetail).added
        = [buildFog exampleExt 0 (fogToAdd exampleExt (firstTwin, Path.rect 0 0 1000 1000)),
            buildFog exampleExt 1 (fogToAdd exampleExt (secondTwin, Path.rect 0 0 1000 1000))]
    ∧ (computeShadow exampleExt true [] [] [] {} twinDetail).sceneItems
        = (computeShadow exampleExt true [] [] [] {} twinDetail).added
    ∧ ((computeShadow exampleExt true [] [] [] {} twinDetail).sceneItems.map
          (fun item => (item.name, item.digest, item.playerTags)))
        = [("Fog of War", some (digestOf exampleExt (Path.rect 0 0 1000 1000)), []),
            ("Fog of War", some (digestOf exampleExt (Path.rect 0 0 1000 1000)), [])]
    ∧ ((computeShadow exampleExt true [] [] [] {} twinDetail).sceneItems.filter
          (fun item =>
            item.digest == some (digestOf exampleExt (Path.rect 0 0 1000 1000)))).length = 2 := by
  rw [twin_pass [] [] {} rfl]
  refine ⟨rfl, ?_, ?_, ?_, ?_, ?_⟩
  · rfl
  · rfl
  · rfl
  · rfl
  · rfl

/-- The items added by `finishPass` come from the players whose region has a digest new to
the store. -/
theorem mem_added (ext : Externals) (sceneItems : List Item) (l : List (Item × Path)) (item : Item)
    (h : item ∈ ((l.filter (fun pr => !inStore sceneItems (digestOf ext pr.2))).map
      (fogToAdd ext)).enum.map (fun ni => buildFog ext ni.1 ni.2)) :
    ∃ pr ∈ l, item.name = "Fog of War" ∧ item.digest = some (digestOf ext pr.2)
      ∧ item.playerTags = [] ∧ inStore sceneItems (digestOf ext pr.2) = false := by
  obtain ⟨n, x, hx, rfl⟩ := mem_enum_map (buildFog ext) _ item h
  rw [List.mem_map] at hx
  obtain ⟨pr, hpr, rfl⟩ := hx
  rw [List.mem_filter] at hpr
  refine ⟨pr, hpr.1, rfl, rfl, rfl, ?_⟩
  simpa using hpr.2

/-- What the deduplication does in a completed pass: every fog item the pass adds is named
`Fog of War`, carries the digest of the visible region of a current observer, a digest that
no item of the store carried, and no player tag; a region whose digest an item of the store
carries already is not added again, and a region whose digest no item of the store carries
is added; and when the store held at most one item per digest and no two observers share a
digest new to the store, the store holds at most one item per digest after the pass. -/
theorem fog_items_deduplicated_against_store (ext : Externals) (ready : Bool)
    (cache : ObjectCache) (sceneItems localItems : List Item) (sc : SceneCache) (detail : Detail)
    (hdone : (computeShadow ext ready cache sceneItems localItems sc detail).outcome
      = Outcome.completed) :
    (∀ item ∈ (computeShadow ext ready cache sceneItems localItems sc detail).added,
        ∃ pr ∈ detail.playersWithVision.zip
            (computeShadow ext ready cache sceneItems localItems sc detail).regions,
          item.name = "Fog of War" ∧ item.digest = some (digestOf ext pr.2)
            ∧ item.playerTags = [] ∧ inStore sceneItems (digestOf ext pr.2) = false)
    ∧ (∀ pr ∈ detail.playersWithVision.zip
          (computeShadow ext ready cache sceneItems localItems sc detail).regions,
        inStore sceneItems (digestOf ext pr.2) = true →
          ∀ item ∈ (computeShadow ext ready cache sceneItems localItems sc detail).added,
            item.digest ≠ some (digestOf ext pr.2))
    ∧ (∀ pr ∈ detail.playersWithVision.zip
          (computeShadow ext ready cache sceneItems localItems sc detail).regions,
        inStore sceneItems (digestOf ext pr.2) = false →
          ∃ item ∈ (computeShadow ext ready cache sceneItems localItems sc detail).added,
            item.digest = some (digestOf ext pr.2))
    ∧ ((∀ d : String, (sceneItems.filter (fun item => item.digest == some d)).length ≤ 1) →
        (((detail.playersWithVision.zip
            (computeShadow ext ready cache sceneItems localItems sc detail).regions).filter
              (fun pr => !inStore sceneItems (digestOf ext pr.2))).map
            (fun pr => digestOf ext pr.2)).Nodup →
        ∀ d : String,
          ((computeShadow ext ready cache sceneItems localItems sc detail).sceneItems.filter
            (fun item => item.digest == some d)).length ≤ 1) := by
  obtain ⟨b, polygons, st, _, _, _, _, _, _, heq⟩ :=
    computeShadow_completed_inv ext ready cache sceneItems localItems sc detail hdone
  rw [heq]
  have hadded := finishPass_added ext sceneItems localItems sc detail.playersWithVision b polygons st
  have hmem : ∀ item ∈
      (finishPass ext sceneItems localItems sc detail.playersWithVision b polygons st).added,
      ∃ pr ∈ detail.playersWithVision.zip
          (finishPass ext sceneItems localItems sc detail.playersWithVision b polygons st).regions,
        item.name = "Fog of War" ∧ item.digest = some (digestOf ext pr.2)
          ∧ item.playerTags = [] ∧ inStore sceneItems (digestOf ext pr.2) = false := by
    intro item hitem
    rw [hadded] at hitem
    exact mem_added ext sceneItems _ item hitem
  refine ⟨hmem, ?_, ?_, ?_⟩
  · intro pr _ hin item hitem hd
    obtain ⟨pr1, _, _, hd1, _, hnot⟩ := hmem item hitem
    rw [hd1, Option.some.injEq] at hd
    rw [hd, hin] at hnot
    cases hnot
  · intro pr hpr hnot
    have hdig := buildFog_digests ext
      ((detail.playersWithVision.zip
        (finishPass ext sceneItems localItems sc detail.playersWithVision b polygons st).regions).filter
          (fun pr => !inStore sceneItems (digestOf ext pr.2)))
    rw [← hadded] at hdig
    have hin : some (digestOf ext pr.2) ∈
        (finishPass ext sceneItems localItems sc detail.playersWithVision b polygons st).added.map
          (fun item => item.digest) := by
      rw [hdig, List.mem_map]
      exact ⟨pr, List.mem_filter.mpr ⟨hpr, by simp [hnot]⟩, rfl⟩
    rw [List.mem_map] at hin
    obtain ⟨item, hitem, hd⟩ := hin
    exact ⟨item, hitem, hd⟩
  · intro hstore hnodup d
    have hdig := buildFog_digests ext
      ((detail.playersWithVision.zip
        (finishPass ext sceneItems localItems sc detail.playersWithVision b polygons st).regions).filter
          (fun pr => !inStore sceneItems (digestOf ext pr.2)))
    rw [← hadded] at hdig
    have hnd : ((finishPass ext sceneItems localItems sc detail.playersWithVision b polygons
        st).added.map (fun item => item.digest)).Nodup := by
      rw [hdig]
      have : (fun pr : Item × Path => some (digestOf ext pr.2))
          = some ∘ (fun pr : Item × Path => digestOf ext pr.2) := rfl
      rw [this, ← List.map_map]
      exact hnodup.map (Option.some_injective _)
    have hall : ((sceneItems
        ++ (finishPass ext sceneItems localItems sc detail.playersWithVision b polygons st).added).filter
          (fun item => item.digest == some d)).length ≤ 1 := by
      rw [List.filter_append, List.length_append]
      by_cases hin : inStore sceneItems d = true
      · have h0 : (finishPass ext sceneItems localItems sc detail.playersWithVision b polygons
            st).added.filter (fun item => item.digest == some d) = [] := by
          rw [List.filter_eq_nil_iff]
          intro item hitem hd
          obtain ⟨pr1, _, _, hd1, _, hnot⟩ := hmem item hitem
          rw [beq_iff_eq, hd1, Option.some.injEq] at hd
          rw [hd, hin] at hnot
          cases hnot
        rw [h0, List.length_nil, Nat.add_zero]
        exact hstore d
      · have h0 : (sceneItems.filter (fun item => item.digest == some d)).length = 0 := by
          simpa [inStore] using hin
        rw [h0, Nat.zero_add]
        have hfun : (fun item : Item => item.digest == some d)
            = (fun item : Item => decide (item.digest = some d)) := by
          funext item
          by_cases h : item.digest = some d
          · simp [h]
          · simp [h]
        rw [hfun]
        exact filter_length_le_one (fun item : Item => item.digest) _ (some d) hnd
    rw [finishPass_sceneItems]
    cases (finishPass ext sceneItems localItems sc detail.playersWithVision b polygons st).deleted with
    | none => exact hall
    | some ids =>
      refine le_trans ?_ hall
      exact ((List.filter_sublist _).filter _).length_le

/-- The deduplication in the pass of the scenario, whose single region is new to the empty
store and is added once. -/
theorem scenario_region_added_once :
    (computeShadow exampleExt true [] [] [] {} (scenarioDetail none true false)).outcome
        = Outcome.completed
    ∧ ∀ item ∈ (computeShadow exampleExt true [] [] [] {} (scenarioDetail none true false)).added,
        ∃ pr ∈ (scenarioDetail none true false).playersWithVision.zip
            (computeShadow exampleExt true [] [] [] {} (scenarioDetail none true false)).regions,
          item.name = "Fog of War" ∧ item.digest = some (digestOf exampleExt pr.2)
            ∧ item.playerTags = [] ∧ inStore [] (digestOf exampleExt pr.2) = false :=
  have hdone : (computeShadow exampleExt true [] [] [] {} (scenarioDetail none true false)).outcome
      = Outcome.completed := by
    rw [scenario_pass exampleExt none true false [] [] {}
      [⟨scenarioShadow, scenarioWall none true⟩] (scenarioRegion true) rfl
      (scenario_castAll exampleExt.tolerance (by norm_num [exampleExt]) (by norm_num [exampleExt])
        none true (by simp))
      (scenario_compose none true) rfl (List.cons_ne_nil _ _)]
    rfl
  ⟨hdone,
    (fog_items_deduplicated_against_store exampleExt true [] [] [] {}
      (scenarioDetail none true false) hdone).1⟩

/-- The fog items kept out of `oldFog` are those whose digest is the digest of a current
region. -/
theorem oldFogOf_synth (ext : Externals) (sceneItems : List Item) (l : List (Item × Path))
    (st0 : SynthState) (h0 : st0.dedupDigest = []) :
    oldFogOf sceneItems (synthLoop ext sceneItems st0 l).dedupDigest
      = sceneItems.filter (fun item =>
          item.name == "Fog of War"
            && l.all (fun pr => item.digest != some (digestOf ext pr.2))) := by
  unfold oldFogOf
  apply List.filter_congr
  intro item hitem
  congr 1
  cases hd : item.digest with
  | none => simp
  | some d =>
    have hin : inStore sceneItems d = true := by
      simp only [inStore, bne_iff_ne, ne_eq, List.length_eq_zero]
      intro hnil
      have : item ∈ sceneItems.filter (fun filterItem => filterItem.digest == some d) :=
        List.mem_filter.mpr ⟨hitem, by simp [hd]⟩
      rw [hnil] at this
      cases this
    rw [Bool.eq_iff_iff]
    simp only [Bool.not_eq_true', List.all_eq_true, bne_iff_ne, ne_eq, Option.some.injEq]
    have hc : ∀ xs : List String, xs.contains d = true ↔ d ∈ xs := fun xs => List.elem_iff
    rw [← Bool.not_eq_true, hc, synthLoop_dedupDigest, h0]
    simp only [List.not_mem_nil, false_or, hin, true_and, not_exists, not_and]
    constructor
    · intro h pr hpr e
      exact h pr hpr e.symm
    · intro h pr hpr e
      exact h pr hpr e.symm

/-- C9: for every completed pass, with persistence disabled the ids passed to
`deleteItems` are exactly those of the stored items named `Fog of War` whose digest is the
digest of no current visible region, so no item whose digest matches a current region is
deleted, and the store afterwards is the old items and the added ones without those ids;
with persistence enabled `deleteItems` is not called and the store afterwards is the old
items and the added ones. -/
theorem persistence_policy (ext : Externals) (ready : Bool) (cache : ObjectCache)
    (sceneItems localItems : List Item) (sc : SceneCache) (detail : Detail)
    (hdone : (computeShadow ext ready cache sceneItems localItems sc detail).outcome
      = Outcome.completed) :
    (sc.metadata.persistenceEnabled = false →
      (computeShadow ext ready cache sceneItems localItems sc detail).deleted
          = some ((sceneItems.filter (fun item =>
              item.name == "Fog of War"
                && (computeShadow ext ready cache sceneItems localItems sc detail).regions.all
                    (fun region => item.digest != some (digestOf ext region)))).map
              (fun item => item.id))
        ∧ (computeShadow ext ready cache sceneItems localItems sc detail).sceneItems
            = (sceneItems
                ++ (computeShadow ext ready cache sceneItems localItems sc detail).added).filter
                (fun item => !((sceneItems.filter (fun item =>
                    item.name == "Fog of War"
                      && (computeShadow ext ready cache sceneItems localItems sc detail).regions.all
                          (fun region => item.digest != some (digestOf ext region)))).map
                    (fun item => item.id)).contains item.id))
    ∧ (sc.metadata.persistenceEnabled = true →
        (computeShadow ext ready cache sceneItems localItems sc detail).deleted = none
          ∧ (computeShadow ext ready cache sceneItems localItems sc detail).sceneItems
              = sceneItems
                  ++ (computeShadow ext ready cache sceneItems localItems sc detail).added) := by
  obtain ⟨b, polygons, st, _, _, _, _, hpoly, hcomp, heq⟩ :=
    computeShadow_completed_inv ext ready cache sceneItems localItems sc detail hdone
  rw [heq]
  have hregions := finishPass_regions ext sceneItems localItems sc detail.playersWithVision b
    polygons st
  have hlen :
      (finishPass ext sceneItems localItems sc detail.playersWithVision b polygons st).regions.length
        ≤ detail.playersWithVision.length := by
    rw [hregions, List.length_map, List.length_zip]
    exact Nat.min_le_left _ _
  have hsnd : (detail.playersWithVision.zip
      (finishPass ext sceneItems localItems sc detail.playersWithVision b polygons st).regions).map
        Prod.snd
      = (finishPass ext sceneItems localItems sc detail.playersWithVision b polygons st).regions :=
    List.map_snd_zip _ _ hlen
  have hall : ∀ item : Item,
      (detail.playersWithVision.zip
        (finishPass ext sceneItems localItems sc detail.playersWithVision b polygons st).regions).all
          (fun pr => item.digest != some (digestOf ext pr.2))
        = (finishPass ext sceneItems localItems sc detail.playersWithVision b polygons st).regions.all
            (fun region => item.digest != some (digestOf ext region)) := by
    intro item
    have hgen : ∀ (l : List (Item × Path)) (q : Path → Bool),
        l.all (fun pr => q pr.2) = (l.map Prod.snd).all q := by
      intro l q
      induction l with
      | nil => rfl
      | cons x xs ih => simp only [List.all_cons, List.map_cons, ih]
    rw [hgen _ (fun region => item.digest != some (digestOf ext region)), hsnd]
  have hold := oldFogOf_synth ext sceneItems
    (detail.playersWithVision.zip
      (finishPass ext sceneItems localItems sc detail.playersWithVision b polygons st).regions)
    ⟨[], [], if sc.metadata.fowEnabled then
        some (Path.rect b.offset.x b.offset.x b.width b.height) else none⟩ rfl
  simp only [hall] at hold
  have hdel := finishPass_deleted ext sceneItems localItems sc detail.playersWithVision b polygons st
  rw [hold] at hdel
  refine ⟨fun hp => ?_, fun hp => ?_⟩
  · rw [hp] at hdel
    simp only [Bool.not_false, if_true] at hdel
    refine ⟨hdel, ?_⟩
    rw [finishPass_sceneItems, hdel]
  · rw [hp] at hdel
    simp only [Bool.not_true, Bool.false_eq_true, if_false] at hdel
    refine ⟨hdel, ?_⟩
    rw [finishPass_sceneItems, hdel]

/-- Witness of `persistence_policy`: the pass of the scenario on a store that holds one stale
fog item, persistence disabled. -/
theorem persistence_policy_witness :
    ((computeShadow exampleExt true [] [staleFog] [] {} (scenarioDetail none true false)).outcome
        = Outcome.completed
      ∧ ({} : SceneCache).metadata.persistenceEnabled = false)
    ∧ (computeShadow exampleExt true [] [staleFog] [] {} (scenarioDetail none true false)).deleted
        = some (([staleFog].filter (fun item =>
              item.name == "Fog of War"
                && (computeShadow exampleExt true [] [staleFog] [] {}
                      (scenarioDetail none true false)).regions.all
                    (fun region => item.digest != some (digestOf exampleExt region)))).map
            (fun item => item.id)) :=
  have hdone : (computeShadow exampleExt true [] [staleFog] [] {}
      (scenarioDetail none true false)).outcome = Outcome.completed := by
    rw [scenario_pass exampleExt none true false [staleFog] [] {}
      [⟨scenarioShadow, scenarioWall none true⟩] (scenarioRegion true) rfl
      (scenario_castAll exampleExt.tolerance (by norm_num [exampleExt]) (by norm_num [exampleExt])
        none true (by simp))
      (scenario_compose none true) rfl (List.cons_ne_nil _ _)]
    rfl
  ⟨⟨hdone, rfl⟩,
    ((persistence_policy exampleExt true [] [staleFog] [] {} (scenarioDetail none true false)
      hdone).1 rfl).1⟩

theorem finishPass_overlay (ext : Externals) (sceneItems localItems : List Item) (sc : SceneCache)
    (players : List Item) (b : Bounds) (polygons : List (List ShadowPolygon)) (st : ComposeState) :
    (finishPass ext sceneItems localItems sc players b polygons st).overlay
      = (if sc.metadata.fowEnabled then some (Path.rect b.offset.x b.offset.x b.width b.height)
          else none).map
          (fun m => (players.zip
              (finishPass ext sceneItems localItems sc players b polygons st).regions).foldl
            (fun acc pr => Path.op acc PathOp.difference pr.2) m) := by
  simp only [finishPass, synthLoop_megapathrect]

/-- With fog of war enabled and a local store that is not empty, the overlay is written by an
update of the items named `Megafog`, and nothing is added. -/
theorem writeOverlay_update (ext : Externals) (sc : SceneCache) (item : Item)
    (localItems : List Item) (m : Path) :
    writeOverlay ext sc (item :: localItems) (some m)
      = (item :: localItems).map (fun old =>
          if old.name == "Megafog" then { old with commands := ext.toCmds m } else old) := by
  simp only [writeOverlay, buildMegafog, List.length_cons, gt_iff_lt, Nat.zero_lt_succ, if_true]

/-- C10, at the failing input: fog of war is enabled, the local store holds one item that is
not the overlay, and the pass of the scenario completes. The test `old_megafog.length > 0`
counts every local item, so the pass takes the update branch: no item is named `Megafog`,
nothing is updated, no overlay is created and the local store is left as it was. On an
empty local store the same pass creates the overlay. -/
theorem overlay_not_created_beside_other_local_item :
    fowScene.metadata.fowEnabled = true
    ∧ [localRuler].filter (fun item => item.name == "Megafog") = []
    ∧ (computeShadow exampleExt true [] [] [localRuler] fowScene
        (scenarioDetail none true false)).outcome = Outcome.completed
    ∧ (computeShadow exampleExt true [] [] [localRuler] fowScene
        (scenarioDetail none true false)).overlay
          = some (Path.op (Path.rect 0 0 1000 1000) PathOp.difference (scenarioRegion true))
    ∧ (computeShadow exampleExt true [] [] [localRuler] fowScene
        (scenarioDetail none true false)).localItems = [localRuler]
    ∧ (computeShadow exampleExt true [] [] [localRuler] fowScene
        (scenarioDetail none true false)).localItems.filter (fun item => item.name == "Megafog")
          = []
    ∧ (computeShadow exampleExt true [] [] [] fowScene
        (scenarioDetail none true false)).localItems
          = [buildMegafog exampleExt fowScene
              (Path.op (Path.rect 0 0 1000 1000) PathOp.difference (scenarioRegion true))] := by
  have h0 : (0 : ℚ) ≤ exampleExt.tolerance := by norm_num [exampleExt]
  have h1 : exampleExt.tolerance < 1000 := by norm_num [exampleExt]
  have hpass : ∀ localItems : List Item,
      computeShadow exampleExt true [] [] localItems fowScene (scenarioDetail none true false)
        = finishPass exampleExt [] localItems fowScene [scenarioObserver] scenarioBounds
            [[⟨scenarioShadow, scenarioWall none true⟩]]
            ⟨[("observer", ⟨scenarioRegion true, scenarioObserver⟩)], 0, 1, [scenarioRegion true]⟩ :=
    fun localItems => scenario_pass exampleExt none true false [] localItems fowScene
      [⟨scenarioShadow, scenarioWall none true⟩] (scenarioRegion true) rfl
      (scenario_castAll exampleExt.tolerance h0 h1 none true (by simp))
      (scenario_compose none true) rfl (List.cons_ne_nil _ _)
  have hover : ∀ localItems : List Item,
      (finishPass exampleExt [] localItems fowScene [scenarioObserver] scenarioBounds
        [[⟨scenarioShadow, scenarioWall none true⟩]]
        ⟨[("observer", ⟨scenarioRegion true, scenarioObserver⟩)], 0, 1,
          [scenarioRegion true]⟩).overlay
        = some (Path.op (Path.rect 0 0 1000 1000) PathOp.difference (scenarioRegion true)) := by
    intro localItems
    rw [finishPass_overlay, finishPass_regions]
    rfl
  rw [hpass, hpass, finishPass_localItems, finishPass_localItems, hover, hover,
    writeOverlay_update]
  refine ⟨rfl, by decide, rfl, rfl, by decide, by decide, rfl⟩

/-! ## Passes with one player -/

/-- A pass with one player that is not cached and whose composition resolves. -/
theorem single_player_miss (ext : Externals) (cache : ObjectCache)
    (sceneItems localItems : List Item) (sc : SceneCache) (detail : Detail) (b : Bounds)
    (player : Item) (polys : List ShadowPolygon) (region : Path)
    (hb : passBounds sc sceneItems detail = some b)
    (hv : detail.metadata.visionEnabled = true)
    (hplayers : detail.playersWithVision = [player])
    (hc : cachedPath (startCache cache detail) player = none)
    (hcast : castAll ext.tolerance b player.position (visionLinesOf detail.visionShapes)
      = some polys)
    (hregion : composeRegion b polys = some region)
    (hres : ext.resolves region = true)
    (hcmds : ext.toCmds region ≠ []) :
    computeShadow ext true cache sceneItems localItems sc detail
      = finishPass ext sceneItems localItems sc [player] b [polys]
          ⟨(startCache cache detail).cacheValue player.id ⟨region, player⟩, 0, 1, [region]⟩ := by
  have hlen : ((ext.toCmds region).length == 0) = false := by
    cases hq : ext.toCmds region with
    | nil => exact absurd hq hcmds
    | cons a l => rfl
  have hnc : isCached (startCache cache detail) player = false := by
    rw [isCached_eq, hc]; rfl
  have key := computeShadow_done ext cache sceneItems localItems sc detail b [polys]
    ⟨(startCache cache detail).cacheValue player.id ⟨region, player⟩, 0, 1, [region]⟩ hb hv
    (by rw [hplayers]; exact List.cons_ne_nil _ _)
    (by
      rw [hplayers]
      show allPolygons ext.tolerance b (startCache cache detail) _ [player] = _
      simp only [allPolygons, playerPolygons, hnc, Bool.false_eq_true, if_false, hcast,
        Option.map_some'])
    (by
      rw [hplayers]
      show composeAll ext b ⟨startCache cache detail, 0, 0, []⟩ [(player, polys)] = _
      rw [composeAll_miss ext b ⟨startCache cache detail, 0, 0, []⟩ player polys [] hc, hregion]
      simp only [hres, hlen, Bool.not_true, Bool.or_self, Bool.false_eq_true, if_false, zero_add,
        List.nil_append, composeAll])
  rw [key, hplayers]

/-- A pass with one player that is cached. -/
theorem single_player_hit (ext : Externals) (cache : ObjectCache)
    (sceneItems localItems : List Item) (sc : SceneCache) (detail : Detail) (b : Bounds)
    (player : Item) (cached : Path)
    (hb : passBounds sc sceneItems detail = some b)
    (hv : detail.metadata.visionEnabled = true)
    (hplayers : detail.playersWithVision = [player])
    (hc : cachedPath (startCache cache detail) player = some cached) :
    computeShadow ext true cache sceneItems localItems sc detail
      = finishPass ext sceneItems localItems sc [player] b [[]]
          ⟨startCache cache detail, 1, 0, [cached]⟩ := by
  have hnc : isCached (startCache cache detail) player = true := by
    rw [isCached_eq, hc]; rfl
  have key := computeShadow_done ext cache sceneItems localItems sc detail b [[]]
    ⟨startCache cache detail, 1, 0, [cached]⟩ hb hv
    (by rw [hplayers]; exact List.cons_ne_nil _ _)
    (by
      rw [hplayers]
      show allPolygons ext.tolerance b (startCache cache detail) _ [player] = _
      simp only [allPolygons, playerPolygons, hnc, if_true, Option.map_some'])
    (by
      rw [hplayers]
      show composeAll ext b ⟨startCache cache detail, 0, 0, []⟩ [(player, [])] = _
      rw [composeAll_hit ext b ⟨startCache cache detail, 0, 0, []⟩ player [] [] cached hc]
      simp only [zero_add, List.nil_append, composeAll])
  rw [key, hplayers]

/-- The bounds of a pass without autodetection are those of the event. -/
theorem passBounds_detail (sc : SceneCache) (sceneItems : List Item) (detail : Detail)
    (hauto : sc.metadata.autodetectEnabled = false) :
    passBounds sc sceneItems detail
      = some ⟨detail.offset, detail.size.1, detail.size.2, detail.scale⟩ := by
  unfold passBounds
  rw [hauto]
  rfl

/-! ## Lemmas on the ways a pass ends -/

/-- The second step never changes the entry of an id that belongs to no player, however it
ends. -/
theorem composeAll_frame (ext : Externals) (b : Bounds) (key : String) :
    ∀ (l : List (Item × List ShadowPolygon)) (st : ComposeState),
      key ∉ l.map (fun pr => pr.1.id) →
      (composeAll ext b st l).state.cache.getValue key = st.cache.getValue key := by
  intro l
  induction l with
  | nil => intro st _; rfl
  | cons pr rest ih =>
    obtain ⟨player, polys⟩ := pr
    intro st hkey
    simp only [List.map_cons, List.mem_cons, not_or] at hkey
    cases hc : cachedPath st.cache player with
    | some cached =>
      rw [composeAll_hit ext b st player polys rest cached hc]
      exact ih _ hkey.2
    | none =>
      rw [composeAll_miss ext b st player polys rest hc]
      cases hr : composeRegion b polys with
      | none => rfl
      | some path =>
        simp only
        split_ifs with hfail
        · rfl
        · rw [ih _ hkey.2]
          exact getValue_cacheValue_ne _ _ _ _ hkey.1

/-- The second step on a list of players in two parts. -/
theorem composeAll_append (ext : Externals) (b : Bounds) :
    ∀ (l1 l2 : List (Item × List ShadowPolygon)) (st : ComposeState),
      composeAll ext b st (l1 ++ l2)
        = match composeAll ext b st l1 with
          | ComposeResult.done st1 => composeAll ext b st1 l2
          | ComposeResult.failed st1 => ComposeResult.failed st1
          | ComposeResult.threw st1 => ComposeResult.threw st1 := by
  intro l1
  induction l1 with
  | nil => intro l2 st; rfl
  | cons pr rest ih =>
    obtain ⟨player, polys⟩ := pr
    intro l2 st
    rw [List.cons_append]
    cases hc : cachedPath st.cache player with
    | some cached =>
      rw [composeAll_hit ext b st player polys _ cached hc,
        composeAll_hit ext b st player polys _ cached hc, ih]
    | none =>
      rw [composeAll_miss ext b st player polys _ hc, composeAll_miss ext b st player polys _ hc]
      cases hr : composeRegion b polys with
      | none => rfl
      | some path =>
        simp only
        split_ifs with hfail
        · rfl
        · rw [ih]

/-- The three ways through the head of `computeShadow`: the scene is not ready; vision is
disabled or no player has vision; the pass goes on to the shadows. -/
theorem computeShadow_cases (ext : Externals) (ready : Bool) (cache : ObjectCache)
    (sceneItems localItems : List Item) (sc : SceneCache) (detail : Detail) :
    (ready = false
      ∧ computeShadow ext ready cache sceneItems localItems sc detail
          = { outcome := Outcome.notReady, busy := false, cache := cache.invalidate
              sceneItems := sceneItems, localItems := localItems, fogFilled := sc.fogFilled })
    ∨ (ready = true
      ∧ (detail.metadata.visionEnabled = false ∨ detail.playersWithVision = [])
      ∧ computeShadow ext ready cache sceneItems localItems sc detail
          = { outcome := Outcome.cleared, busy := false, cache := startCache cache detail
              sceneItems := sceneItems
              localItems := localItems.filter (fun item =>
                !((sceneItems.filter (fun item => item.name == "Fog of War")).map
                    (fun fogItem => fogItem.id)).contains item.id)
              fogFilled := sc.fogFilled })
    ∨ (ready = true ∧ detail.metadata.visionEnabled = true ∧ detail.playersWithVision ≠ []
      ∧ computeShadow ext ready cache sceneItems localItems sc detail
          = match passBounds sc sceneItems detail with
            | none =>
              { outcome := Outcome.noBounds, busy := true, cache := startCache cache detail
                sceneItems := sceneItems, localItems := localItems, fogFilled := sc.fogFilled }
            | some b =>
              match allPolygons ext.tolerance b (startCache cache detail)
                  (visionLinesOf detail.visionShapes) detail.playersWithVision with
              | none =>
                { outcome := Outcome.threw, busy := true, cache := startCache cache detail
                  sceneItems := sceneItems, localItems := localItems, fogFilled := sc.fogFilled }
              | some polygons =>
                match composeAll ext b ⟨startCache cache detail, 0, 0, []⟩
                    (detail.playersWithVision.zip polygons) with
                | ComposeResult.threw st =>
                  { outcome := Outcome.threw, busy := true, cache := st.cache
                    sceneItems := sceneItems, localItems := localItems
                    fogFilled := sc.fogFilled, polygons := polygons }
                | ComposeResult.failed st =>
                  { outcome := Outcome.failed, busy := false, cache := st.cache
                    sceneItems := sceneItems, localItems := localItems
                    fogFilled := sc.fogFilled, polygons := polygons }
                | ComposeResult.done st =>
                  finishPass ext sceneItems localItems sc detail.playersWithVision b polygons
                    st) := by
  cases ready with
  | false =>
    left
    refine ⟨rfl, ?_⟩
    unfold computeShadow
    simp only [Bool.not_false, if_true]
  | true =>
    right
    by_cases hv : (!detail.metadata.visionEnabled || detail.playersWithVision.length == 0) = true
    · left
      have hv1 := hv
      simp only [Bool.or_eq_true, Bool.not_eq_true', beq_iff_eq, List.length_eq_zero] at hv1
      refine ⟨rfl, hv1, ?_⟩
      unfold computeShadow startCache
      simp only [Bool.not_true, Bool.false_eq_true, if_false, hv, if_true]
    · right
      have hv1 := hv
      simp only [Bool.or_eq_true, Bool.not_eq_true', beq_iff_eq, List.length_eq_zero, not_or,
        Bool.not_eq_false] at hv1
      refine ⟨rfl, hv1.1, hv1.2, ?_⟩
      unfold computeShadow startCache
      simp only [Bool.not_true, Bool.false_eq_true, if_false, hv]

/-- C14: whenever, in a pass that reached the second step, the composition of some observer
that is not cached resolves to no path or to a path with no command (the observers before it
having been composed), the pass ends as failed; and a pass that ends as failed has left both
stores and the fog fill as they were, has called neither `addItems` nor `deleteItems`, has
reported nothing, and has cleared the flag `busy`. -/
theorem failed_composition_aborts (ext : Externals) (ready : Bool) (cache : ObjectCache)
    (sceneItems localItems : List Item) (sc : SceneCache) (detail : Detail) :
    (∀ (b : Bounds) (polygons : List (List ShadowPolygon))
        (pre post : List (Item × List ShadowPolygon)) (player : Item)
        (polys : List ShadowPolygon) (st1 : ComposeState) (path : Path),
        ready = true → detail.metadata.visionEnabled = true →
        passBounds sc sceneItems detail = some b →
        allPolygons ext.tolerance b (startCache cache detail)
          (visionLinesOf detail.visionShapes) detail.playersWithVision = some polygons →
        detail.playersWithVision.zip polygons = pre ++ (player, polys) :: post →
        composeAll ext b ⟨startCache cache detail, 0, 0, []⟩ pre = ComposeResult.done st1 →
        cachedPath st1.cache player = none →
        composeRegion b polys = some path →
        (ext.resolves path = false ∨ ext.toCmds path = []) →
        (computeShadow ext ready cache sceneItems localItems sc detail).outcome = Outcome.failed)
    ∧ ((computeShadow ext ready cache sceneItems localItems sc detail).outcome = Outcome.failed →
        (computeShadow ext ready cache sceneItems localItems sc detail).busy = false
        ∧ (computeShadow ext ready cache sceneItems localItems sc detail).sceneItems = sceneItems
        ∧ (computeShadow ext ready cache sceneItems localItems sc detail).localItems = localItems
        ∧ (computeShadow ext ready cache sceneItems localItems sc detail).fogFilled = sc.fogFilled
        ∧ (computeShadow ext ready cache sceneItems localItems sc detail).added = []
        ∧ (computeShadow ext ready cache sceneItems localItems sc detail).deleted = none
        ∧ (computeShadow ext ready cache sceneItems localItems sc detail).report = none) := by
  constructor
  · intro b polygons pre post player polys st1 path hr hv hb hp hzip hpre hc hregion hfail
    have hne : detail.playersWithVision ≠ [] := by
      intro h
      rw [h, List.zip_nil_left] at hzip
      exact List.cons_ne_nil _ _ ((List.append_eq_nil.mp hzip.symm).2)
    have hcomp : composeAll ext b ⟨startCache cache detail, 0, 0, []⟩
        (detail.playersWithVision.zip polygons)
        = ComposeResult.failed { st1 with cacheMisses := st1.cacheMisses + 1 } := by
      rw [hzip, composeAll_append, hpre]
      simp only
      rw [composeAll_miss ext b st1 player polys post hc, hregion]
      have hcond : (!ext.resolves path || (ext.toCmds path).length == 0) = true := by
        rcases hfail with h | h
        · rw [h]; rfl
        · rw [h]; simp
      simp only [hcond, if_true]
    subst hr
    rw [computeShadow_failed ext cache sceneItems localItems sc detail b polygons _ hb hv hne hp
      hcomp]
  · intro h
    rcases computeShadow_cases ext ready cache sceneItems localItems sc detail with
      ⟨_, heq⟩ | ⟨_, _, heq⟩ | ⟨_, _, _, heq⟩
    · rw [heq] at h; cases h
    · rw [heq] at h; cases h
    · rw [heq] at h ⊢
      cases hb : passBounds sc sceneItems detail with
      | none => rw [hb] at h; cases h
      | some b =>
        rw [hb] at h
        simp only at h ⊢
        cases hp : allPolygons ext.tolerance b (startCache cache detail)
            (visionLinesOf detail.visionShapes) detail.playersWithVision with
        | none => rw [hp] at h; cases h
        | some polygons =>
          rw [hp] at h
          simp only at h ⊢
          cases hc : composeAll ext b ⟨startCache cache detail, 0, 0, []⟩
              (detail.playersWithVision.zip polygons) with
          | threw st => rw [hc] at h; cases h
          | failed st => exact ⟨rfl, rfl, rfl, rfl, rfl, rfl, rfl⟩
          | done st =>
            rw [hc] at h
            simp only [finishPass_outcome] at h
            cases h

/-- Witness of `failed_composition_aborts`: the pass on `coveredDetail`, in which the shadow
covers the whole map rectangle. -/
theorem failed_composition_aborts_witness :
    (computeShadow coveredExt true [] [staleFog] [localRuler] {} coveredDetail).outcome
        = Outcome.failed
    ∧ (computeShadow coveredExt true [] [staleFog] [localRuler] {} coveredDetail).busy = false
    ∧ (computeShadow coveredExt true [] [staleFog] [localRuler] {} coveredDetail).sceneItems
        = [staleFog]
    ∧ (computeShadow coveredExt true [] [staleFog] [localRuler] {} coveredDetail).localItems
        = [localRuler] :=
  have h : (computeShadow coveredExt true [] [staleFog] [localRuler] {} coveredDetail).outcome
      = Outcome.failed := by
    rw [covered_pass [staleFog] [localRuler] {} rfl]
  have k := (failed_composition_aborts coveredExt true [] [staleFog] [localRuler] {}
    coveredDetail).2 h
  ⟨h, k.1, k.2.1, k.2.2.1⟩

/-- C16, as stated, fails: the cache holds the entry of an observer that has left the scene;
after the pass of the scenario, without invalidation, the entry is still there beside the
entry of the only observer of the pass, so the cache holds two entries for one observer. -/
theorem absent_observer_entry_survives :
    (scenarioDetail none true false).playersWithVision.map (fun player => player.id) = ["observer"]
    ∧ ghostCache.getValue "ghost" = some ⟨Path.rect 0 0 1000 1000, ghostObserver⟩
    ∧ (computeShadow exampleExt true ghostCache [] [] {} (scenarioDetail none true false)).outcome
        = Outcome.completed
    ∧ (computeShadow exampleExt true ghostCache [] [] {} (scenarioDetail none true false)).cache
        = [("observer", ⟨scenarioRegion true, scenarioObserver⟩),
            ("ghost", ⟨Path.rect 0 0 1000 1000, ghostObserver⟩)]
    ∧ (computeShadow exampleExt true ghostCache [] [] {}
        (scenarioDetail none true false)).cache.length = 2
    ∧ (scenarioDetail none true false).playersWithVision.length = 1 := by
  have h0 : (0 : ℚ) ≤ exampleExt.tolerance := by norm_num [exampleExt]
  have h1 : exampleExt.tolerance < 1000 := by norm_num [exampleExt]
  have hpass := single_player_miss exampleExt ghostCache [] [] {} (scenarioDetail none true false)
    scenarioBounds scenarioObserver [⟨scenarioShadow, scenarioWall none true⟩]
    (scenarioRegion true) (passBounds_detail _ _ _ rfl) rfl rfl (by decide)
    (by
      show castAll exampleExt.tolerance scenarioBounds ⟨200, 500⟩
        (visionLinesOf [scenarioWall none true]) = _
      rw [scenario_lines]
      exact scenario_castAll exampleExt.tolerance h0 h1 none true (by simp))
    (scenario_compose none true) rfl (List.cons_ne_nil _ _)
  rw [hpass, finishPass_outcome, finishPass_cache]
  refine ⟨rfl, rfl, rfl, ?_, ?_, rfl⟩
  · decide
  · decide

/-- C16, amended: a pass removes entries of the cache only by clearing it whole, when the
scene is not ready or when the event carries the invalidation flag; otherwise the entry of
every id that belongs to no observer of the pass is left exactly as it was, however the pass
ends, so the cache can hold more entries than there are observers. -/
theorem absent_entries_are_kept (ext : Externals) (ready : Bool) (cache : ObjectCache)
    (sceneItems localItems : List Item) (sc : SceneCache) (detail : Detail) (key : String)
    (hkey : key ∉ detail.playersWithVision.map (fun player => player.id)) :
    (computeShadow ext ready cache sceneItems localItems sc detail).cache.getValue key
      = if ready = false ∨ detail.invalidateCache = true then none else cache.getValue key := by
  have hstart : (startCache cache detail).getValue key
      = if detail.invalidateCache = true then none else cache.getValue key := by
    unfold startCache
    cases detail.invalidateCache <;> rfl
  rcases computeShadow_cases ext ready cache sceneItems localItems sc detail with
    ⟨hr, heq⟩ | ⟨hr, _, heq⟩ | ⟨hr, _, _, heq⟩
  · rw [heq, hr]
    simp only [true_or, if_true]
    rfl
  · rw [heq, hr]
    simp only [Bool.true_eq_false, false_or]
    exact hstart
  · rw [heq, hr]
    simp only [Bool.true_eq_false, false_or]
    rw [← hstart]
    cases hb : passBounds sc sceneItems detail with
    | none => rfl
    | some b =>
      simp only
      cases hp : allPolygons ext.tolerance b (startCache cache detail)
          (visionLinesOf detail.visionShapes) detail.playersWithVision with
      | none => rfl
      | some polygons =>
        simp only
        have hk : key ∉ (detail.playersWithVision.zip polygons).map (fun pr => pr.1.id) := by
          intro hmem
          rw [List.mem_map] at hmem
          obtain ⟨pr, hpr, hid⟩ := hmem
          apply hkey
          rw [List.mem_map]
          exact ⟨pr.1, (List.of_mem_zip hpr).1, hid⟩
        have hframe := composeAll_frame ext b key (detail.playersWithVision.zip polygons)
          ⟨startCache cache detail, 0, 0, []⟩ hk
        cases hc : composeAll ext b ⟨startCache cache detail, 0, 0, []⟩
            (detail.playersWithVision.zip polygons) with
        | threw st => rw [hc] at hframe; exact hframe
        | failed st => rw [hc] at hframe; exact hframe
        | done st =>
          rw [hc] at hframe
          simp only [finishPass_cache]
          exact hframe

/-- Witness of `absent_entries_are_kept`: the entry of the observer that left survives the
pass of the scenario. -/
theorem absent_entries_are_kept_witness :
    "ghost" ∉ (scenarioDetail none true false).playersWithVision.map (fun player => player.id)
    ∧ (computeShadow exampleExt true ghostCache [] [] {}
        (scenarioDetail none true false)).cache.getValue "ghost"
        = if true = false ∨ (scenarioDetail none true false).invalidateCache = true then none
          else ghostCache.getValue "ghost" :=
  ⟨by decide,
    absent_entries_are_kept exampleExt true ghostCache [] [] {} (scenarioDetail none true false)
      "ghost" (by decide)⟩

/-- The flag `busy` after a pass, by the way the pass ended. -/
theorem busy_of_outcome (ext : Externals) (ready : Bool) (cache : ObjectCache)
    (sceneItems localItems : List Item) (sc : SceneCache) (detail : Detail) :
    (computeShadow ext ready cache sceneItems localItems sc detail).busy
      = match (computeShadow ext ready cache sceneItems localItems sc detail).outcome with
        | Outcome.notReady => false
        | Outcome.cleared => false
        | Outcome.failed => false
        | Outcome.completed => false
        | Outcome.threw => true
        | Outcome.noBounds => true := by
  rcases computeShadow_cases ext ready cache sceneItems localItems sc detail with
    ⟨_, heq⟩ | ⟨_, _, heq⟩ | ⟨_, _, _, heq⟩
  · rw [heq]
  · rw [heq]
  · rw [heq]
    cases passBounds sc sceneItems detail with
    | none => rfl
    | some b =>
      simp only
      cases allPolygons ext.tolerance b (startCache cache detail)
          (visionLinesOf detail.visionShapes) detail.playersWithVision with
      | none => rfl
      | some polygons =>
        simp only
        cases composeAll ext b ⟨startCache cache detail, 0, 0, []⟩
            (detail.playersWithVision.zip polygons) with
        | threw st => rfl
        | failed st => rfl
        | done st => rfl

/-- C17: a pass does not read the flag `busy` (it sets it on entry), and the flag is clear
after the pass exactly when the pass ended by one of its four ends: scene not ready, vision
disabled or no observer, composition failure, normal completion; the first two ends are taken
whenever their condition holds. A call of `onSceneDataChange` made while the flag is set
returns without an event and without touching its variables, so an event is dispatched only
with the flag clear; and after a pass that ended, a later call behaves as with the flag
clear. -/
theorem busy_cleared_on_every_end (ext : Externals) (ready : Bool) (cache : ObjectCache)
    (sceneItems localItems : List Item) (sc : SceneCache) (detail : Detail)
    (busy ready1 : Bool) (prev : Previous) (sc1 : SceneCache) (forceUpdate : Option Bool) :
    ((computeShadow ext ready cache sceneItems localItems sc detail).busy = false
      ↔ (computeShadow ext ready cache sceneItems localItems sc detail).outcome = Outcome.notReady
        ∨ (computeShadow ext ready cache sceneItems localItems sc detail).outcome = Outcome.cleared
        ∨ (computeShadow ext ready cache sceneItems localItems sc detail).outcome = Outcome.failed
        ∨ (computeShadow ext ready cache sceneItems localItems sc detail).outcome
            = Outcome.completed)
    ∧ (ready = false →
        (computeShadow ext ready cache sceneItems localItems sc detail).outcome = Outcome.notReady)
    ∧ (ready = true → detail.metadata.visionEnabled = false ∨ detail.playersWithVision = [] →
        (computeShadow ext ready cache sceneItems localItems sc detail).outcome = Outcome.cleared)
    ∧ onSceneDataChange ext true ready1 prev sc1 forceUpdate = (prev, Dispatch.returned)
    ∧ (∀ d : Detail,
        (onSceneDataChange ext busy ready1 prev sc1 forceUpdate).2 = Dispatch.dispatched d →
        busy = false)
    ∧ ((computeShadow ext ready cache sceneItems localItems sc detail).outcome = Outcome.notReady
        ∨ (computeShadow ext ready cache sceneItems localItems sc detail).outcome = Outcome.cleared
        ∨ (computeShadow ext ready cache sceneItems localItems sc detail).outcome = Outcome.failed
        ∨ (computeShadow ext ready cache sceneItems localItems sc detail).outcome
            = Outcome.completed →
        onSceneDataChange ext (computeShadow ext ready cache sceneItems localItems sc detail).busy
            ready1 prev sc1 forceUpdate
          = onSceneDataChange ext false ready1 prev sc1 forceUpdate) := by
  have hbusy := busy_of_outcome ext ready cache sceneItems localItems sc detail
  have hiff : (computeShadow ext ready cache sceneItems localItems sc detail).busy = false
      ↔ (computeShadow ext ready cache sceneItems localItems sc detail).outcome = Outcome.notReady
        ∨ (computeShadow ext ready cache sceneItems localItems sc detail).outcome = Outcome.cleared
        ∨ (computeShadow ext ready cache sceneItems localItems sc detail).outcome = Outcome.failed
        ∨ (computeShadow ext ready cache sceneItems localItems sc detail).outcome
            = Outcome.completed := by
    rw [hbusy]
    cases (computeShadow ext ready cache sceneItems localItems sc detail).outcome <;> decide
  refine ⟨hiff, ?_, ?_, ?_, ?_, ?_⟩
  · intro hr
    rcases computeShadow_cases ext ready cache sceneItems localItems sc detail with
      ⟨_, heq⟩ | ⟨hr1, _, _⟩ | ⟨hr1, _, _, _⟩
    · rw [heq]
    · rw [hr] at hr1; exact absurd hr1 (by decide)
    · rw [hr] at hr1; exact absurd hr1 (by decide)
  · intro hr hv
    rcases computeShadow_cases ext ready cache sceneItems localItems sc detail with
      ⟨hr1, _⟩ | ⟨_, _, heq⟩ | ⟨_, hv1, hp1, _⟩
    · rw [hr] at hr1; exact absurd hr1 (by decide)
    · rw [heq]
    · rcases hv with hv | hv
      · rw [hv] at hv1; exact absurd hv1 (by decide)
      · exact absurd hv hp1
  · exact onSceneDataChange_gate ext true ready1 prev sc1 forceUpdate (Or.inl rfl)
  · intro d hd
    cases busy with
    | false => rfl
    | true =>
      rw [onSceneDataChange_gate ext true ready1 prev sc1 forceUpdate (Or.inl rfl)] at hd
      exact absurd hd (by simp)
  · intro hend
    rw [hiff.mpr hend]

/-- Witness of `busy_cleared_on_every_end`: a pass on a scene that is not ready ends with the
flag clear. -/
theorem busy_cleared_on_every_end_witness :
    (computeShadow exampleExt false ghostCache [] [] {} (scenarioDetail none true false)).outcome
      = Outcome.notReady
    ∧ (computeShadow exampleExt false ghostCache [] [] {} (scenarioDetail none true false)).busy
      = false :=
  have h := busy_cleared_on_every_end exampleExt false ghostCache [] [] {}
    (scenarioDetail none true false) false true {} exampleScene none
  ⟨h.2.1 rfl, h.1.mpr (Or.inl (h.2.1 rfl))⟩

/-! ## Lemmas on the corner walk -/

/-- The walk forwards from `e1` up to `e2`, for all sixteen pairs of edges. -/
theorem cornerWalk_forwards :
    ∀ e1 ∈ [(0 : Int), 1, 2, 3], ∀ e2 ∈ [(0 : Int), 1, 2, 3],
      cornerWalk 4 (e1 + 0) 1 e2
        = some ((List.range (mod (e2 - e1) 4).toNat).map (fun i => mod (e1 + i) 4)) := by
  decide

/-- The walk backwards from `e1 - 1` down to `e2`, for all sixteen pairs of edges. -/
theorem cornerWalk_backwards :
    ∀ e1 ∈ [(0 : Int), 1, 2, 3], ∀ e2 ∈ [(0 : Int), 1, 2, 3],
      cornerWalk 4 (e1 + -1) (-1) (mod (e2 - 1) 4)
        = some ((List.range (mod (e1 - e2) 4).toNat).map (fun i => mod (e1 - 1 - i) 4)) := by
  decide

/-- The edge of a projection is one of the four edges. -/
theorem edgeOf_mem (tol : ℚ) (b : Bounds) (proj : Point) :
    edgeOf tol b proj ∈ [(0 : Int), 1, 2, 3] := by
  unfold edgeOf
  split_ifs <;> decide

/-- The walk the specification words has at most three corners, none when the two edges are
the same, and only indices of `corners`. -/
theorem walkOf_bounds :
    ∀ e1 ∈ [(0 : Int), 1, 2, 3], ∀ e2 ∈ [(0 : Int), 1, 2, 3],
      ((List.range (mod (e2 - e1) 4).toNat).map (fun i => mod (e1 + i) 4)).length ≤ 3
      ∧ ((List.range (mod (e1 - e2) 4).toNat).map (fun i => mod (e1 - 1 - i) 4)).length ≤ 3
      ∧ (e1 = e2 → (List.range (mod (e2 - e1) 4).toNat).map (fun i => mod (e1 + i) 4) = []
          ∧ (List.range (mod (e1 - e2) 4).toNat).map (fun i => mod (e1 - 1 - i) 4) = []) := by
  decide

/-- The loop of the code splices the corners of `walkOf`. -/
theorem cornerWalk_eq_walkOf (s : ℚ) (e1 e2 : Int) (h1 : e1 ∈ [(0 : Int), 1, 2, 3])
    (h2 : e2 ∈ [(0 : Int), 1, 2, 3]) :
    cornerWalk 4
      (e1 + (if (if mathSign s = 0 then (1 : Int) else - mathSign s) = 1 then 0 else -1))
      (if mathSign s = 0 then 1 else - mathSign s)
      (if (if mathSign s = 0 then (1 : Int) else - mathSign s) = 1 then e2 else mod (e2 - 1) 4)
      = some (walkOf s e1 e2) := by
  by_cases hs : s ≤ 0
  · have hd : (if mathSign s = 0 then (1 : Int) else - mathSign s) = 1 := by
      unfold mathSign
      rw [if_neg (not_lt.mpr hs)]
      split_ifs <;> simp_all
    rw [hd]
    simp only [if_true]
    unfold walkOf
    rw [if_pos hs]
    exact cornerWalk_forwards e1 h1 e2 h2
  · have hd : (if mathSign s = 0 then (1 : Int) else - mathSign s) = -1 := by
      unfold mathSign
      rw [if_pos (not_le.mp hs)]
      decide
    rw [hd]
    simp only [show ((-1 : Int) = 1) = False from by decide, if_false]
    unfold walkOf
    rw [if_neg hs]
    exact cornerWalk_backwards e1 h1 e2 h2

/-- C19: for a line that is not skipped and whose two projections exist, the two edges found
are among 0 (top), 1 (right), 2 (bottom), 3 (left), the loop over the corners ends, and the
shadow is `[segStart, proj1, c1..ck, proj2, segEnd]` where the corners are those of `walkOf`:
entries of `corners` taken with wraparound, forwards from the edge `e1` of the first
projection with `k = (e2 - e1) mod 4` when `s <= 0`, backwards from `e1 - 1` with
`k = (e1 - e2) mod 4` when `s > 0`. At most three corners are spliced, each one an entry of
`corners`, and none when both projections are on the same edge. -/
theorem corner_walk_splices (tol : ℚ) (b : Bounds) (pos : Point) (line : VisionLine)
    (proj1 proj2 : Point)
    (hskip : oneSidedSkip line.oneSided (signedDistance pos line) = false)
    (h1 : chooseProj (projOptions b ⟨line.startPosition.x - pos.x, line.startPosition.y - pos.y⟩
      line.startPosition) line.startPosition = some proj1)
    (h2 : chooseProj (projOptions b ⟨line.endPosition.x - pos.x, line.endPosition.y - pos.y⟩
      line.endPosition) line.endPosition = some proj2) :
    edgeOf tol b proj1 ∈ [(0 : Int), 1, 2, 3] ∧ edgeOf tol b proj2 ∈ [(0 : Int), 1, 2, 3]
    ∧ castShadow tol b pos line
        = CastResult.polygon
            ([line.startPosition, proj1]
              ++ (walkOf (signedDistance pos line) (edgeOf tol b proj1) (edgeOf tol b proj2)).map
                  (cornerAt b)
              ++ [proj2, line.endPosition])
    ∧ (walkOf (signedDistance pos line) (edgeOf tol b proj1) (edgeOf tol b proj2)).length ≤ 3
    ∧ (∀ i ∈ walkOf (signedDistance pos line) (edgeOf tol b proj1) (edgeOf tol b proj2),
        cornerAt b i ∈ corners b)
    ∧ (edgeOf tol b proj1 = edgeOf tol b proj2 →
        walkOf (signedDistance pos line) (edgeOf tol b proj1) (edgeOf tol b proj2) = []) := by
  have he1 := edgeOf_mem tol b proj1
  have he2 := edgeOf_mem tol b proj2
  have hb := walkOf_bounds (edgeOf tol b proj1) he1 (edgeOf tol b proj2) he2
  have hidx : ∀ e1 ∈ [(0 : Int), 1, 2, 3], ∀ e2 ∈ [(0 : Int), 1, 2, 3],
      (∀ i ∈ (List.range (mod (e2 - e1) 4).toNat).map (fun i => mod (e1 + i) 4),
          i ∈ [(0 : Int), 1, 2, 3])
      ∧ ∀ i ∈ (List.range (mod (e1 - e2) 4).toNat).map (fun i => mod (e1 - 1 - i) 4),
          i ∈ [(0 : Int), 1, 2, 3] := by
    decide
  have hcorner : ∀ i ∈ [(0 : Int), 1, 2, 3], cornerAt b i ∈ corners b := by
    intro i hi
    simp only [List.mem_cons, List.mem_singleton, List.not_mem_nil, or_false] at hi
    rcases hi with rfl | rfl | rfl | rfl <;> simp [cornerAt, corners]
  refine ⟨he1, he2, ?_, ?_, ?_, ?_⟩
  · exact castShadow_polygon tol b pos line proj1 proj2 _ hskip h1 h2
      (cornerWalk_eq_walkOf (signedDistance pos line) _ _ he1 he2)
  · unfold walkOf
    split_ifs
    · exact hb.1
    · exact hb.2.1
  · intro i hi
    apply hcorner
    unfold walkOf at hi
    split_ifs at hi
    · exact (hidx _ he1 _ he2).1 i hi
    · exact (hidx _ he1 _ he2).2 i hi
  · intro he
    unfold walkOf
    split_ifs
    · exact (hb.2.2 he).1
    · exact (hb.2.2 he).2

/-- Witness of `corner_walk_splices`: the wall of the scenario, seen from the observer. -/
theorem corner_walk_splices_witness :
    oneSidedSkip (scenarioLine none false).oneSided
        (signedDistance ⟨200, 500⟩ (scenarioLine none false)) = false
    ∧ castShadow (1 / 100) scenarioBounds ⟨200, 500⟩ (scenarioLine none false)
        = CastResult.polygon
            ([(scenarioLine none false).startPosition, ⟨400, 0⟩]
              ++ (walkOf (signedDistance ⟨200, 500⟩ (scenarioLine none false))
                    (edgeOf (1 / 100) scenarioBounds ⟨400, 0⟩)
                    (edgeOf (1 / 100) scenarioBounds ⟨400, 1000⟩)).map (cornerAt scenarioBounds)
              ++ [⟨400, 1000⟩, (scenarioLine none false).endPosition]) :=
  ⟨rfl,
    (corner_walk_splices (1 / 100) scenarioBounds ⟨200, 500⟩ (scenarioLine none false)
      ⟨400, 0⟩ ⟨400, 1000⟩ rfl
      (by simp only [scenarioLine, projOptions, scenarioBounds, xlim, ylim]
          norm_num [chooseProj, squareDistance])
      (by simp only [scenarioLine, projOptions, scenarioBounds, xlim, ylim]
          norm_num [chooseProj, squareDistance])).2.2.1⟩

/-! ## Lines that end on the spot of a player -/

/-- Two points with the same coordinates are the same point. -/
theorem point_eq (p q : Point) (hx : p.x = q.x) (hy : p.y = q.y) : p = q := by
  cases p
  cases q
  simp only [Point.mk.injEq]
  exact ⟨hx, hy⟩

/-- A ray without direction has no projection candidate. -/
theorem projOptions_zero (b : Bounds) (e : Point) : projOptions b ⟨0, 0⟩ e = [] := by
  simp [projOptions]

/-- A ray with a direction has a projection. -/
theorem chooseProj_isSome (b : Bounds) (v e : Point) (hv : v.x ≠ 0 ∨ v.y ≠ 0) :
    ∃ proj, chooseProj (projOptions b v e) e = some proj := by
  unfold projOptions
  by_cases hx : v.x = 0
  · have hy : v.y ≠ 0 := by
      rcases hv with h | h
      · exact absurd hx h
      · exact h
    simp only [hx, ne_eq, not_true_eq_false, if_false, hy, not_false_eq_true, if_true,
      List.nil_append, chooseProj]
    exact ⟨_, rfl⟩
  · by_cases hy : v.y = 0
    · simp only [hx, hy, ne_eq, not_true_eq_false, if_false, not_false_eq_true, if_true,
        List.append_nil, chooseProj]
      exact ⟨_, rfl⟩
    · simp only [hx, hy, ne_eq, not_false_eq_true, if_true, List.singleton_append, chooseProj]
      split_ifs
      · exact ⟨_, rfl⟩
      · exact ⟨_, rfl⟩

/-- A turn of the loop over the lines throws exactly when the line is not skipped and one of
its ends is on the spot of the player: a line of length zero elsewhere casts a polygon. -/
theorem castShadow_threw_iff (tol : ℚ) (b : Bounds) (pos : Point) (line : VisionLine) :
    castShadow tol b pos line = CastResult.threw
      ↔ oneSidedSkip line.oneSided (signedDistance pos line) = false
        ∧ (line.startPosition = pos ∨ line.endPosition = pos) := by
  cases hskip : oneSidedSkip line.oneSided (signedDistance pos line) with
  | true =>
    rw [castShadow_skipped tol b pos line hskip]
    simp
  | false =>
    simp only [true_and]
    constructor
    · intro hthrew
      by_contra hne
      rw [not_or] at hne
      have hv1 : line.startPosition.x - pos.x ≠ 0 ∨ line.startPosition.y - pos.y ≠ 0 := by
        by_contra h
        rw [not_or, not_not, not_not, sub_eq_zero, sub_eq_zero] at h
        exact hne.1 (point_eq _ _ h.1 h.2)
      have hv2 : line.endPosition.x - pos.x ≠ 0 ∨ line.endPosition.y - pos.y ≠ 0 := by
        by_contra h
        rw [not_or, not_not, not_not, sub_eq_zero, sub_eq_zero] at h
        exact hne.2 (point_eq _ _ h.1 h.2)
      obtain ⟨proj1, h1⟩ := chooseProj_isSome b
        ⟨line.startPosition.x - pos.x, line.startPosition.y - pos.y⟩ line.startPosition hv1
      obtain ⟨proj2, h2⟩ := chooseProj_isSome b
        ⟨line.endPosition.x - pos.x, line.endPosition.y - pos.y⟩ line.endPosition hv2
      rw [castShadow_polygon tol b pos line proj1 proj2 _ hskip h1 h2
        (cornerWalk_eq_walkOf (signedDistance pos line) _ _ (edgeOf_mem tol b proj1)
          (edgeOf_mem tol b proj2))] at hthrew
      exact CastResult.noConfusion hthrew
    · intro h
      unfold castShadow
      simp only [hskip, Bool.false_eq_true, if_false]
      rcases h with h | h
      · rw [h, sub_self, sub_self, projOptions_zero]
        rfl
      · rw [h, sub_self, sub_self, projOptions_zero]
        cases chooseProj (projOptions b ⟨line.startPosition.x - pos.x,
          line.startPosition.y - pos.y⟩ line.startPosition) line.startPosition <;> rfl

/-- The loop over the lines throws when its first line does. -/
theorem castAll_threw (tol : ℚ) (b : Bounds) (pos : Point) (line : VisionLine)
    (rest : List VisionLine) (h : castShadow tol b pos line = CastResult.threw) :
    castAll tol b pos (line :: rest) = none := by
  simp only [castAll, h]

/-- A pass with one player that is not cached and for which the loop over the lines throws
never reaches an end: the flag `busy` stays set. -/
theorem single_player_threw (ext : Externals) (cache : ObjectCache)
    (sceneItems localItems : List Item) (sc : SceneCache) (detail : Detail) (b : Bounds)
    (player : Item)
    (hb : passBounds sc sceneItems detail = some b)
    (hv : detail.metadata.visionEnabled = true)
    (hplayers : detail.playersWithVision = [player])
    (hc : cachedPath (startCache cache detail) player = none)
    (hcast : castAll ext.tolerance b player.position (visionLinesOf detail.visionShapes) = none) :
    computeShadow ext true cache sceneItems localItems sc detail
      = { outcome := Outcome.threw, busy := true, cache := startCache cache detail
          sceneItems := sceneItems, localItems := localItems, fogFilled := sc.fogFilled } := by
  have hnc : isCached (startCache cache detail) player = false := by
    rw [isCached_eq, hc]; rfl
  have hall : allPolygons ext.tolerance b (startCache cache detail)
      (visionLinesOf detail.visionShapes) detail.playersWithVision = none := by
    rw [hplayers]
    simp only [allPolygons, playerPolygons, hnc, Bool.false_eq_true, if_false, hcast]
  rcases computeShadow_cases ext true cache sceneItems localItems sc detail with
    ⟨hr, _⟩ | ⟨_, hcl, _⟩ | ⟨_, _, _, heq⟩
  · exact absurd hr (by decide)
  · rcases hcl with h | h
    · rw [hv] at h; exact absurd h (by decide)
    · rw [hplayers] at h; exact absurd h (List.cons_ne_nil _ _)
  · rw [heq, hb]
    simp only [hall]

theorem touching_lines : visionLinesOf [touchingWall] = [touchingLine] := by
  simp only [visionLinesOf, List.flatMap_cons, List.flatMap_nil, List.append_nil]
  show shapeLines touchingWall [⟨200, 500⟩, ⟨400, 1000⟩] = _
  simp only [shapeLines, touchingLine, List.cons.injEq, and_true, VisionLine.mk.injEq,
    Point.mk.injEq]
  refine ⟨⟨?_, ?_⟩, ⟨?_, ?_⟩, trivial, rfl⟩ <;> simp only [touchingWall] <;> norm_num

/-- C15 fails on the code: a wall from `(200,500)` to `(400,1000)` starts on the spot of the
observer at `(200,500)`; the ray to that end has no direction, no projection candidate is
made, and the turn reads a field of `undefined`. The segment is neither skipped nor given a
polygon: the whole pass throws, with the flag `busy` left set and nothing written. -/
theorem endpoint_on_observer_throws :
    visionLinesOf touchingDetail.visionShapes = [touchingLine]
    ∧ projOptions scenarioBounds
        ⟨touchingLine.startPosition.x - 200, touchingLine.startPosition.y - 500⟩
        touchingLine.startPosition = []
    ∧ castShadow exampleExt.tolerance scenarioBounds ⟨200, 500⟩ touchingLine = CastResult.threw
    ∧ (computeShadow exampleExt true [] [] [] {} touchingDetail).outcome = Outcome.threw
    ∧ (computeShadow exampleExt true [] [] [] {} touchingDetail).busy = true
    ∧ (computeShadow exampleExt true [] [] [] {} touchingDetail).report = none := by
  have hcast : castShadow exampleExt.tolerance scenarioBounds ⟨200, 500⟩ touchingLine
      = CastResult.threw :=
    (castShadow_threw_iff exampleExt.tolerance scenarioBounds ⟨200, 500⟩ touchingLine).mpr
      ⟨rfl, Or.inl rfl⟩
  have hpass := single_player_threw exampleExt [] [] [] {} touchingDetail scenarioBounds
    scenarioObserver (passBounds_detail _ _ _ rfl) rfl rfl rfl
    (by
      show castAll exampleExt.tolerance scenarioBounds ⟨200, 500⟩
        (visionLinesOf [touchingWall]) = none
      rw [touching_lines]
      exact castAll_threw _ _ _ _ _ hcast)
  refine ⟨touching_lines, ?_, hcast, ?_, ?_, ?_⟩
  · have h : (⟨touchingLine.startPosition.x - 200, touchingLine.startPosition.y - 500⟩ : Point)
        = ⟨0, 0⟩ := by
      simp only [touchingLine, Point.mk.injEq]
      norm_num
    rw [h, projOptions_zero]
  · rw [hpass]
  · rw [hpass]
  · rw [hpass]

/-- The overlay of a completed pass with one player: the rectangle `megapathrect` minus the
region of the player. -/
theorem single_player_overlay (ext : Externals) (sceneItems localItems : List Item)
    (sc : SceneCache) (player : Item) (b : Bounds) (polygons : List (List ShadowPolygon))
    (st : ComposeState) (region : Path) (hfow : sc.metadata.fowEnabled = true)
    (hitems : st.itemsPerPlayer = [region]) :
    (finishPass ext sceneItems localItems sc [player] b polygons st).overlay
      = some (Path.op (Path.rect b.offset.x b.offset.x b.width b.height) PathOp.difference
          (clipRegion sc player region)) := by
  rw [finishPass_overlay, finishPass_regions, hfow, hitems]
  rfl

/-- C11 fails on the code: on a map of 1000 by 1000 whose corner is at `(0,100)`, with fog of
war enabled, no wall and one observer, the region of the observer is the map rectangle
`rect(0,100,1000,1000)`, carved from `rect(offset[0], offset[1], size)`, but the overlay is
carved from `rect(offset[0], offset[0], size)`, here `rect(0,0,1000,1000)`: it fills
`(500,50)`, a point outside the map rectangle, where the map rectangle minus the region fills
nothing. -/
theorem overlay_starts_at_offset_x_twice :
    passBounds fowScene [] shiftedDetail = some ⟨⟨0, 100⟩, 1000, 1000, ⟨1, 1⟩⟩
    ∧ (computeShadow exampleExt true [] [] [] fowScene shiftedDetail).outcome = Outcome.completed
    ∧ (computeShadow exampleExt true [] [] [] fowScene shiftedDetail).regions
        = [Path.rect 0 100 1000 1000]
    ∧ (computeShadow exampleExt true [] [] [] fowScene shiftedDetail).overlay
        = some (Path.op (Path.rect 0 0 1000 1000) PathOp.difference (Path.rect 0 100 1000 1000))
    ∧ (Path.op (Path.rect 0 0 1000 1000) PathOp.difference
        (Path.rect 0 100 1000 1000)).contains ⟨500, 50⟩ = true
    ∧ (Path.rect 0 100 1000 1000).contains ⟨500, 50⟩ = false
    ∧ ∀ p : Point, (Path.op (Path.rect 0 100 1000 1000) PathOp.difference
        (Path.rect 0 100 1000 1000)).contains p = false := by
  have hb : passBounds fowScene [] shiftedDetail = some ⟨⟨0, 100⟩, 1000, 1000, ⟨1, 1⟩⟩ :=
    passBounds_detail _ _ _ rfl
  have hpass := single_player_miss exampleExt [] [] [] fowScene shiftedDetail
    ⟨⟨0, 100⟩, 1000, 1000, ⟨1, 1⟩⟩ scenarioObserver [] (Path.rect 0 100 1000 1000)
    hb rfl rfl rfl rfl rfl rfl (List.cons_ne_nil _ _)
  have hin : (Path.rect 0 0 1000 1000).contains ⟨500, 50⟩ = true :=
    (rect_contains 0 0 1000 1000 (by norm_num) (by norm_num) ⟨500, 50⟩).mpr (by norm_num)
  have hout : (Path.rect 0 100 1000 1000).contains ⟨500, 50⟩ = false := by
    rw [← Bool.not_eq_true, rect_contains 0 100 1000 1000 (by norm_num) (by norm_num)]
    norm_num
  refine ⟨hb, ?_, ?_, ?_, ?_, hout, ?_⟩
  · rw [hpass, finishPass_outcome]
  · rw [hpass, finishPass_regions]
    rfl
  · rw [hpass, single_player_overlay exampleExt [] [] fowScene scenarioObserver _ _ _
      (Path.rect 0 100 1000 1000) rfl rfl]
    rfl
  · rw [contains_difference, hin, hout]
    rfl
  · intro p
    rw [contains_difference]
    cases (Path.rect 0 100 1000 1000).contains p <;> rfl

/-- The third step for a player whose `visionRange` entry is truthy. -/
theorem clipRegion_some (sc : SceneCache) (player : Item) (path : Path) (r : ℚ)
    (h : rangeValue player.visionRange = some r) :
    clipRegion sc player path
      = Path.op path PathOp.intersect
          (Path.ellipse player.position.x player.position.y
            (sc.gridDpi * (r / sc.gridScale + 1 / 2)) (sc.gridDpi * (r / sc.gridScale + 1 / 2))) := by
  simp only [clipRegion, h]

/-- The third step for a player whose `visionRange` entry is falsy. -/
theorem clipRegion_none (sc : SceneCache) (player : Item) (path : Path)
    (h : rangeValue player.visionRange = none) : clipRegion sc player path = path := by
  simp only [clipRegion, h]

/-- C12 fails on the code: an observer at `(200,500)` whose `visionRange` entry is the number
`0` (what the handler of the unlimited checkbox stores when it is unchecked over an input
that shows 0), on a grid of 150 pixels for 5 units. The test `if (visionRangeMeta)` is false
for the number `0`, so the region is left unclipped, on a recompute and on a cache hit alike:
it is the whole map rectangle and fills `(900,900)`, which is outside the circle of radius
`150 * (0 / 5 + 0.5) = 75` around the observer. The same range stored as the text `"0"` (what
the handler of the range input stores) is clipped to that circle. -/
theorem zero_range_is_not_clipped :
    rangeValue (rangedObserver (RangeMeta.num 0)).visionRange = none
    ∧ gridScene.gridDpi * (0 / gridScene.gridScale + 1 / 2) = 75
    ∧ (computeShadow exampleExt true [] [] [] gridScene
        (rangedDetail (RangeMeta.num 0))).outcome = Outcome.completed
    ∧ (computeShadow exampleExt true [] [] [] gridScene
        (rangedDetail (RangeMeta.num 0))).regions = [Path.rect 0 0 1000 1000]
    ∧ (computeShadow exampleExt true
        [("observer", ⟨Path.rect 0 0 1000 1000, rangedObserver (RangeMeta.num 0)⟩)] [] []
        gridScene (rangedDetail (RangeMeta.num 0))).report = some (1, 0)
    ∧ (computeShadow exampleExt true
        [("observer", ⟨Path.rect 0 0 1000 1000, rangedObserver (RangeMeta.num 0)⟩)] [] []
        gridScene (rangedDetail (RangeMeta.num 0))).regions = [Path.rect 0 0 1000 1000]
    ∧ (Path.rect 0 0 1000 1000).contains ⟨900, 900⟩ = true
    ∧ (Path.ellipse 200 500 75 75).contains ⟨900, 900⟩ = false
    ∧ (computeShadow exampleExt true [] [] [] gridScene
        (rangedDetail (RangeMeta.str 0))).regions
        = [Path.op (Path.rect 0 0 1000 1000) PathOp.intersect (Path.ellipse 200 500 75 75)] := by
  have hradius : gridScene.gridDpi * (0 / gridScene.gridScale + 1 / 2) = 75 := by
    simp only [gridScene]
    norm_num
  have hnum : rangeValue (rangedObserver (RangeMeta.num 0)).visionRange = none := by
    simp only [rangedObserver, rangeValue, if_true]
  have hstr : rangeValue (rangedObserver (RangeMeta.str 0)).visionRange = some 0 := rfl
  have hmiss := single_player_miss exampleExt [] [] [] gridScene (rangedDetail (RangeMeta.num 0))
    scenarioBounds (rangedObserver (RangeMeta.num 0)) [] (Path.rect 0 0 1000 1000)
    (passBounds_detail _ _ _ rfl) rfl rfl rfl rfl rfl rfl (List.cons_ne_nil _ _)
  have hhit := single_player_hit exampleExt
    [("observer", ⟨Path.rect 0 0 1000 1000, rangedObserver (RangeMeta.num 0)⟩)] [] []
    gridScene (rangedDetail (RangeMeta.num 0)) scenarioBounds (rangedObserver (RangeMeta.num 0))
    (Path.rect 0 0 1000 1000) (passBounds_detail _ _ _ rfl) rfl rfl (by decide)
  have htext := single_player_miss exampleExt [] [] [] gridScene (rangedDetail (RangeMeta.str 0))
    scenarioBounds (rangedObserver (RangeMeta.str 0)) [] (Path.rect 0 0 1000 1000)
    (passBounds_detail _ _ _ rfl) rfl rfl rfl rfl rfl rfl (List.cons_ne_nil _ _)
  refine ⟨hnum, hradius, ?_, ?_, ?_, ?_, ?_, ?_, ?_⟩
  · rw [hmiss, finishPass_outcome]
  · rw [hmiss, finishPass_regions]
    show [clipRegion gridScene (rangedObserver (RangeMeta.num 0)) (Path.rect 0 0 1000 1000)] = _
    rw [clipRegion_none _ _ _ hnum]
  · rw [hhit, finishPass_report]
  · rw [hhit, finishPass_regions]
    show [clipRegion gridScene (rangedObserver (RangeMeta.num 0)) (Path.rect 0 0 1000 1000)] = _
    rw [clipRegion_none _ _ _ hnum]
  · exact (rect_contains 0 0 1000 1000 (by norm_num) (by norm_num) ⟨900, 900⟩).mpr (by norm_num)
  · simp only [Path.contains, decide_eq_false_iff_not]
    norm_num
  · rw [htext, finishPass_regions]
    show [clipRegion gridScene (rangedObserver (RangeMeta.str 0)) (Path.rect 0 0 1000 1000)] = _
    rw [clipRegion_some _ _ _ 0 hstr, hradius]
    rfl

/-! ## A cached region and a change of bounds -/

theorem mapsScene_background (autodetect : Bool) :
    ((mapsScene autodetect).items.filter isBackgroundImage).head? = some exampleMap := by
  cases autodetect <;> decide

theorem mapsDetail_players (autodetect invalidateCache : Bool) :
    (mapsDetail autodetect invalidateCache).playersWithVision = [scenarioObserver] := by
  cases autodetect <;> cases invalidateCache <;> decide

theorem mapsDetail_shapes (autodetect invalidateCache : Bool) :
    visionLinesOf (mapsDetail autodetect invalidateCache).visionShapes = [] := by
  cases autodetect <;> cases invalidateCache <;> decide

/-- With autodetection the bounds are the box around both maps. -/
theorem maps_bounds_autodetect (invalidateCache : Bool) :
    passBounds (mapsScene true) (mapsScene true).items (mapsDetail true invalidateCache)
      = some ⟨⟨0, 0⟩, 3000, 1000, ⟨1, 1⟩⟩ := by
  have hf : (mapsScene true).items.filter (fun item => item.layer == "MAP")
      = [exampleMap, annexMap] := by decide
  unfold passBounds
  rw [hf]
  simp only [mapsScene, if_true, List.foldl_cons, List.foldl_nil, growMapbox, exampleMap,
    annexMap]
  norm_num

/-- Without autodetection the bounds are those of the background image. -/
theorem maps_bounds_manual (invalidateCache : Bool) :
    passBounds (mapsScene false) (mapsScene false).items (mapsDetail false invalidateCache)
      = some ⟨⟨0, 0⟩, 1000, 1000, ⟨1, 1⟩⟩ := by
  rw [passBounds_detail _ _ _ rfl]
  simp only [mapsDetail, eventDetail, keysOf, mapsScene, exampleMap, Option.some.injEq,
    Bounds.mk.injEq, and_true, true_and]
  norm_num

/-- The keys of the two scenes differ in the autodetection flag only. -/
theorem maps_keys (autodetect : Bool) :
    keysOf exampleExt (mapsScene autodetect) exampleMap
      = { sVisionShapes := "items", sPlayersWithVision := "items", sBackgroundImage := "item"
          size := (1000, 1000), visionEnabled := true, autodetectEnabled := autodetect
          fowEnabled := false, persistenceEnabled := false, fowColor := none } := by
  simp only [keysOf, mapsScene, exampleExt, exampleMap, Keys.mk.injEq, Prod.mk.injEq, and_true,
    true_and]
  norm_num

/-- Turning autodetection off launches a pass that keeps the cache. -/
theorem maps_toggle :
    onSceneDataChange exampleExt false true (store (keysOf exampleExt (mapsScene true) exampleMap))
        (mapsScene false) none
      = (store (keysOf exampleExt (mapsScene false) exampleMap),
          Dispatch.dispatched (mapsDetail false false)) := by
  rw [onSceneDataChange_eval exampleExt _ (mapsScene false) exampleMap none
    (mapsScene_background false), unchanged_store, invalidates_store]
  have hne : store (keysOf exampleExt (mapsScene true) exampleMap)
      ≠ store (keysOf exampleExt (mapsScene false) exampleMap) := by
    intro h
    have h1 := congrArg Previous.autodetectEnabled h
    rw [maps_keys, maps_keys] at h1
    exact absurd h1 (by decide)
  have hsame : ¬ ((keysOf exampleExt (mapsScene true) exampleMap).sBackgroundImage
        ≠ (keysOf exampleExt (mapsScene false) exampleMap).sBackgroundImage
      ∨ (keysOf exampleExt (mapsScene true) exampleMap).sVisionShapes
        ≠ (keysOf exampleExt (mapsScene false) exampleMap).sVisionShapes
      ∨ (keysOf exampleExt (mapsScene true) exampleMap).size
        ≠ (keysOf exampleExt (mapsScene false) exampleMap).size) := by
    rw [maps_keys, maps_keys]
    simp
  rw [decide_eq_false (fun h => hne h.1), decide_eq_false hsame]
  rfl

/-- C13 fails on the code: a scene with the background image `(0,0)-(1000,1000)`, a second
map at `(2000,0)` and an observer at `(200,500)`, no wall. A pass with autodetection caches
the region `rect(0,0,3000,1000)`, the box around both maps. Turning autodetection off
launches a pass without invalidation of the cache; its bounds are the background image,
`(0,0)-(1000,1000)`, the observer is a cache hit, and its region is the cached
`rect(0,0,3000,1000)`, which fills `(2000,500)`, a point outside the map rectangle of the
pass. -/
theorem cached_region_exceeds_bounds :
    passBounds (mapsScene true) (mapsScene true).items (mapsDetail true true)
        = some ⟨⟨0, 0⟩, 3000, 1000, ⟨1, 1⟩⟩
    ∧ (computeShadow exampleExt true [] (mapsScene true).items [] (mapsScene true)
        (mapsDetail true true)).outcome = Outcome.completed
    ∧ (computeShadow exampleExt true [] (mapsScene true).items [] (mapsScene true)
        (mapsDetail true true)).cache = mapsCache
    ∧ onSceneDataChange exampleExt false true
          (store (keysOf exampleExt (mapsScene true) exampleMap)) (mapsScene false) none
        = (store (keysOf exampleExt (mapsScene false) exampleMap),
            Dispatch.dispatched (mapsDetail false false))
    ∧ (mapsDetail false false).invalidateCache = false
    ∧ passBounds (mapsScene false) (mapsScene false).items (mapsDetail false false)
        = some ⟨⟨0, 0⟩, 1000, 1000, ⟨1, 1⟩⟩
    ∧ (computeShadow exampleExt true mapsCache (mapsScene false).items [] (mapsScene false)
        (mapsDetail false false)).outcome = Outcome.completed
    ∧ (computeShadow exampleExt true mapsCache (mapsScene false).items [] (mapsScene false)
        (mapsDetail false false)).report = some (1, 0)
    ∧ (computeShadow exampleExt true mapsCache (mapsScene false).items [] (mapsScene false)
        (mapsDetail false false)).regions = [Path.rect 0 0 3000 1000]
    ∧ (Path.rect 0 0 3000 1000).contains ⟨2000, 500⟩ = true
    ∧ (Path.rect 0 0 1000 1000).contains ⟨2000, 500⟩ = false := by
  have hfirst := single_player_miss exampleExt [] (mapsScene true).items [] (mapsScene true)
    (mapsDetail true true) ⟨⟨0, 0⟩, 3000, 1000, ⟨1, 1⟩⟩ scenarioObserver []
    (Path.rect 0 0 3000 1000) (maps_bounds_autodetect true) rfl (mapsDetail_players true true)
    rfl (by rw [mapsDetail_shapes]; rfl) rfl rfl (List.cons_ne_nil _ _)
  have hsecond := single_player_hit exampleExt mapsCache (mapsScene false).items []
    (mapsScene false) (mapsDetail false false) ⟨⟨0, 0⟩, 1000, 1000, ⟨1, 1⟩⟩ scenarioObserver
    (Path.rect 0 0 3000 1000) (maps_bounds_manual false) rfl (mapsDetail_players false false)
    (by decide)
  refine ⟨maps_bounds_autodetect true, ?_, ?_, maps_toggle, rfl, maps_bounds_manual false,
    ?_, ?_, ?_, ?_, ?_⟩
  · rw [hfirst, finishPass_outcome]
  · rw [hfirst, finishPass_cache]
    rfl
  · rw [hsecond, finishPass_outcome]
  · rw [hsecond, finishPass_report]
  · rw [hsecond, finishPass_regions]
    rfl
  · exact (rect_contains 0 0 3000 1000 (by norm_num) (by norm_num) ⟨2000, 500⟩).mpr
      (by norm_num)
  · rw [← Bool.not_eq_true, rect_contains 0 0 1000 1000 (by norm_num) (by norm_num)]
    norm_num

/-- C20 fails on the code: for a background image of 1000 by 1000 at `(0,0)` scaled by 2, the
caster projects to the limits `0` and `(1000 + 0) * 2 = 2000` and splices the corners of the
rectangle `(0,0)-(2000,2000)`, while the compositor starts from `rect(0, 0, 1000, 1000)`: the
point `(1500,1500)` is inside the rectangle of the caster and outside the initial visible
area. -/
theorem caster_rectangle_is_scaled :
    corners scaledBounds = [⟨2000, 0⟩, ⟨2000, 2000⟩, ⟨0, 2000⟩, ⟨0, 0⟩]
    ∧ xlim scaledBounds ⟨-1, 0⟩ = 0 ∧ xlim scaledBounds ⟨1, 0⟩ = 2000
    ∧ ylim scaledBounds ⟨0, -1⟩ = 0 ∧ ylim scaledBounds ⟨0, 1⟩ = 2000
    ∧ composeRegion scaledBounds [] = some (Path.rect 0 0 1000 1000)
    ∧ insideBounds scaledBounds ⟨1500, 1500⟩
    ∧ (Path.rect 0 0 1000 1000).contains ⟨1500, 1500⟩ = false := by
  refine ⟨?_, ?_, ?_, ?_, ?_, rfl, ?_, ?_⟩
  · simp only [corners, scaledBounds]
    norm_num
  · simp only [xlim, scaledBounds]
    norm_num
  · simp only [xlim, scaledBounds]
    norm_num
  · simp only [ylim, scaledBounds]
    norm_num
  · simp only [ylim, scaledBounds]
    norm_num
  · simp only [insideBounds, scaledBounds]
    norm_num
  · rw [← Bool.not_eq_true, rect_contains 0 0 1000 1000 (by norm_num) (by norm_num)]
    norm_num

/-! ## Lemmas on the projection to the border -/

/-- Along one axis, from `px` towards `ex` between the limits `lo` and `hi`: the limit in the
direction of travel is reached at a parameter that is at least 1, and the ray is between the
limits exactly up to that parameter. -/
theorem axis_exit (lo hi px ex : ℚ) (h1 : lo ≤ px) (h2 : px ≤ hi) (h3 : lo ≤ ex) (h4 : ex ≤ hi)
    (hv : ex - px ≠ 0) :
    1 ≤ ((if ex - px < 0 then lo else hi) - px) / (ex - px)
    ∧ ∀ t : ℚ, 0 ≤ t →
        ((lo ≤ px + t * (ex - px) ∧ px + t * (ex - px) ≤ hi)
          ↔ t ≤ ((if ex - px < 0 then lo else hi) - px) / (ex - px)) := by
  by_cases hneg : ex - px < 0
  · rw [if_pos hneg]
    constructor
    · rw [le_div_iff_of_neg hneg]
      linarith
    · intro t ht
      rw [le_div_iff_of_neg hneg]
      constructor
      · intro h
        linarith [h.1]
      · intro h
        refine ⟨by linarith, ?_⟩
        have : t * (ex - px) ≤ 0 := mul_nonpos_of_nonneg_of_nonpos ht (le_of_lt hneg)
        linarith
  · rw [if_neg hneg]
    have hpos : 0 < ex - px := lt_of_le_of_ne (not_lt.mp hneg) (Ne.symm hv)
    constructor
    · rw [le_div_iff₀ hpos]
      linarith
    · intro t ht
      rw [le_div_iff₀ hpos]
      constructor
      · intro h
        linarith [h.2]
      · intro h
        refine ⟨?_, by linarith⟩
        have : 0 ≤ t * (ex - px) := mul_nonneg ht (le_of_lt hpos)
        linarith

/-- The squared distance to the end point `e` of the point of parameter `t` on the ray from
`p` through `e`. -/
theorem squareDistance_ray (p e : Point) (t : ℚ) :
    squareDistance ⟨p.x + t * (e.x - p.x), p.y + t * (e.y - p.y)⟩ e
      = (t - 1) ^ 2 * ((e.x - p.x) ^ 2 + (e.y - p.y) ^ 2) := by
  simp only [squareDistance]
  ring

/-- Beyond the end point, the nearer of two points of the ray is the one of smaller
parameter. -/
theorem squareDistance_ray_lt (p e : Point) (s t : ℚ) (hs : 1 ≤ s) (ht : 1 ≤ t)
    (hne : e.x - p.x ≠ 0 ∨ e.y - p.y ≠ 0) :
    squareDistance ⟨p.x + s * (e.x - p.x), p.y + s * (e.y - p.y)⟩ e
        < squareDistance ⟨p.x + t * (e.x - p.x), p.y + t * (e.y - p.y)⟩ e
      ↔ s < t := by
  rw [squareDistance_ray, squareDistance_ray]
  have hD : 0 < (e.x - p.x) ^ 2 + (e.y - p.y) ^ 2 := by
    rcases hne with h | h
    · have := pow_pos (abs_pos.mpr h) 2
      rw [sq_abs] at this
      positivity
    · have := pow_pos (abs_pos.mpr h) 2
      rw [sq_abs] at this
      positivity
  rw [mul_lt_mul_right hD]
  constructor
  · intro h
    by_contra hle
    have : (t - 1) ^ 2 ≤ (s - 1) ^ 2 := by nlinarith
    linarith
  · intro h
    nlinarith

/-- The candidate on the vertical border is the point of the ray at the parameter at which the
ray reaches `xlim`. -/
theorem vertical_option (b : Bounds) (p e : Point) (hx : e.x - p.x ≠ 0) :
    (⟨xlim b ⟨e.x - p.x, e.y - p.y⟩,
        (e.y - p.y) / (e.x - p.x) * xlim b ⟨e.x - p.x, e.y - p.y⟩
          + (e.y - (e.y - p.y) / (e.x - p.x) * e.x)⟩ : Point)
      = ⟨p.x + (xlim b ⟨e.x - p.x, e.y - p.y⟩ - p.x) / (e.x - p.x) * (e.x - p.x),
         p.y + (xlim b ⟨e.x - p.x, e.y - p.y⟩ - p.x) / (e.x - p.x) * (e.y - p.y)⟩ := by
  rw [Point.mk.injEq]
  constructor
  · field_simp
  · field_simp
    ring

/-- The candidate on the horizontal border is the point of the ray at the parameter at which
the ray reaches `ylim`. -/
theorem horizontal_option (b : Bounds) (p e : Point) (hy : e.y - p.y ≠ 0) :
    (⟨(e.x - p.x) / (e.y - p.y) * ylim b ⟨e.x - p.x, e.y - p.y⟩
          - ((e.x - p.x) / (e.y - p.y) * e.y - e.x),
        ylim b ⟨e.x - p.x, e.y - p.y⟩⟩ : Point)
      = ⟨p.x + (ylim b ⟨e.x - p.x, e.y - p.y⟩ - p.y) / (e.y - p.y) * (e.x - p.x),
         p.y + (ylim b ⟨e.x - p.x, e.y - p.y⟩ - p.y) / (e.y - p.y) * (e.y - p.y)⟩ := by
  rw [Point.mk.injEq]
  constructor
  · field_simp
    ring
  · field_simp

/-- The ray along the horizontal axis: `axis_exit` between the left and the right border. -/
theorem x_exit (b : Bounds) (p e : Point) (hp : insideBounds b p) (he : insideBounds b e)
    (hx : e.x - p.x ≠ 0) :
    1 ≤ (xlim b ⟨e.x - p.x, e.y - p.y⟩ - p.x) / (e.x - p.x)
    ∧ ∀ t : ℚ, 0 ≤ t →
        ((b.offset.x * b.scale.x ≤ p.x + t * (e.x - p.x)
            ∧ p.x + t * (e.x - p.x) ≤ (b.width + b.offset.x) * b.scale.x)
          ↔ t ≤ (xlim b ⟨e.x - p.x, e.y - p.y⟩ - p.x) / (e.x - p.x)) :=
  axis_exit _ _ _ _ hp.1 hp.2.1 he.1 he.2.1 hx

/-- The ray along the vertical axis: `axis_exit` between the top and the bottom border. -/
theorem y_exit (b : Bounds) (p e : Point) (hp : insideBounds b p) (he : insideBounds b e)
    (hy : e.y - p.y ≠ 0) :
    1 ≤ (ylim b ⟨e.x - p.x, e.y - p.y⟩ - p.y) / (e.y - p.y)
    ∧ ∀ t : ℚ, 0 ≤ t →
        ((b.offset.y * b.scale.y ≤ p.y + t * (e.y - p.y)
            ∧ p.y + t * (e.y - p.y) ≤ (b.height + b.offset.y) * b.scale.y)
          ↔ t ≤ (ylim b ⟨e.x - p.x, e.y - p.y⟩ - p.y) / (e.y - p.y)) :=
  axis_exit _ _ _ _ hp.2.2.1 hp.2.2.2 he.2.2.1 he.2.2.2 hy

/-- The limit `xlim` is the left or the right border. -/
theorem xlim_cases (b : Bounds) (v : Point) :
    xlim b v = b.offset.x * b.scale.x ∨ xlim b v = (b.width + b.offset.x) * b.scale.x := by
  unfold xlim
  split_ifs
  · exact Or.inl rfl
  · exact Or.inr rfl

/-- The limit `ylim` is the top or the bottom border. -/
theorem ylim_cases (b : Bounds) (v : Point) :
    ylim b v = b.offset.y * b.scale.y ∨ ylim b v = (b.height + b.offset.y) * b.scale.y := by
  unfold ylim
  split_ifs
  · exact Or.inl rfl
  · exact Or.inr rfl

/-- The list `options` of a ray that is neither vertical nor horizontal. -/
theorem projOptions_both (b : Bounds) (p e : Point) (hx : e.x - p.x ≠ 0) (hy : e.y - p.y ≠ 0) :
    projOptions b ⟨e.x - p.x, e.y - p.y⟩ e
      = [⟨p.x + (xlim b ⟨e.x - p.x, e.y - p.y⟩ - p.x) / (e.x - p.x) * (e.x - p.x),
          p.y + (xlim b ⟨e.x - p.x, e.y - p.y⟩ - p.x) / (e.x - p.x) * (e.y - p.y)⟩,
         ⟨p.x + (ylim b ⟨e.x - p.x, e.y - p.y⟩ - p.y) / (e.y - p.y) * (e.x - p.x),
          p.y + (ylim b ⟨e.x - p.x, e.y - p.y⟩ - p.y) / (e.y - p.y) * (e.y - p.y)⟩] := by
  rw [← vertical_option b p e hx, ← horizontal_option b p e hy]
  unfold projOptions
  simp only [ne_eq, hx, hy, not_false_eq_true, if_true, List.singleton_append]

/-- The list `options` of a horizontal ray. -/
theorem projOptions_level (b : Bounds) (p e : Point) (hx : e.x - p.x ≠ 0) (hy : e.y - p.y = 0) :
    projOptions b ⟨e.x - p.x, e.y - p.y⟩ e
      = [⟨p.x + (xlim b ⟨e.x - p.x, e.y - p.y⟩ - p.x) / (e.x - p.x) * (e.x - p.x),
          p.y + (xlim b ⟨e.x - p.x, e.y - p.y⟩ - p.x) / (e.x - p.x) * (e.y - p.y)⟩] := by
  rw [← vertical_option b p e hx]
  unfold projOptions
  simp only [ne_eq, hx, not_false_eq_true, if_true, List.append_nil, hy, not_true_eq_false,
    if_false]

/-- The list `options` of a vertical ray. -/
theorem projOptions_upright (b : Bounds) (p e : Point) (hx : e.x - p.x = 0)
    (hy : e.y - p.y ≠ 0) :
    projOptions b ⟨e.x - p.x, e.y - p.y⟩ e
      = [⟨p.x + (ylim b ⟨e.x - p.x, e.y - p.y⟩ - p.y) / (e.y - p.y) * (e.x - p.x),
          p.y + (ylim b ⟨e.x - p.x, e.y - p.y⟩ - p.y) / (e.y - p.y) * (e.y - p.y)⟩] := by
  rw [← horizontal_option b p e hy]
  unfold projOptions
  simp only [ne_eq, hy, not_false_eq_true, if_true, List.nil_append, hx, not_true_eq_false,
    if_false]

/-- C18: for an observer position `p` and a segment end `e` in the rectangle of the bounds,
`e` different from `p`, a projection is chosen; it is the point `p + t (e - p)` of the ray
from the observer through the end, with `t >= 1` (at or beyond the end); it lies on the border
of the rectangle; the ray is in the rectangle exactly up to `t`, so the projection is the
point where the ray reaches the border and leaves the rectangle; and of the candidates on the
vertical and the horizontal border it is one nearest to the end. -/
theorem projection_on_border (b : Bounds) (p e : Point) (hp : insideBounds b p)
    (he : insideBounds b e) (hne : e ≠ p) :
    ∃ t : ℚ, 1 ≤ t
      ∧ chooseProj (projOptions b ⟨e.x - p.x, e.y - p.y⟩ e) e
          = some ⟨p.x + t * (e.x - p.x), p.y + t * (e.y - p.y)⟩
      ∧ onBoundary b ⟨p.x + t * (e.x - p.x), p.y + t * (e.y - p.y)⟩
      ∧ (∀ s : ℚ, 0 ≤ s →
          (insideBounds b ⟨p.x + s * (e.x - p.x), p.y + s * (e.y - p.y)⟩ ↔ s ≤ t))
      ∧ ∀ o ∈ projOptions b ⟨e.x - p.x, e.y - p.y⟩ e,
          squareDistance ⟨p.x + t * (e.x - p.x), p.y + t * (e.y - p.y)⟩ e
            ≤ squareDistance o e := by
  by_cases hx : e.x - p.x = 0
  · by_cases hy : e.y - p.y = 0
    · exact absurd (point_eq e p (sub_eq_zero.mp hx) (sub_eq_zero.mp hy)) hne
    · obtain ⟨h1, hiff⟩ := y_exit b p e hp he hy
      have hin : ∀ s : ℚ, 0 ≤ s →
          (insideBounds b ⟨p.x + s * (e.x - p.x), p.y + s * (e.y - p.y)⟩
            ↔ s ≤ (ylim b ⟨e.x - p.x, e.y - p.y⟩ - p.y) / (e.y - p.y)) := by
        intro s hs
        rw [← hiff s hs]
        unfold insideBounds
        simp only [hx, mul_zero, add_zero]
        exact ⟨fun h => h.2.2, fun h => ⟨hp.1, hp.2.1, h⟩⟩
      refine ⟨_, h1, ?_, ⟨(hin _ (by linarith)).mpr (le_refl _), ?_⟩, hin, ?_⟩
      · rw [projOptions_upright b p e hx hy]
        rfl
      · right
        right
        show p.y + (ylim b ⟨e.x - p.x, e.y - p.y⟩ - p.y) / (e.y - p.y) * (e.y - p.y) = _ ∨ _
        rw [div_mul_cancel₀ _ hy, add_sub_cancel]
        exact ylim_cases b _
      · intro o ho
        rw [projOptions_upright b p e hx hy, List.mem_singleton] at ho
        rw [ho]
  · by_cases hy : e.y - p.y = 0
    · obtain ⟨h1, hiff⟩ := x_exit b p e hp he hx
      have hin : ∀ s : ℚ, 0 ≤ s →
          (insideBounds b ⟨p.x + s * (e.x - p.x), p.y + s * (e.y - p.y)⟩
            ↔ s ≤ (xlim b ⟨e.x - p.x, e.y - p.y⟩ - p.x) / (e.x - p.x)) := by
        intro s hs
        rw [← hiff s hs]
        unfold insideBounds
        simp only [hy, mul_zero, add_zero]
        exact ⟨fun h => ⟨h.1, h.2.1⟩, fun h => ⟨h.1, h.2, hp.2.2⟩⟩
      refine ⟨_, h1, ?_, ⟨(hin _ (by linarith)).mpr (le_refl _), ?_⟩, hin, ?_⟩
      · rw [projOptions_level b p e hx hy]
        rfl
      · show p.x + (xlim b ⟨e.x - p.x, e.y - p.y⟩ - p.x) / (e.x - p.x) * (e.x - p.x) = _
          ∨ p.x + (xlim b ⟨e.x - p.x, e.y - p.y⟩ - p.x) / (e.x - p.x) * (e.x - p.x) = _ ∨ _
        rw [div_mul_cancel₀ _ hx, add_sub_cancel]
        rcases xlim_cases b ⟨e.x - p.x, e.y - p.y⟩ with h | h
        · exact Or.inl h
        · exact Or.inr (Or.inl h)
      · intro o ho
        rw [projOptions_level b p e hx hy, List.mem_singleton] at ho
        rw [ho]
    · obtain ⟨hx1, hxiff⟩ := x_exit b p e hp he hx
      obtain ⟨hy1, hyiff⟩ := y_exit b p e hp he hy
      have hin : ∀ s : ℚ, 0 ≤ s →
          (insideBounds b ⟨p.x + s * (e.x - p.x), p.y + s * (e.y - p.y)⟩
            ↔ s ≤ (xlim b ⟨e.x - p.x, e.y - p.y⟩ - p.x) / (e.x - p.x)
              ∧ s ≤ (ylim b ⟨e.x - p.x, e.y - p.y⟩ - p.y) / (e.y - p.y)) := by
        intro s hs
        rw [← hxiff s hs, ← hyiff s hs]
        unfold insideBounds
        exact ⟨fun h => ⟨⟨h.1, h.2.1⟩, h.2.2⟩, fun h => ⟨h.1.1, h.1.2, h.2⟩⟩
      have hcmp := squareDistance_ray_lt p e _ _ hx1 hy1 (Or.inl hx)
      by_cases hlt :
          squareDistance
              ⟨p.x + (xlim b ⟨e.x - p.x, e.y - p.y⟩ - p.x) / (e.x - p.x) * (e.x - p.x),
                p.y + (xlim b ⟨e.x - p.x, e.y - p.y⟩ - p.x) / (e.x - p.x) * (e.y - p.y)⟩ e
            < squareDistance
              ⟨p.x + (ylim b ⟨e.x - p.x, e.y - p.y⟩ - p.y) / (e.y - p.y) * (e.x - p.x),
                p.y + (ylim b ⟨e.x - p.x, e.y - p.y⟩ - p.y) / (e.y - p.y) * (e.y - p.y)⟩ e
      · have htt := le_of_lt (hcmp.mp hlt)
        have hin1 : ∀ s : ℚ, 0 ≤ s →
            (insideBounds b ⟨p.x + s * (e.x - p.x), p.y + s * (e.y - p.y)⟩
              ↔ s ≤ (xlim b ⟨e.x - p.x, e.y - p.y⟩ - p.x) / (e.x - p.x)) := by
          intro s hs
          rw [hin s hs]
          exact ⟨fun h => h.1, fun h => ⟨h, le_trans h htt⟩⟩
        refine ⟨_, hx1, ?_, ⟨(hin1 _ (by linarith)).mpr (le_refl _), ?_⟩, hin1, ?_⟩
        · rw [projOptions_both b p e hx hy]
          simp only [chooseProj, if_pos hlt]
        · show p.x + (xlim b ⟨e.x - p.x, e.y - p.y⟩ - p.x) / (e.x - p.x) * (e.x - p.x) = _
            ∨ p.x + (xlim b ⟨e.x - p.x, e.y - p.y⟩ - p.x) / (e.x - p.x) * (e.x - p.x) = _ ∨ _
          rw [div_mul_cancel₀ _ hx, add_sub_cancel]
          rcases xlim_cases b ⟨e.x - p.x, e.y - p.y⟩ with h | h
          · exact Or.inl h
          · exact Or.inr (Or.inl h)
        · intro o ho
          rw [projOptions_both b p e hx hy] at ho
          simp only [List.mem_cons, List.mem_singleton, List.not_mem_nil, or_false] at ho
          rcases ho with ho | ho
          · rw [ho]
          · rw [ho]
            exact le_of_lt hlt
      · have htt : (ylim b ⟨e.x - p.x, e.y - p.y⟩ - p.y) / (e.y - p.y)
            ≤ (xlim b ⟨e.x - p.x, e.y - p.y⟩ - p.x) / (e.x - p.x) :=
          not_lt.mp (fun h => hlt (hcmp.mpr h))
        have hin1 : ∀ s : ℚ, 0 ≤ s →
            (insideBounds b ⟨p.x + s * (e.x - p.x), p.y + s * (e.y - p.y)⟩
              ↔ s ≤ (ylim b ⟨e.x - p.x, e.y - p.y⟩ - p.y) / (e.y - p.y)) := by
          intro s hs
          rw [hin s hs]
          exact ⟨fun h => h.2, fun h => ⟨le_trans h htt, h⟩⟩
        refine ⟨_, hy1, ?_, ⟨(hin1 _ (by linarith)).mpr (le_refl _), ?_⟩, hin1, ?_⟩
        · rw [projOptions_both b p e hx hy]
          simp only [chooseProj, if_neg hlt]
        · right
          right
          show p.y + (ylim b ⟨e.x - p.x, e.y - p.y⟩ - p.y) / (e.y - p.y) * (e.y - p.y) = _ ∨ _
          rw [div_mul_cancel₀ _ hy, add_sub_cancel]
          exact ylim_cases b _
        · intro o ho
          rw [projOptions_both b p e hx hy] at ho
          simp only [List.mem_cons, List.mem_singleton, List.not_mem_nil, or_false] at ho
          rcases ho with ho | ho
          · rw [ho]
            exact not_lt.mp hlt
          · rw [ho]

/-- Witness of `projection_on_border`: the observer of the scenario at `(200,500)` and the
upper end `(400,0)` of the wall. -/
theorem projection_on_border_witness :
    insideBounds scenarioBounds ⟨200, 500⟩ ∧ insideBounds scenarioBounds ⟨400, 0⟩
    ∧ (⟨400, 0⟩ : Point) ≠ ⟨200, 500⟩
    ∧ ∃ t : ℚ, 1 ≤ t
        ∧ chooseProj (projOptions scenarioBounds ⟨400 - 200, 0 - 500⟩ ⟨400, 0⟩) ⟨400, 0⟩
            = some ⟨200 + t * (400 - 200), 500 + t * (0 - 500)⟩
        ∧ onBoundary scenarioBounds ⟨200 + t * (400 - 200), 500 + t * (0 - 500)⟩ :=
  have h1 : insideBounds scenarioBounds ⟨200, 500⟩ := by
    simp only [insideBounds, scenarioBounds]
    norm_num
  have h2 : insideBounds scenarioBounds ⟨400, 0⟩ := by
    simp only [insideBounds, scenarioBounds]
    norm_num
  have h3 : (⟨400, 0⟩ : Point) ≠ ⟨200, 500⟩ := by
    simp only [ne_eq, Point.mk.injEq, not_and]
    norm_num
  ⟨h1, h2, h3,
    (projection_on_border scenarioBounds ⟨200, 500⟩ ⟨400, 0⟩ h1 h2 h3).imp
      (fun _ h => ⟨h.1, h.2.1, h.2.2.1⟩)⟩

/-! ## Lemmas on the extraction of the lines -/

/-- The loop over the points of a shape pushes one line less than there are points. -/
theorem shapeLines_length (shape : Item) :
    ∀ pts : List Point, (shapeLines shape pts).length = pts.length - 1 := by
  intro pts
  induction pts with
  | nil => rfl
  | cons p rest ih =>
    cases rest with
    | nil => rfl
    | cons q rest1 =>
      simp only [shapeLines, List.length_cons] at ih ⊢
      omega

/-- The `i`-th line pushed for a list of points runs from point `i` to point `i + 1`. -/
theorem shapeLines_get (shape : Item) :
    ∀ (pts : List Point) (i : Nat),
      (shapeLines shape pts)[i]?
        = match pts[i]?, pts[i + 1]? with
          | some a, some c => some ⟨mapPoint shape a, mapPoint shape c, shape, shape.oneSided⟩
          | _, _ => none := by
  intro pts
  induction pts with
  | nil => intro i; rfl
  | cons p rest ih =>
    intro i
    cases rest with
    | nil =>
      cases i <;> rfl
    | cons q rest1 =>
      cases i with
      | zero =>
        simp only [shapeLines, List.getElem?_cons_zero, List.getElem?_cons_succ, zero_add,
          mapPoint]
      | succ j =>
        have h := ih j
        simp only [shapeLines, List.getElem?_cons_succ] at h ⊢
        exact h

/-- Every line pushed for a shape carries the shape and its `oneSided` entry. -/
theorem shapeLines_owner (shape : Item) :
    ∀ (pts : List Point), ∀ line ∈ shapeLines shape pts,
      line.originalShape = shape ∧ line.oneSided = shape.oneSided := by
  intro pts
  induction pts with
  | nil => intro line h; cases h
  | cons p rest ih =>
    cases rest with
    | nil => intro line h; cases h
    | cons q rest1 =>
      intro line h
      simp only [shapeLines, List.mem_cons] at h
      rcases h with h | h
      · rw [h]
        exact ⟨rfl, rfl⟩
      · exact ih line h

/-- C21: the lines of a list of shapes are the lines of each shape, in the order of the
shapes. A shape with `n` points gives `n - 1` lines, the `i`-th being `segmentOf shape i`:
from point `i` to point `i + 1`, each coordinate mapped to `point * scale + position`, with
the `oneSided` entry of the shape and the shape itself; so the end of a line is the start of
the next line of its shape. The shapes a pass gets are the items that pass
`isActiveVisionLine`: every line comes from an item flagged as vision line and not flagged
disabled, and an item flagged disabled or not flagged as vision line owns no line. -/
theorem lines_of_shapes (shapes items : List Item) (shape : Item) :
    visionLinesOf (shape :: shapes) = shapeLines shape shape.points ++ visionLinesOf shapes
    ∧ visionLinesOf [] = []
    ∧ (shapeLines shape shape.points).length = shape.points.length - 1
    ∧ (∀ i : Nat, (shapeLines shape shape.points)[i]? = segmentOf shape i)
    ∧ (∀ (i : Nat) (l1 l2 : VisionLine), (shapeLines shape shape.points)[i]? = some l1 →
        (shapeLines shape shape.points)[i + 1]? = some l2 → l1.endPosition = l2.startPosition)
    ∧ (∀ line ∈ shapeLines shape shape.points,
        line.originalShape = shape ∧ line.oneSided = shape.oneSided)
    ∧ (∀ line ∈ visionLinesOf (items.filter isActiveVisionLine),
        line.originalShape ∈ items ∧ line.originalShape.isVisionLine = true
          ∧ line.originalShape.disabled = false
          ∧ line.oneSided = line.originalShape.oneSided)
    ∧ (shape.disabled = true ∨ shape.isVisionLine = false →
        ∀ line ∈ visionLinesOf (items.filter isActiveVisionLine), line.originalShape ≠ shape) := by
  have hseg : ∀ i : Nat, (shapeLines shape shape.points)[i]? = segmentOf shape i := by
    intro i
    rw [shapeLines_get]
    rfl
  have hactive : ∀ line ∈ visionLinesOf (items.filter isActiveVisionLine),
      line.originalShape ∈ items ∧ line.originalShape.isVisionLine = true
        ∧ line.originalShape.disabled = false
        ∧ line.oneSided = line.originalShape.oneSided := by
    intro line hline
    unfold visionLinesOf at hline
    rw [List.mem_flatMap] at hline
    obtain ⟨owner, howner, hmem⟩ := hline
    obtain ⟨ho, hs⟩ := shapeLines_owner owner owner.points line hmem
    rw [List.mem_filter] at howner
    have hact := howner.2
    simp only [isActiveVisionLine, Bool.and_eq_true, Bool.not_eq_true'] at hact
    rw [ho]
    exact ⟨howner.1, hact.1, hact.2, hs⟩
  refine ⟨?_, rfl, shapeLines_length shape shape.points, hseg, ?_,
    shapeLines_owner shape shape.points, hactive, ?_⟩
  · simp only [visionLinesOf, List.flatMap_cons]
  · intro i l1 l2 h1 h2
    rw [hseg] at h1 h2
    unfold segmentOf at h1 h2
    cases ha : shape.points[i]? with
    | none => rw [ha] at h1; cases h1
    | some a =>
      cases hc : shape.points[i + 1]? with
      | none => rw [ha, hc] at h1; cases h1
      | some c =>
        cases hd : shape.points[i + 1 + 1]? with
        | none => rw [hc, hd] at h2; cases h2
        | some d =>
          rw [ha, hc] at h1
          rw [hc, hd] at h2
          simp only [Option.some.injEq] at h1 h2
          rw [← h1, ← h2]
  · intro hflag line hline heq
    obtain ⟨_, hv, hd, _⟩ := hactive line hline
    rw [heq] at hv hd
    rcases hflag with h | h
    · rw [h] at hd
      exact absurd hd (by decide)
    · rw [h] at hv
      exact absurd hv (by decide)

/-- Witness of `lines_of_shapes`: the wall of the scenario gives one line, and a disabled copy
of it gives none. -/
theorem lines_of_shapes_witness :
    (shapeLines (scenarioWall none true) (scenarioWall none true).points).length = 2 - 1
    ∧ ({ scenarioWall none true with disabled := true } : Item).disabled = true
    ∧ ∀ line ∈ visionLinesOf
          ([scenarioWall none true, { scenarioWall none true with disabled := true }].filter
            isActiveVisionLine),
        line.originalShape ≠ { scenarioWall none true with disabled := true } :=
  ⟨(lines_of_shapes [] [] (scenarioWall none true)).2.2.1, rfl,
    (lines_of_shapes []
      [scenarioWall none true, { scenarioWall none true with disabled := true }]
      { scenarioWall none true with disabled := true }).2.2.2.2.2.2.2 (Or.inl rfl)⟩

/-! ## The change detector between two launches -/

/-- The `previous...` variables after a launch hold the keys of the scene, each written out
from the scene and its background image. -/
theorem store_keysOf (ext : Externals) (sc : SceneCache) (bg : Item) :
    store (keysOf ext sc bg)
      = { map := some (ext.stringifyItem bg)
          playersWithVision := some (ext.stringifyItems (sc.items.filter isPlayerWithVision))
          visionShapes := some (ext.stringifyItems (sc.items.filter isActiveVisionLine))
          size := some (bg.imageWidth * (sc.gridDpi / bg.gridDpi),
            bg.imageHeight * (sc.gridDpi / bg.gridDpi))
          visionEnabled := some sc.metadata.visionEnabled
          autodetectEnabled := some sc.metadata.autodetectEnabled
          fowEnabled := some sc.metadata.fowEnabled
          fowColor := sc.metadata.fowColor
          persistenceEnabled := some sc.metadata.persistenceEnabled } := rfl

/-- The event of a launch, written out from the scene and its background image. -/
theorem eventDetail_keysOf (ext : Externals) (sc : SceneCache) (bg : Item)
    (invalidateCache : Bool) :
    eventDetail sc bg (keysOf ext sc bg) invalidateCache
      = { metadata := sc.metadata
          size := (bg.imageWidth * (sc.gridDpi / bg.gridDpi),
            bg.imageHeight * (sc.gridDpi / bg.gridDpi))
          offset := bg.position
          scale := bg.scale
          playersWithVision := sc.items.filter isPlayerWithVision
          visionShapes := sc.items.filter isActiveVisionLine
          invalidateCache := invalidateCache } := rfl

/-- The keys stored at the launch on one scene are the keys of another scene exactly when the
ten compared values agree. -/
theorem store_eq_iff (ext : Externals) (sc0 sc : SceneCache) (bg0 bg : Item) :
    store (keysOf ext sc0 bg0) = store (keysOf ext sc bg)
      ↔ (ext.stringifyItem bg = ext.stringifyItem bg0
          ∧ sc.metadata.visionEnabled = sc0.metadata.visionEnabled
          ∧ sc.metadata.autodetectEnabled = sc0.metadata.autodetectEnabled
          ∧ sc.metadata.fowEnabled = sc0.metadata.fowEnabled
          ∧ sc.metadata.fowColor = sc0.metadata.fowColor
          ∧ sc.metadata.persistenceEnabled = sc0.metadata.persistenceEnabled
          ∧ ext.stringifyItems (sc.items.filter isActiveVisionLine)
              = ext.stringifyItems (sc0.items.filter isActiveVisionLine)
          ∧ ext.stringifyItems (sc.items.filter isPlayerWithVision)
              = ext.stringifyItems (sc0.items.filter isPlayerWithVision)
          ∧ bg.imageWidth * (sc.gridDpi / bg.gridDpi)
              = bg0.imageWidth * (sc0.gridDpi / bg0.gridDpi)
          ∧ bg.imageHeight * (sc.gridDpi / bg.gridDpi)
              = bg0.imageHeight * (sc0.gridDpi / bg0.gridDpi)) := by
  rw [store_keysOf, store_keysOf]
  simp only [Previous.mk.injEq, Option.some.injEq, Prod.mk.injEq]
  constructor
  · rintro ⟨h1, h2, ⟨h3, h4⟩, h5, h6, h7, h8, h9, h10⟩
    exact ⟨h9.symm, h5.symm, h6.symm, h7.symm, h10.symm, h8.symm, h1.symm, h2.symm, h3.symm,
      h4.symm⟩
  · rintro ⟨h1, h2, h3, h4, h5, h6, h7, h8, h9, h10⟩
    exact ⟨h7.symm, h8.symm, ⟨h9.symm, h10.symm⟩, h2.symm, h3.symm, h4.symm, h6.symm, h1.symm,
      h5.symm⟩

/-- C4: on a scene with a background image, while no pass is busy and the scene is ready,
after a launch on a scene `sc0` with background image `bg0` (the previous pass): the call
returns without launching a pass exactly when the ten compared values of the scene (the
serialized background image, the five toggles and the colour, the serialized shapes, the
serialized observers, the width and the height) are those of `sc0` and `forceUpdate` is not
`true`, and it then leaves the `previous...` variables alone; in every other case, and so
whenever `forceUpdate` is `true`, it stores the values of the scene and dispatches the event
made of the scene. Before any launch, with all variables `undefined`, the call always
launches. -/
theorem skip_iff_keys_unchanged (ext : Externals) (busy0 ready0 : Bool) (prev0 prev : Previous)
    (sc0 sc : SceneCache) (bg0 bg : Item) (force0 forceUpdate : Option Bool) (detail0 : Detail)
    (hbg0 : (sc0.items.filter isBackgroundImage).head? = some bg0)
    (hlaunch : onSceneDataChange ext busy0 ready0 prev0 sc0 force0
      = (prev, Dispatch.dispatched detail0))
    (hbg : (sc.items.filter isBackgroundImage).head? = some bg) :
    (onSceneDataChange ext false true prev sc forceUpdate = (prev, Dispatch.returned)
      ↔ ((ext.stringifyItem bg = ext.stringifyItem bg0
          ∧ sc.metadata.visionEnabled = sc0.metadata.visionEnabled
          ∧ sc.metadata.autodetectEnabled = sc0.metadata.autodetectEnabled
          ∧ sc.metadata.fowEnabled = sc0.metadata.fowEnabled
          ∧ sc.metadata.fowColor = sc0.metadata.fowColor
          ∧ sc.metadata.persistenceEnabled = sc0.metadata.persistenceEnabled
          ∧ ext.stringifyItems (sc.items.filter isActiveVisionLine)
              = ext.stringifyItems (sc0.items.filter isActiveVisionLine)
          ∧ ext.stringifyItems (sc.items.filter isPlayerWithVision)
              = ext.stringifyItems (sc0.items.filter isPlayerWithVision)
          ∧ bg.imageWidth * (sc.gridDpi / bg.gridDpi)
              = bg0.imageWidth * (sc0.gridDpi / bg0.gridDpi)
          ∧ bg.imageHeight * (sc.gridDpi / bg.gridDpi)
              = bg0.imageHeight * (sc0.gridDpi / bg0.gridDpi))
        ∧ forceUpdate ≠ some true))
    ∧ (onSceneDataChange ext false true prev sc forceUpdate ≠ (prev, Dispatch.returned)
      → ∃ invalidateCache : Bool,
          onSceneDataChange ext false true prev sc forceUpdate
            = ({ map := some (ext.stringifyItem bg)
                 playersWithVision :=
                   some (ext.stringifyItems (sc.items.filter isPlayerWithVision))
                 visionShapes := some (ext.stringifyItems (sc.items.filter isActiveVisionLine))
                 size := some (bg.imageWidth * (sc.gridDpi / bg.gridDpi),
                   bg.imageHeight * (sc.gridDpi / bg.gridDpi))
                 visionEnabled := some sc.metadata.visionEnabled
                 autodetectEnabled := some sc.metadata.autodetectEnabled
                 fowEnabled := some sc.metadata.fowEnabled
                 fowColor := sc.metadata.fowColor
                 persistenceEnabled := some sc.metadata.persistenceEnabled },
               Dispatch.dispatched
                 { metadata := sc.metadata
                   size := (bg.imageWidth * (sc.gridDpi / bg.gridDpi),
                     bg.imageHeight * (sc.gridDpi / bg.gridDpi))
                   offset := bg.position
                   scale := bg.scale
                   playersWithVision := sc.items.filter isPlayerWithVision
                   visionShapes := sc.items.filter isActiveVisionLine
                   invalidateCache := invalidateCache }))
    ∧ (forceUpdate = some true
      → onSceneDataChange ext false true prev sc forceUpdate ≠ (prev, Dispatch.returned))
    ∧ (∀ force : Option Bool, ∃ detail : Detail,
        (onSceneDataChange ext false true {} sc force).2 = Dispatch.dispatched detail) := by
  obtain ⟨_, _, hprev, _, _⟩ :=
    dispatched_inv ext busy0 ready0 prev0 prev sc0 bg0 force0 detail0 hbg0 hlaunch
  have hreach : prev.reachable := Or.inr ⟨_, hprev⟩
  obtain ⟨hiff, hne, _⟩ := skip_iff_stored ext prev sc bg forceUpdate hreach hbg
  rw [← eq_store_iff] at hiff
  have hskip : onSceneDataChange ext false true prev sc forceUpdate = (prev, Dispatch.returned)
      ↔ (prev = store (keysOf ext sc bg) ∧ forceUpdate ≠ some true) := by
    constructor
    · intro h
      exact hiff.mp (by rw [h])
    · intro h
      rw [onSceneDataChange_eval ext prev sc bg forceUpdate hbg,
        unchanged_reachable prev _ forceUpdate hreach, decide_eq_true h]
  have hfst : (onSceneDataChange ext false true prev sc forceUpdate).2 = Dispatch.returned
      → onSceneDataChange ext false true prev sc forceUpdate = (prev, Dispatch.returned) :=
    fun hr => hskip.mpr (hiff.mp hr)
  refine ⟨?_, ?_, ?_, ?_⟩
  · rw [hskip, hprev, store_eq_iff]
  · intro hnot
    have hnr : (onSceneDataChange ext false true prev sc forceUpdate).2 ≠ Dispatch.returned :=
      fun hr => hnot (hfst hr)
    obtain ⟨inv, heq⟩ := hne hnr
    exact ⟨inv, heq⟩
  · intro hf hr
    exact (hskip.mp hr).2 hf
  · intro force
    rw [onSceneDataChange_eval ext {} sc bg force hbg, unchanged_initial, invalidates_initial]
    exact ⟨_, rfl⟩

/-- The first call on the example scene with `watchingExt` launches a pass. -/
theorem watching_first_call :
    onSceneDataChange watchingExt false true {} exampleScene none
      = (store (keysOf watchingExt exampleScene exampleMap),
          Dispatch.dispatched
            (eventDetail exampleScene exampleMap (keysOf watchingExt exampleScene exampleMap)
              true)) := by
  rw [onSceneDataChange_eval watchingExt {} exampleScene exampleMap none
    exampleScene_background, unchanged_initial, invalidates_initial]

theorem movedScene_background :
    (movedScene.items.filter isBackgroundImage).head? = some exampleMap := by
  decide

/-- The serialized observers of the example scene and of the scene after the move differ. -/
theorem watching_observers_differ :
    watchingExt.stringifyItems (movedScene.items.filter isPlayerWithVision)
      ≠ watchingExt.stringifyItems (exampleScene.items.filter isPlayerWithVision) := by
  decide

/-- Witness of `skip_iff_keys_unchanged`: after the launch on the example scene, a call on
the same scene is skipped, and a call after the observer has moved is not. -/
theorem skip_iff_keys_unchanged_witness :
    ((exampleScene.items.filter isBackgroundImage).head? = some exampleMap
      ∧ (movedScene.items.filter isBackgroundImage).head? = some exampleMap
      ∧ onSceneDataChange watchingExt false true {} exampleScene none
          = (store (keysOf watchingExt exampleScene exampleMap),
              Dispatch.dispatched
                (eventDetail exampleScene exampleMap
                  (keysOf watchingExt exampleScene exampleMap) true)))
    ∧ onSceneDataChange watchingExt false true
          (store (keysOf watchingExt exampleScene exampleMap)) exampleScene none
        = (store (keysOf watchingExt exampleScene exampleMap), Dispatch.returned)
    ∧ onSceneDataChange watchingExt false true
          (store (keysOf watchingExt exampleScene exampleMap)) movedScene none
        ≠ (store (keysOf watchingExt exampleScene exampleMap), Dispatch.returned) :=
  ⟨⟨exampleScene_background, movedScene_background, watching_first_call⟩,
    (skip_iff_keys_unchanged watchingExt false true {} _ exampleScene exampleScene exampleMap
      exampleMap none none _ exampleScene_background watching_first_call
      exampleScene_background).1.mpr
      ⟨⟨rfl, rfl, rfl, rfl, rfl, rfl, rfl, rfl, rfl, rfl⟩, by simp⟩,
    fun h =>
      watching_observers_differ
        ((skip_iff_keys_unchanged watchingExt false true {} _ exampleScene movedScene exampleMap
          exampleMap none none _ exampleScene_background watching_first_call
          movedScene_background).1.mp h).1.2.2.2.2.2.2.2.1⟩

/-- C5: whenever `onSceneDataChange` launches a pass after a launch on a scene `sc0` with
background image `bg0` (the previous pass), the flag `invalidateCache` of the event is true
exactly when the serialized background image, the serialized shapes, the width or the
height differ from those of `sc0`; so a change of the observers or of the toggles alone
gives `false`. The first launch, with all variables `undefined`, gives `true`. -/
theorem invalidateCache_iff (ext : Externals) (busy0 ready0 busy ready : Bool)
    (prev0 prev prev1 : Previous) (sc0 sc : SceneCache) (bg0 bg : Item)
    (force0 forceUpdate : Option Bool) (detail0 detail : Detail)
    (hbg0 : (sc0.items.filter isBackgroundImage).head? = some bg0)
    (hlaunch : onSceneDataChange ext busy0 ready0 prev0 sc0 force0
      = (prev, Dispatch.dispatched detail0))
    (hbg : (sc.items.filter isBackgroundImage).head? = some bg)
    (h : onSceneDataChange ext busy ready prev sc forceUpdate
      = (prev1, Dispatch.dispatched detail)) :
    (detail.invalidateCache = true
      ↔ (ext.stringifyItem bg ≠ ext.stringifyItem bg0
          ∨ ext.stringifyItems (sc.items.filter isActiveVisionLine)
              ≠ ext.stringifyItems (sc0.items.filter isActiveVisionLine)
          ∨ bg.imageWidth * (sc.gridDpi / bg.gridDpi)
              ≠ bg0.imageWidth * (sc0.gridDpi / bg0.gridDpi)
          ∨ bg.imageHeight * (sc.gridDpi / bg.gridDpi)
              ≠ bg0.imageHeight * (sc0.gridDpi / bg0.gridDpi)))
    ∧ (ext.stringifyItem bg = ext.stringifyItem bg0
        → ext.stringifyItems (sc.items.filter isActiveVisionLine)
            = ext.stringifyItems (sc0.items.filter isActiveVisionLine)
        → bg.imageWidth * (sc.gridDpi / bg.gridDpi) = bg0.imageWidth * (sc0.gridDpi / bg0.gridDpi)
        → bg.imageHeight * (sc.gridDpi / bg.gridDpi)
            = bg0.imageHeight * (sc0.gridDpi / bg0.gridDpi)
        → detail.invalidateCache = false)
    ∧ (∀ (busy1 ready1 : Bool) (force1 : Option Bool) (prev2 : Previous) (detail1 : Detail),
        onSceneDataChange ext busy1 ready1 {} sc force1 = (prev2, Dispatch.dispatched detail1)
        → detail1.invalidateCache = true) := by
  obtain ⟨_, _, hprev, _, _⟩ :=
    dispatched_inv ext busy0 ready0 prev0 prev sc0 bg0 force0 detail0 hbg0 hlaunch
  have key := (invalidateCache_iff_stored ext busy ready prev prev1 sc bg forceUpdate detail hbg
    h).1
  rw [hprev, store_keysOf] at key
  simp only [keysOf, Option.map_some', ne_eq, Option.some.injEq] at key
  have hiff : detail.invalidateCache = true
      ↔ (ext.stringifyItem bg ≠ ext.stringifyItem bg0
          ∨ ext.stringifyItems (sc.items.filter isActiveVisionLine)
              ≠ ext.stringifyItems (sc0.items.filter isActiveVisionLine)
          ∨ bg.imageWidth * (sc.gridDpi / bg.gridDpi)
              ≠ bg0.imageWidth * (sc0.gridDpi / bg0.gridDpi)
          ∨ bg.imageHeight * (sc.gridDpi / bg.gridDpi)
              ≠ bg0.imageHeight * (sc0.gridDpi / bg0.gridDpi)) := by
    rw [key]
    constructor
    · rintro (h1 | h1 | h1 | h1)
      · exact Or.inl (fun e => h1 e.symm)
      · exact Or.inr (Or.inl (fun e => h1 e.symm))
      · exact Or.inr (Or.inr (Or.inl (fun e => h1 e.symm)))
      · exact Or.inr (Or.inr (Or.inr (fun e => h1 e.symm)))
    · rintro (h1 | h1 | h1 | h1)
      · exact Or.inl (fun e => h1 e.symm)
      · exact Or.inr (Or.inl (fun e => h1 e.symm))
      · exact Or.inr (Or.inr (Or.inl (fun e => h1 e.symm)))
      · exact Or.inr (Or.inr (Or.inr (fun e => h1 e.symm)))
  refine ⟨hiff, ?_, ?_⟩
  · intro h1 h2 h3 h4
    rw [← Bool.not_eq_true, hiff]
    rintro (h5 | h5 | h5 | h5)
    · exact h5 h1
    · exact h5 h2
    · exact h5 h3
    · exact h5 h4
  · intro busy1 ready1 force1 prev2 detail1 h1
    obtain ⟨_, _, _, hi, _⟩ :=
      dispatched_inv ext busy1 ready1 {} prev2 sc bg force1 detail1 hbg h1
    rw [invalidates_initial] at hi
    exact (Option.some.inj hi).symm

/-- The call on the scene after the move of the observer launches a pass that keeps the
cache. -/
theorem watching_second_call :
    onSceneDataChange watchingExt false true (store (keysOf watchingExt exampleScene exampleMap))
        movedScene none
      = (store (keysOf watchingExt movedScene exampleMap),
          Dispatch.dispatched
            (eventDetail movedScene exampleMap (keysOf watchingExt movedScene exampleMap)
              false)) := by
  rw [onSceneDataChange_eval watchingExt _ movedScene exampleMap none movedScene_background,
    unchanged_store, invalidates_store]
  have hne : ¬ (store (keysOf watchingExt exampleScene exampleMap)
      = store (keysOf watchingExt movedScene exampleMap) ∧ (none : Option Bool) ≠ some true) := by
    rintro ⟨h, _⟩
    exact watching_observers_differ ((store_eq_iff _ _ _ _ _).mp h).2.2.2.2.2.2.2.1
  have hsame : ¬ ((keysOf watchingExt exampleScene exampleMap).sBackgroundImage
        ≠ (keysOf watchingExt movedScene exampleMap).sBackgroundImage
      ∨ (keysOf watchingExt exampleScene exampleMap).sVisionShapes
        ≠ (keysOf watchingExt movedScene exampleMap).sVisionShapes
      ∨ (keysOf watchingExt exampleScene exampleMap).size
        ≠ (keysOf watchingExt movedScene exampleMap).size) := by
    rintro (h | h | h)
    · exact h rfl
    · exact h rfl
    · exact h rfl
  rw [decide_eq_false hne, decide_eq_false hsame]

/-- Witness of `invalidateCache_iff`: after the launch on the example scene the observer
moves; the next call launches a pass whose event has `invalidateCache = false`. -/
theorem invalidateCache_iff_witness :
    ((exampleScene.items.filter isBackgroundImage).head? = some exampleMap
      ∧ (movedScene.items.filter isBackgroundImage).head? = some exampleMap
      ∧ onSceneDataChange watchingExt false true {} exampleScene none
          = (store (keysOf watchingExt exampleScene exampleMap),
              Dispatch.dispatched
                (eventDetail exampleScene exampleMap
                  (keysOf watchingExt exampleScene exampleMap) true))
      ∧ onSceneDataChange watchingExt false true
            (store (keysOf watchingExt exampleScene exampleMap)) movedScene none
          = (store (keysOf watchingExt movedScene exampleMap),
              Dispatch.dispatched
                (eventDetail movedScene exampleMap (keysOf watchingExt movedScene exampleMap)
                  false)))
    ∧ (eventDetail movedScene exampleMap (keysOf watchingExt movedScene exampleMap)
        false).invalidateCache = false
    ∧ (eventDetail movedScene exampleMap (keysOf watchingExt movedScene exampleMap)
        false).playersWithVision = [movedObserver] :=
  ⟨⟨exampleScene_background, movedScene_background, watching_first_call, watching_second_call⟩,
    (invalidateCache_iff watchingExt false true false true {} _ _ exampleScene movedScene
      exampleMap exampleMap none none _ _ exampleScene_background watching_first_call
      movedScene_background watching_second_call).2.1 rfl rfl rfl rfl,
    by decide⟩

/-- C6, as stated, fails: a first call made while a pass is in flight returns at the gate
`if (busy)` and stores nothing; the second call on the same scene, made once that pass has
finished, finds the `previous...` variables as they were and launches a pass. The same
happens when the first call finds the scene not ready. -/
theorem dropped_first_call_stores_nothing :
    onSceneDataChange exampleExt true true {} exampleScene none = ({}, Dispatch.returned)
    ∧ onSceneDataChange exampleExt false false {} exampleScene none = ({}, Dispatch.returned)
    ∧ onSceneDataChange exampleExt false true {} exampleScene none
        = (store (keysOf exampleExt exampleScene exampleMap),
            Dispatch.dispatched
              (eventDetail exampleScene exampleMap (keysOf exampleExt exampleScene exampleMap)
                true)) :=
  ⟨onSceneDataChange_gate exampleExt true true {} exampleScene none (Or.inl rfl),
    onSceneDataChange_gate exampleExt false false {} exampleScene none (Or.inr (Or.inl rfl)),
    exampleScene_first_call none⟩

/-- C6, amended: two calls of `onSceneDataChange` in a row on the same scene, the second
without the force flag, from any state the `previous...` variables can be in. When the first
call launches a pass, it has stored the values of the scene as the previous ones, and the
second call returns without an event and leaves the variables alone, whatever the flag
`busy` and the readiness are by then. A first call that meets the flag `busy`, a scene that
is not ready or a scene without background image returns and stores nothing. When the first
call returns without an event and the second call finds the same flag `busy` and the same
readiness, the second call returns without an event too. -/
theorem second_call_dispatches_nothing (ext : Externals) (busy ready busy2 ready2 : Bool)
    (prev : Previous) (sc : SceneCache) (force1 force2 : Option Bool)
    (hreach : prev.reachable) (hforce : force2 ≠ some true) :
    (∀ (prev1 : Previous) (detail : Detail),
        onSceneDataChange ext busy ready prev sc force1 = (prev1, Dispatch.dispatched detail) →
        (∃ bg, (sc.items.filter isBackgroundImage).head? = some bg
          ∧ prev1
              = { map := some (ext.stringifyItem bg)
                  playersWithVision :=
                    some (ext.stringifyItems (sc.items.filter isPlayerWithVision))
                  visionShapes := some (ext.stringifyItems (sc.items.filter isActiveVisionLine))
                  size := some (bg.imageWidth * (sc.gridDpi / bg.gridDpi),
                    bg.imageHeight * (sc.gridDpi / bg.gridDpi))
                  visionEnabled := some sc.metadata.visionEnabled
                  autodetectEnabled := some sc.metadata.autodetectEnabled
                  fowEnabled := some sc.metadata.fowEnabled
                  fowColor := sc.metadata.fowColor
                  persistenceEnabled := some sc.metadata.persistenceEnabled })
        ∧ onSceneDataChange ext busy2 ready2 prev1 sc force2 = (prev1, Dispatch.returned))
    ∧ (busy = true ∨ ready = false ∨ (sc.items.filter isBackgroundImage).head? = none →
        onSceneDataChange ext busy ready prev sc force1 = (prev, Dispatch.returned))
    ∧ ((onSceneDataChange ext busy ready prev sc force1).2 = Dispatch.returned →
        busy2 = busy → ready2 = ready →
        onSceneDataChange ext busy2 ready2 (onSceneDataChange ext busy ready prev sc force1).1 sc
            force2
          = ((onSceneDataChange ext busy ready prev sc force1).1, Dispatch.returned)) := by
  refine ⟨?_, onSceneDataChange_gate ext busy ready prev sc force1, ?_⟩
  · intro prev1 detail h
    have hbg : ∃ bg, (sc.items.filter isBackgroundImage).head? = some bg := by
      cases hq : (sc.items.filter isBackgroundImage).head? with
      | none =>
        rw [onSceneDataChange_gate ext busy ready prev sc force1 (Or.inr (Or.inr hq))] at h
        cases h
      | some bg => exact ⟨bg, rfl⟩
    obtain ⟨bg, hbg⟩ := hbg
    obtain ⟨_, _, hprev, _, _⟩ := dispatched_inv ext busy ready prev prev1 sc bg force1 detail hbg h
    refine ⟨⟨bg, hbg, ?_⟩, ?_⟩
    · rw [hprev, store_keysOf]
    · cases busy2 with
      | true => exact onSceneDataChange_gate ext true ready2 prev1 sc force2 (Or.inl rfl)
      | false =>
        cases ready2 with
        | false =>
          exact onSceneDataChange_gate ext false false prev1 sc force2 (Or.inr (Or.inl rfl))
        | true =>
          rw [hprev, onSceneDataChange_eval ext _ sc bg force2 hbg, unchanged_store,
            decide_eq_true ⟨rfl, hforce⟩]
  · intro _ hb hr
    subst hb hr
    exact (second_call_same_gates ext busy2 ready2 busy2 prev sc force1 force2 hreach hforce
      (Or.inl rfl)).1

/-- Witness of `second_call_dispatches_nothing`: the first call on the example scene launches
a pass; the second returns, while the pass is in flight and after it has finished. -/
theorem second_call_dispatches_nothing_witness :
    (({} : Previous).reachable ∧ (none : Option Bool) ≠ some true
      ∧ onSceneDataChange exampleExt false true {} exampleScene none
          = (store (keysOf exampleExt exampleScene exampleMap),
              Dispatch.dispatched
                (eventDetail exampleScene exampleMap (keysOf exampleExt exampleScene exampleMap)
                  true)))
    ∧ onSceneDataChange exampleExt true true (store (keysOf exampleExt exampleScene exampleMap))
          exampleScene none
        = (store (keysOf exampleExt exampleScene exampleMap), Dispatch.returned)
    ∧ onSceneDataChange exampleExt false true (store (keysOf exampleExt exampleScene exampleMap))
          exampleScene none
        = (store (keysOf exampleExt exampleScene exampleMap), Dispatch.returned) :=
  ⟨⟨Or.inl rfl, by simp, exampleScene_first_call none⟩,
    ((second_call_dispatches_nothing exampleExt false true true true {} exampleScene none none
      (Or.inl rfl) (by simp)).1 _ _ (exampleScene_first_call none)).2,
    ((second_call_dispatches_nothing exampleExt false true false true {} exampleScene none none
      (Or.inl rfl) (by simp)).1 _ _ (exampleScene_first_call none)).2⟩

/-! ## Passes that end early and the cache -/

/-- A second step that fails stopped at one player: the entries of the ids of that player and
of the later ones are as they were, unless an earlier player has the same id. -/
theorem composeAll_failed_split (ext : Externals) (b : Bounds) :
    ∀ (l : List (Item × List ShadowPolygon)) (st st1 : ComposeState),
      composeAll ext b st l = ComposeResult.failed st1 →
      ∃ pre pr post, l = pre ++ pr :: post
        ∧ ∀ key, key ∉ pre.map (fun pr => pr.1.id) →
            st1.cache.getValue key = st.cache.getValue key := by
  intro l
  induction l with
  | nil =>
    intro st st1 h
    cases h
  | cons pr rest ih =>
    obtain ⟨player, polys⟩ := pr
    intro st st1 h
    cases hc : cachedPath st.cache player with
    | some cached =>
      rw [composeAll_hit ext b st player polys rest cached hc] at h
      obtain ⟨pre, pr, post, hl, hframe⟩ := ih _ st1 h
      refine ⟨(player, polys) :: pre, pr, post, by rw [hl]; rfl, ?_⟩
      intro key hkey
      simp only [List.map_cons, List.mem_cons, not_or] at hkey
      exact hframe key hkey.2
    | none =>
      rw [composeAll_miss ext b st player polys rest hc] at h
      cases hr : composeRegion b polys with
      | none => rw [hr] at h; cases h
      | some path =>
        rw [hr] at h
        simp only at h
        split_ifs at h with hfail
        · simp only [ComposeResult.failed.injEq] at h
          subst h
          exact ⟨[], (player, polys), rest, rfl, fun _ _ => rfl⟩
        · obtain ⟨pre, pr, post, hl, hframe⟩ := ih _ st1 h
          refine ⟨(player, polys) :: pre, pr, post, by rw [hl]; rfl, ?_⟩
          intro key hkey
          simp only [List.map_cons, List.mem_cons, not_or] at hkey
          rw [hframe key hkey.2]
          exact getValue_cacheValue_ne _ _ _ _ hkey.1

/-- A pass that ends as failed went through the first step and stopped in the second. -/
theorem computeShadow_failed_inv (ext : Externals) (ready : Bool) (cache : ObjectCache)
    (sceneItems localItems : List Item) (sc : SceneCache) (detail : Detail)
    (h : (computeShadow ext ready cache sceneItems localItems sc detail).outcome = Outcome.failed) :
    ∃ b polygons st,
      allPolygons ext.tolerance b (startCache cache detail) (visionLinesOf detail.visionShapes)
          detail.playersWithVision = some polygons
      ∧ composeAll ext b ⟨startCache cache detail, 0, 0, []⟩
          (detail.playersWithVision.zip polygons) = ComposeResult.failed st
      ∧ (computeShadow ext ready cache sceneItems localItems sc detail).cache = st.cache
      ∧ (computeShadow ext ready cache sceneItems localItems sc detail).report = none := by
  rcases computeShadow_cases ext ready cache sceneItems localItems sc detail with
    ⟨_, heq⟩ | ⟨_, _, heq⟩ | ⟨_, _, _, heq⟩
  · rw [heq] at h; cases h
  · rw [heq] at h; cases h
  · rw [heq] at h ⊢
    cases hb : passBounds sc sceneItems detail with
    | none => rw [hb] at h; cases h
    | some b =>
      rw [hb] at h
      simp only at h ⊢
      cases hp : allPolygons ext.tolerance b (startCache cache detail)
          (visionLinesOf detail.visionShapes) detail.playersWithVision with
      | none => rw [hp] at h; cases h
      | some polygons =>
        rw [hp] at h
        simp only at h ⊢
        cases hc : composeAll ext b ⟨startCache cache detail, 0, 0, []⟩
            (detail.playersWithVision.zip polygons) with
        | threw st => rw [hc] at h; cases h
        | done st => rw [hc] at h; cases h
        | failed st => exact ⟨b, polygons, st, hp, hc, rfl, rfl⟩

/-- C7, amended: in every pass without invalidation of the cache, the ids of the observers
being distinct. When the pass runs to completion: for every observer that has a cache entry
whose stored position is the observer's position no shadow is cast, the composed region is
the cached path, the entry is kept and one hit is counted; every other observer is
recomputed (its shadows are cast and composed), one miss is counted and its entry is
overwritten with the new region and the observer; the region returned is the composed one
after the range clipping. When the pass ends early, because vision is disabled or no
observer has vision, it reports no counters and leaves the cache as it was; when it ends
early at a failed composition, it reports no counters and has written neither the entry of
the observer at which it stops nor those of the later ones. -/
theorem cache_hit_and_miss (ext : Externals) (ready : Bool) (cache : ObjectCache)
    (sceneItems localItems : List Item) (sc : SceneCache) (detail : Detail)
    (hinv : detail.invalidateCache = false)
    (hids : (detail.playersWithVision.map (fun player => player.id)).Nodup) :
    ((computeShadow ext ready cache sceneItems localItems sc detail).outcome = Outcome.completed →
        CacheContract ext cache sceneItems sc detail
          (computeShadow ext ready cache sceneItems localItems sc detail))
    ∧ ((computeShadow ext ready cache sceneItems localItems sc detail).outcome = Outcome.cleared →
        (detail.metadata.visionEnabled = false ∨ detail.playersWithVision = [])
        ∧ (computeShadow ext ready cache sceneItems localItems sc detail).report = none
        ∧ (computeShadow ext ready cache sceneItems localItems sc detail).cache = cache)
    ∧ ((computeShadow ext ready cache sceneItems localItems sc detail).outcome = Outcome.failed →
        (computeShadow ext ready cache sceneItems localItems sc detail).report = none
        ∧ ∃ earlier stopped later,
            detail.playersWithVision = earlier ++ stopped :: later
            ∧ ∀ player ∈ stopped :: later,
                (computeShadow ext ready cache sceneItems localItems sc detail).cache.getValue
                    player.id
                  = cache.getValue player.id) := by
  have hstart : startCache cache detail = cache := by
    unfold startCache
    rw [hinv]
    rfl
  refine ⟨cache_contract_of_completed ext ready cache sceneItems localItems sc detail hinv hids, ?_, ?_⟩
  · intro h
    rcases computeShadow_cases ext ready cache sceneItems localItems sc detail with
      ⟨_, heq⟩ | ⟨_, hv, heq⟩ | ⟨_, _, _, heq⟩
    · rw [heq] at h; cases h
    · rw [heq, hstart]
      exact ⟨hv, rfl, rfl⟩
    · rw [heq] at h
      cases hb : passBounds sc sceneItems detail with
      | none => rw [hb] at h; cases h
      | some b =>
        rw [hb] at h
        simp only at h
        cases hp : allPolygons ext.tolerance b (startCache cache detail)
            (visionLinesOf detail.visionShapes) detail.playersWithVision with
        | none => rw [hp] at h; cases h
        | some polygons =>
          rw [hp] at h
          simp only at h
          cases hc : composeAll ext b ⟨startCache cache detail, 0, 0, []⟩
              (detail.playersWithVision.zip polygons) with
          | threw st => rw [hc] at h; cases h
          | failed st => rw [hc] at h; cases h
          | done st =>
            rw [hc] at h
            simp only [finishPass_outcome] at h
            cases h
  · intro h
    obtain ⟨b, polygons, st, hpoly, hcomp, hcache, hreport⟩ :=
      computeShadow_failed_inv ext ready cache sceneItems localItems sc detail h
    rw [hstart] at hpoly hcomp
    refine ⟨hreport, ?_⟩
    have hspec := allPolygons_spec ext.tolerance b cache (visionLinesOf detail.visionShapes)
      detail.playersWithVision polygons hpoly
    have hfst : (detail.playersWithVision.zip polygons).map Prod.fst = detail.playersWithVision :=
      List.map_fst_zip _ _ (le_of_eq hspec.length_eq)
    obtain ⟨pre, pr, post, hl, hframe⟩ :=
      composeAll_failed_split ext b (detail.playersWithVision.zip polygons) _ st hcomp
    have hplayers : detail.playersWithVision
        = pre.map Prod.fst ++ pr.1 :: post.map Prod.fst := by
      rw [← hfst, hl, List.map_append, List.map_cons]
    refine ⟨pre.map Prod.fst, pr.1, post.map Prod.fst, hplayers, ?_⟩
    intro player hplayer
    rw [hcache]
    apply hframe
    rw [hplayers, List.map_append, List.nodup_append] at hids
    intro hmem
    have hmem1 : player.id ∈ (pre.map Prod.fst).map (fun player => player.id) := by
      rw [List.map_map]
      exact hmem
    exact hids.2.2 hmem1 (List.mem_map_of_mem (fun player => player.id) hplayer)

/-- The pass on `twinDetail` from `twinCache`: the first player is a cache hit, the second is
composed anew. -/
theorem twin_pass_hit (sceneItems localItems : List Item) (sc : SceneCache)
    (hauto : sc.metadata.autodetectEnabled = false) :
    computeShadow exampleExt true twinCache sceneItems localItems sc twinDetail
      = finishPass exampleExt sceneItems localItems sc [firstTwin, secondTwin] scenarioBounds
          [[], []]
          ⟨[("second", ⟨Path.rect 0 0 1000 1000, secondTwin⟩),
            ("first", ⟨Path.rect 0 0 1000 1000, firstTwin⟩)],
            1, 1, [Path.rect 0 0 1000 1000, Path.rect 0 0 1000 1000]⟩ := by
  apply computeShadow_done exampleExt twinCache sceneItems localItems sc twinDetail scenarioBounds
  · unfold passBounds
    rw [hauto]
    rfl
  · rfl
  · exact List.cons_ne_nil _ _
  · show allPolygons exampleExt.tolerance scenarioBounds twinCache (visionLinesOf [])
      [firstTwin, secondTwin] = _
    have h1 : isCached twinCache firstTwin = true := by decide
    have h2 : isCached twinCache secondTwin = false := by decide
    simp only [allPolygons, playerPolygons, h1, h2, if_true, Bool.false_eq_true, if_false,
      visionLinesOf, List.flatMap_nil, castAll_nil, Option.map_some']
  · show composeAll exampleExt scenarioBounds ⟨twinCache, 0, 0, []⟩
      [(firstTwin, []), (secondTwin, [])] = _
    rw [composeAll_hit exampleExt scenarioBounds ⟨twinCache, 0, 0, []⟩ firstTwin [] _
      (Path.rect 0 0 1000 1000) (by decide)]
    rw [composeAll_miss exampleExt scenarioBounds _ secondTwin [] _ (by decide),
      scenario_compose_nil]
    simp only [exampleExt_resolves, Bool.false_eq_true, if_false]
    rfl

/-- Witness of `cache_hit_and_miss`: the pass on two observers of which the first has a cache
entry at its position: one hit and one miss are reported, and the contract holds. -/
theorem cache_hit_and_miss_witness :
    (twinDetail.invalidateCache = false
      ∧ (twinDetail.playersWithVision.map (fun player => player.id)).Nodup
      ∧ isCached twinCache firstTwin = true ∧ isCached twinCache secondTwin = false
      ∧ (computeShadow exampleExt true twinCache [] [] {} twinDetail).outcome
          = Outcome.completed)
    ∧ (computeShadow exampleExt true twinCache [] [] {} twinDetail).report = some (1, 1)
    ∧ (computeShadow exampleExt true twinCache [] [] {} twinDetail).polygons = [[], []]
    ∧ CacheContract exampleExt twinCache [] {} twinDetail
        (computeShadow exampleExt true twinCache [] [] {} twinDetail) :=
  have hdone : (computeShadow exampleExt true twinCache [] [] {} twinDetail).outcome
      = Outcome.completed := by
    rw [twin_pass_hit [] [] {} rfl]
    rfl
  ⟨⟨rfl, by decide, by decide, by decide, hdone⟩,
    by rw [twin_pass_hit [] [] {} rfl]; rfl,
    by rw [twin_pass_hit [] [] {} rfl]; rfl,
    (cache_hit_and_miss exampleExt true twinCache [] [] {} twinDetail rfl (by decide)).1 hdone⟩

end FogOfWar
